import Mathlib

/-!
Verification development for the inca trip-planning core engines
(`patcher.py`, `applier.py`, `reducer.py`, `runner.py` of
`package/inca/handlers/`).

The Python code operates on plain nested dicts/lists/scalars.  We embed those
values as `JVal`, with dicts as insertion-ordered association lists (Python
dicts preserve insertion order; the documents the engines handle have unique
keys).  Fallible operations (Python code that can raise `TypeError`,
`KeyError`, `AttributeError` on malformed documents) return `Option`; `none`
models an exception escaping the engine.  `time.time()` is passed in as an
explicit `now : Int` parameter.
-/

namespace Inca

/-- Python `s.startswith(p)`, by characters. -/
def strStarts (s p : String) : Bool := p.data.isPrefixOf s.data

/-- One scan of the substring test. -/
def strHasCore (sub : List Char) : List Char → Bool
  | [] => sub.isEmpty
  | c :: rest => sub.isPrefixOf (c :: rest) || strHasCore sub rest

/-- Python `str.lstrip()` / `rstrip()` / `strip()` over whitespace. -/
def strLStrip (s : String) : String := ⟨s.data.dropWhile Char.isWhitespace⟩

def strRStrip (s : String) : String :=
  ⟨(s.data.reverse.dropWhile Char.isWhitespace).reverse⟩

def strStrip (s : String) : String := strRStrip (strLStrip s)

/-- Python `str.lower()` (ASCII). -/
def strLower (s : String) : String := ⟨s.data.map Char.toLower⟩

/-- Take/drop by characters. -/
def strTakeN (s : String) (n : Nat) : String := ⟨s.data.take n⟩

def strDropN (s : String) (n : Nat) : String := ⟨s.data.drop n⟩

/-- `str.split(sep)` for a one-character separator (accumulator holds the
current piece reversed). -/
def splitOnCharCore (sep : Char) : List Char → List Char → List String
  | acc, [] => [⟨acc.reverse⟩]
  | acc, c :: rest =>
      if c = sep then ⟨acc.reverse⟩ :: splitOnCharCore sep [] rest
      else splitOnCharCore sep (c :: acc) rest

def splitOnChar (s : String) (sep : Char) : List String :=
  splitOnCharCore sep [] s.data

/-- The number denoted by a list of decimal digits. -/
def digitsToNat (l : List Char) : Nat :=
  l.foldl (fun acc c => acc * 10 + (c.toNat - 48)) 0

/-- A Python-style JSON value: None, bool, int, float, str, list, dict.
Dicts are insertion-ordered association lists; floats are modelled as exact
rationals (the engines only ever write literal decimal weights). -/
inductive JVal where
  | null : JVal
  | bool : Bool → JVal
  | num : Int → JVal
  | fnum : Rat → JVal
  | str : String → JVal
  | arr : List JVal → JVal
  | obj : List (String × JVal) → JVal
deriving Inhabited

abbrev Fields := List (String × JVal)

namespace JVal

/-- Python truthiness of a value (`bool(v)`). -/
def truthy : JVal → Bool
  | .null => false
  | .bool b => b
  | .num n => n != 0
  | .fnum q => q != 0
  | .str s => s != ""
  | .arr l => !l.isEmpty
  | .obj l => !l.isEmpty

end JVal

open JVal

/-- Dict lookup (first occurrence, as CPython does for unique-key dicts). -/
def lookupJ : Fields → String → Option JVal
  | [], _ => none
  | (k, v) :: rest, key => if k = key then some v else lookupJ rest key

/-- Dict item assignment `d[k] = v`: replace the first binding of `k`
in place, else append (Python dicts append new keys at the end). -/
def osetL : Fields → String → JVal → Fields
  | [], key, v => [(key, v)]
  | (k, w) :: rest, key, v =>
      if k = key then (k, v) :: rest else (k, w) :: osetL rest key v

/-- `d.setdefault(k, dflt)` as a dict transformer. -/
def setdefaultL (l : Fields) (k : String) (dflt : JVal) : Fields :=
  match lookupJ l k with
  | some _ => l
  | none => l ++ [(k, dflt)]

/-- `d.get(k, dflt)` on a dict given as a field list. -/
def getD (l : Fields) (k : String) (dflt : JVal) : JVal :=
  (lookupJ l k).getD dflt

/-- `v.get(k, dflt)` on an arbitrary value: only dicts have `.get`
(anything else raises `AttributeError`, modelled as `none`). -/
def dictGet (v : JVal) (k : String) (dflt : JVal) : Option JVal :=
  match v with
  | .obj l => some (getD l k dflt)
  | _ => none

/-- `v.get(k)` (default `None`). -/
def dictGetN (v : JVal) (k : String) : Option JVal :=
  dictGet v k .null

/-- The field list of a dict value; `none` for non-dicts (models code that
requires a dict and would raise otherwise). -/
def asObj : JVal → Option Fields
  | .obj l => some l
  | _ => none

/-- The element list of a Python list value. -/
def asArr : JVal → Option (List JVal)
  | .arr l => some l
  | _ => none


/-- The fallibility monad of the embedding: definitionally `Option`, with a
non-inlined `bind` (`obind`).  Semantically identical to `Option`; the
separate instance only keeps compiled code linear in the length of the
engines' long monadic chains. -/
@[reducible] def PyM (α : Type) : Type := Option α

/-- `Option.bind`, not inlined. -/
@[noinline] def obind {α β : Type} (a : Option α) (f : α → Option β) : Option β :=
  Option.bind a f

instance : Monad PyM where
  pure := fun a => some a
  bind := obind

/-- `v is None`. -/
def isNullJ : JVal → Bool
  | .null => true
  | _ => false

/-- Python `a or b`. -/
def pyOr (a b : JVal) : JVal :=
  if truthy a then a else b

/-- Constructor tag, standing in for Python `type(v)`
(`NoneType/bool/int/str/list/dict` are pairwise distinct types). -/
def tagOf : JVal → Nat
  | .null => 0
  | .bool _ => 1
  | .num _ => 2
  | .fnum _ => 3
  | .str _ => 4
  | .arr _ => 5
  | .obj _ => 6

mutual

/-- Python `==` on embedded values: numeric comparison identifies `bool` with
`int` (`True == 1`), lists compare elementwise, dicts compare as finite maps
(key sets and values, ignoring order).  On the unique-key dicts the engines
build this agrees with CPython. -/
def pyEq : JVal → JVal → Bool
  | .null, .null => true
  | .bool a, .bool b => a = b
  | .bool a, .num n => (if a then (1 : Int) else 0) = n
  | .num n, .bool b => n = (if b then (1 : Int) else 0)
  | .num m, .num n => m = n
  | .fnum p, .fnum q => p = q
  | .num m, .fnum q => (m : Rat) = q
  | .fnum q, .num m => q = (m : Rat)
  | .bool a, .fnum q => (if a then (1 : Rat) else 0) = q
  | .fnum q, .bool a => q = (if a then (1 : Rat) else 0)
  | .str a, .str b => a = b
  | .arr a, .arr b => pyEqList a b
  | .obj a, .obj b => pyEqFields a b && (b.map Prod.fst).all (fun k => (lookupJ a k).isSome)
  | _, _ => false

def pyEqList : List JVal → List JVal → Bool
  | [], [] => true
  | x :: xs, y :: ys => pyEq x y && pyEqList xs ys
  | _, _ => false

def pyEqFields : Fields → Fields → Bool
  | [], _ => true
  | (k, v) :: rest, b =>
      (match lookupJ b k with
       | some w => pyEq v w
       | none => false) && pyEqFields rest b

end

/-- Join a dotted path: `prefix.k`, or `k` at the root. -/
def joinPath (pre k : String) : String :=
  if pre = "" then k else pre ++ "." ++ k

/-- The path reported for a changed node (`"$"` at the root). -/
def pathOrDollar (pre : String) : String :=
  if pre = "" then "$" else pre

mutual

/-- `Patcher._compute_changed_paths`: structural diff.  Nested dicts descend
to the most specific differing leaf; lists report the container path when not
`==`-equal; a type change reports the node itself.  Keys are visited in
`before`-then-`after`-only order (the source iterates a key set; path order is
immaterial to every consumer). -/
def changedPaths (before after : JVal) (pre : String) : List String :=
  if tagOf before = tagOf after then
    match before, after with
    | .obj b, .obj a =>
        changedFields b a pre ++
          (a.map Prod.fst).filterMap
            (fun k => if (lookupJ b k).isSome then none else some (joinPath pre k))
    | .arr b, .arr a => if pyEqList b a then [] else [pathOrDollar pre]
    | b, a => if pyEq b a then [] else [pathOrDollar pre]
  else [pathOrDollar pre]

def changedFields (b : Fields) (a : Fields) (pre : String) : List String :=
  match b with
  | [] => []
  | (k, bv) :: rest =>
      (match lookupJ a k with
       | some av => changedPaths bv av (joinPath pre k)
       | none => [joinPath pre k]) ++ changedFields rest a pre

end

mutual

/-- One value of `Patcher._deep_merge`: recurse when both the destination
value and the patch value are dicts, else the patch value replaces the
destination value outright. -/
def mergeVal (d : JVal) : JVal → JVal
  | JVal.obj pv =>
      match d with
      | JVal.obj dv => JVal.obj (mergeFields dv pv)
      | _ => JVal.obj pv
  | v => v

/-- `Patcher._deep_merge` on dict field lists: for each patch key in order,
recurse when both sides hold dicts, else the patch value replaces the
destination value outright. -/
def mergeFields (dst : Fields) : Fields → Fields
  | [] => dst
  | (k, v) :: rest =>
      let newv :=
        match lookupJ dst k with
        | some d => mergeVal d v
        | none => v
      mergeFields (osetL dst k newv) rest

end

/-- The empty selection that `_invalidate_caches.clear_selection` installs. -/
def emptySelection : JVal :=
  .obj [("bundle_id", .null), ("flight_option_id", .null), ("hotel_option_id", .null),
        ("flight_option_ids", .arr []), ("hotel_option_ids", .arr [])]

/-- The tail of `_ensure_working_memory_defaults`: setdefault the two id-list
keys inside `selected` when it is a dict. -/
def ensureSelectedIds (w : Fields) : Fields :=
  match lookupJ w "selected" with
  | some (.obj s) =>
      osetL w "selected"
        (.obj (setdefaultL (setdefaultL s "flight_option_ids" (.arr [])) "hotel_option_ids" (.arr [])))
  | _ => w

/-- `_ensure_working_memory_defaults` (identical in Patcher, Applier and
Reducer): setdefault the nine working-memory keys, and the two id-list keys
inside `selected` when it is a dict. -/
def ensureWMDefaults (wm : Fields) : Fields :=
  let w := setdefaultL wm "flight_quotes" (.arr [])
  let w := setdefaultL w "hotel_quotes" (.arr [])
  let w := setdefaultL w "flight_quotes_by_segment" (.arr [])
  let w := setdefaultL w "hotel_quotes_by_stay" (.arr [])
  let w := setdefaultL w "ranked_bundles" (.arr [])
  let w := setdefaultL w "risk_report" .null
  let w := setdefaultL w "holds" (.arr [])
  let w := setdefaultL w "bookings" (.arr [])
  let w := setdefaultL w "selected" emptySelection
  ensureSelectedIds w

/-- `any(cp.startswith(pref) for pref in prefixes for cp in changed_paths)`. -/
def anyStarts (changed : List String) (prefs : List String) : Bool :=
  changed.any (fun cp => prefs.any (fun p => strStarts cp p))

/-- One `clear_key` step of `_invalidate_caches`: skip when the key is absent,
else a list becomes `[]` and anything else becomes `None`, recording the
cleared path and the reason. -/
def clearKey (st : Fields × List String × List String) (key reason : String) :
    Fields × List String × List String :=
  let (wm, cleared, reasons) := st
  match lookupJ wm key with
  | none => (wm, cleared, reasons)
  | some v =>
      let newv := match v with | JVal.arr _ => JVal.arr ([] : List JVal) | _ => JVal.null
      (osetL wm key newv, cleared ++ ["working_memory." ++ key], reasons ++ [reason])

/-- `clear_selection`. -/
def clearSelection (st : Fields × List String × List String) (reason : String) :
    Fields × List String × List String :=
  let (wm, cleared, reasons) := st
  (osetL wm "selected" emptySelection, cleared ++ ["working_memory.selected"], reasons ++ [reason])

/-- The flight-inputs clearing chain of `_invalidate_caches`. -/
def invFlight (st : Fields × List String × List String) :
    Fields × List String × List String :=
  let s := clearKey st "flight_quotes" "Flight inputs changed → cleared flight quotes."
  let s := clearKey s "flight_quotes_by_segment" "Flight inputs changed → cleared flight quotes by segment."
  let s := clearKey s "ranked_bundles" "Flight inputs changed → cleared ranked bundles."
  let s := clearKey s "risk_report" "Flight inputs changed → cleared risk report."
  let s := clearKey s "holds" "Flight inputs changed → cleared holds."
  clearSelection s "Selection cleared because flight-derived artifacts are stale."

/-- The hotel-inputs clearing chain of `_invalidate_caches`. -/
def invHotel (st : Fields × List String × List String) :
    Fields × List String × List String :=
  let s := clearKey st "hotel_quotes" "Hotel inputs changed → cleared hotel quotes."
  let s := clearKey s "hotel_quotes_by_stay" "Hotel inputs changed → cleared hotel quotes by stay."
  let s := clearKey s "ranked_bundles" "Hotel inputs changed → cleared ranked bundles."
  let s := clearKey s "risk_report" "Hotel inputs changed → cleared risk report."
  let s := clearKey s "holds" "Hotel inputs changed → cleared holds."
  clearSelection s "Selection cleared because hotel-derived artifacts are stale."

/-- The policy/constraints branch of `_invalidate_caches`. -/
def invPolicy (st : Fields × List String × List String) (changed : List String) :
    Fields × List String × List String :=
  let s :=
    match getD st.1 "risk_report" .null with
    | JVal.null => st
    | _ => clearKey st "risk_report" "Policy/constraints changed → cleared risk report."
  if changed.any (fun cp =>
        strStarts cp "constraints.budget_total" ||
        strStarts cp "constraints.refundable_preference") then
    if truthy (getD s.1 "holds" .null) then
      clearKey s "holds" "Budget/refundability changed → cleared holds for safety."
    else s
  else s

/-- `Patcher._invalidate_caches` on the document's field list: ensure
working-memory defaults, then fire the prefix-driven clearing rules.
Returns the updated document fields and the `(cleared, reasons)` lists. -/
def invalidateCaches (docF : Fields) (changed : List String) :
    PyM (Fields × List String × List String) := do
  let docF := setdefaultL docF "working_memory" (.obj [])
  let wm0 ← asObj (getD docF "working_memory" .null)
  let wm1 := ensureWMDefaults wm0
  let st0 : Fields × List String × List String := (wm1, [], [])
  let st1 :=
    if anyStarts changed ["itinerary.segments", "preferences.flight", "party.travelers"] then
      invFlight st0
    else st0
  let st2 :=
    if anyStarts changed ["itinerary.lodging", "preferences.hotel"] then
      invHotel st1
    else st1
  let st3 :=
    if anyStarts changed ["policy", "constraints"] then
      invPolicy st2 changed
    else st2
  return (osetL docF "working_memory" (.obj st3.1), st3.2.1, st3.2.2)

/-- `Patcher._suggest_next_tools` (informational hints). -/
def suggestNextTools (docF : Fields) (changed : List String) : PyM (List String) := do
  let wm ← asObj (getD docF "working_memory" (.obj []))
  let changedP := fun (p : String) => changed.any (fun cp => strStarts cp p)
  let iti ← dictGet (JVal.obj docF) "itinerary" (.obj [])
  let lodging ← dictGet iti "lodging" (.obj [])
  let lodgingNeeded ← dictGet lodging "needed" (.bool true)
  let s1 : List String :=
    if changedP "itinerary." || changedP "party.travelers" then
      (if !truthy (getD wm "flight_quotes" .null) then ["flight_quote_search"] else []) ++
      (if truthy lodgingNeeded && !truthy (getD wm "hotel_quotes" .null) then
        ["hotel_quote_search"] else [])
    else []
  let s2 : List String :=
    if truthy (getD wm "flight_quotes" .null) &&
       (!truthy lodgingNeeded || truthy (getD wm "hotel_quotes" .null)) &&
       !truthy (getD wm "ranked_bundles" .null) then
      ["trip_option_ranker"]
    else []
  return s1 ++ s2

/-- Output of `Patcher.run`. -/
structure POut where
  tripIntent : JVal
  changed : List String
  cleared : List String
  reasons : List String
  suggested : List String

/-- The audit-note append of `Patcher.run`: a non-empty note lands on
`status.notes` (a non-list `notes` raises). -/
def appendNote (s1 : Fields) (source note : String) : PyM Fields :=
  if note = "" then some s1
  else
    match lookupJ s1 "notes" with
    | some (JVal.arr ns) =>
        some (osetL s1 "notes" (.arr (ns ++ [.str ("[" ++ source ++ "] " ++ note)])))
    | _ => none

/-- `Patcher.run`: deep-merge the patch into the document (patch wins), append
the audit note, diff against the pre-merge document, fire the invalidation
rules and compute hints.  `source`/`note` default to `"unknown"`/`""` when the
payload omits them. -/
def patcherRun (doc patch : JVal) (source note : String) : PyM POut := do
  let df ← asObj doc
  let pf ← asObj patch
  let merged := mergeFields df pf
  let m1 := setdefaultL merged "status" (.obj [])
  let statusF ← asObj (getD m1 "status" .null)
  let s1 := setdefaultL statusF "notes" (.arr [])
  let s2 ← appendNote s1 source note
  let m2 := osetL m1 "status" (.obj s2)
  let changed := changedPaths (.obj df) (.obj m2) ""
  let (m3, cleared, reasons) ← invalidateCaches m2 changed
  let sugg ← suggestNextTools m3 changed
  return ⟨.obj m3, changed, cleared, reasons, sugg⟩

/-! ## Reducer (`reducer.py`) -/

/-- An ASCII apostrophe, for message literals. -/
def apos : String := (Char.ofNat 39).toString

/-- `del d[k]` (first occurrence). -/
def removeKeyL : Fields → String → Fields
  | [], _ => []
  | (k, v) :: rest, key => if k = key then rest else (k, v) :: removeKeyL rest key

/-- Python `a != b` on embedded values. -/
def pyNe (a b : JVal) : Bool := !pyEq a b

/-- The string payload of a value; `none` models calling a `str` method on a
non-string (`AttributeError`). -/
def asStr : JVal → Option String
  | .str s => some s
  | _ => none

/-- `d[k]` on a value: dict subscription; a missing key is `KeyError`. -/
def subscr (v : JVal) (k : String) : Option JVal :=
  match v with
  | .obj l => lookupJ l k
  | _ => none

/-- Substring test (`sub in s`). -/
def strHas (s sub : String) : Bool :=
  strHasCore sub.data s.data

/-- `int(v)` for the values the engines feed it: ints, bools and decimal
strings; anything else raises. -/
def pyToInt (v : JVal) : Option Int :=
  match v with
  | .num n => some n
  | .fnum q => some (if q ≥ 0 then q.floor else q.ceil)
  | .bool b => some (if b then 1 else 0)
  | .str s =>
      let t := strStrip s
      let core := if strStarts t "-" then strDropN t 1 else t
      if core.length > 0 && core.data.all Char.isDigit then
        some (if strStarts t "-" then -(digitsToNat core.data : Int)
              else (digitsToNat core.data : Int))
      else none
  | _ => none

/-- Python `v < n` for an int bound: ints and bools compare numerically,
anything else raises `TypeError`. -/
def pyLtInt (v : JVal) (n : Int) : Option Bool :=
  match v with
  | .num m => some (m < n)
  | .fnum q => some (q < (n : Rat))
  | .bool b => some ((if b then (1 : Int) else 0) < n)
  | _ => none

/-- Decimal rendering of a float value (exact for the terminating decimals
the engines write; the fallback fraction form is never reached by them). -/
def ratDecimalRepr (q : Rat) : String :=
  let sign := if q < 0 then "-" else ""
  let n := q.num.natAbs
  let d := q.den
  match (List.range 7).find? (fun k => (n * 10 ^ k) % d = 0) with
  | some k =>
      let scaled := n * 10 ^ k / d
      if k = 0 then sign ++ toString scaled ++ ".0"
      else
        let str0 := toString scaled
        let padded := if str0.length ≤ k then
            String.mk (List.replicate (k + 1 - str0.length) (Char.ofNat 48)) ++ str0
          else str0
        sign ++ strTakeN padded (padded.length - k) ++ "." ++ strDropN padded (padded.length - k)
  | none => sign ++ toString n ++ "/" ++ toString d

mutual

/-- `repr(v)`: scalars as CPython prints them, containers recursively, with
simplified string escaping (no engine message the claims examine interpolates
a container). -/
def pyRepr : JVal → String
  | .null => "None"
  | .bool b => if b then "True" else "False"
  | .num n => toString n
  | .fnum q => ratDecimalRepr q
  | .str s => apos ++ s ++ apos
  | .arr l => "[" ++ pyReprList l ++ "]"
  | .obj l => "\x7b" ++ pyReprFields l ++ "\x7d"

def pyReprList : List JVal → String
  | [] => ""
  | [x] => pyRepr x
  | x :: y :: rest => pyRepr x ++ ", " ++ pyReprList (y :: rest)

def pyReprFields : Fields → String
  | [] => ""
  | [(k, v)] => apos ++ k ++ apos ++ ": " ++ pyRepr v
  | (k, v) :: kv :: rest =>
      apos ++ k ++ apos ++ ": " ++ pyRepr v ++ ", " ++ pyReprFields (kv :: rest)

end

/-- `str(v)` / f-string interpolation: strings verbatim, otherwise `repr`. -/
def pyStr : JVal → String
  | .str s => s
  | v => pyRepr v

/-- A reducer/runner tool call (`ToolCall(name, arguments)`; `call_id` is
never set by the v1 logic). -/
structure MTool where
  name : String
  arguments : JVal

/-- Output of `Reducer.run`: the mutated document, the ordered tool calls and
the user-facing messages (the `debug` dict is a copy of fields already
present here and is not modelled). -/
structure ROut where
  tripIntent : JVal
  toolCalls : List MTool
  uiMessages : List String

/-- `Reducer._get_flight_segment_indices`: indices of segments whose
`transport_mode` defaults to or equals `"flight"`. -/
def flightSegIdx (doc : JVal) : PyM (List Nat) := do
  let itiRaw ← dictGet doc "itinerary" (.obj [])
  let iti := pyOr itiRaw (.obj [])
  let segsRaw ← dictGet iti "segments" (.arr [])
  let segs ← asArr (pyOr segsRaw (.arr []))
  let flags ← segs.mapM (fun s => do
    let m ← dictGet (pyOr s (.obj [])) "transport_mode" (.str "flight")
    pure (pyEq m (.str "flight")))
  return flags.enum.filterMap (fun p => if p.2 then some p.1 else none)

/-- `Reducer._get_effective_stays` on the raw `itinerary` value (the method
only reads the document's itinerary): `lodging.stays` when non-empty, `[]`
when lodging is not needed, else one synthesized stay from the lodging-level
check-in/out and the first segment's destination. -/
def effectiveStaysCore (itiRaw : JVal) : PyM (List JVal) := do
  let iti := pyOr itiRaw (.obj [])
  let lodgRaw ← dictGet iti "lodging" (.obj [])
  let lodg := pyOr lodgRaw (.obj [])
  let staysV ← dictGetN lodg "stays"
  if truthy staysV then
    let stays ← asArr staysV
    return stays.map (fun s => pyOr s (.obj []))
  else
    let needed ← dictGet lodg "needed" (.bool true)
    if !truthy needed then
      return []
    else
      let segsRaw ← dictGet iti "segments" (.arr [])
      let segs ← asArr (pyOr segsRaw (.arr []))
      let destCode ←
        match segs with
        | [] => pure JVal.null
        | s0 :: _ => do
            let d ← dictGetN s0 "destination"
            dictGetN (pyOr d (.obj [])) "code"
      let ci ← dictGetN lodg "check_in"
      let co ← dictGetN lodg "check_out"
      let lh ← dictGetN lodg "location_hint"
      return [JVal.obj [("location_code", destCode), ("check_in", ci),
                        ("check_out", co), ("location_hint", lh)]]

/-- `_get_effective_stays` on the document. -/
def effectiveStays (doc : JVal) : PyM (List JVal) := do
  let itiRaw ← dictGet doc "itinerary" (.obj [])
  effectiveStaysCore itiRaw

/-- `Reducer._flatten_hotel_rooms`: one quote list per room; a per-stay entry
whose head is a dict is a single room, otherwise it is a list of room lists. -/
def flattenHotelRooms (byStay : List JVal) : PyM (List (List JVal)) := do
  let chunks ← byStay.mapM (fun stay =>
    if !truthy stay then pure ([] : List (List JVal))
    else do
      let l ← asArr stay
      match l with
      | [] => pure []
      | x :: _ =>
          match x with
          | JVal.obj _ => pure [l]
          | _ => l.mapM asArr)
  return chunks.flatten

/-- The greedy per-room split of `_room_occupancies_from_travelers` (4 max per
room). -/
def occLoop : Nat → List Nat
  | 0 => []
  | n + 1 =>
      let take := min 4 (n + 1)
      take :: occLoop (n + 1 - take)
termination_by n => n
decreasing_by omega

/-- `Reducer._room_occupancies_from_travelers`. -/
def roomOccupancies (doc : JVal) : PyM (List Nat) := do
  let partyRaw ← dictGetN doc "party"
  let travRaw ← dictGetN (pyOr partyRaw (.obj [])) "travelers"
  let trav := pyOr travRaw (.obj [])
  let aRaw ← dictGetN trav "adults"
  let cRaw ← dictGetN trav "children"
  let adults ← pyToInt (pyOr aRaw (.num 0))
  let children ← pyToInt (pyOr cRaw (.num 0))
  let total := max 0 adults + max 0 children
  if total ≤ 0 then
    return [1]
  else
    return occLoop total.toNat

/-- Missing-field paths of one segment (`origin.code`, `destination.code`,
`depart_date` when falsy), from the loop body of
`_required_fields_missing_for_quotes`. -/
def segMissingAt (i : Nat) (seg : JVal) : PyM (List String) := do
  let s := pyOr seg (.obj [])
  let o ← dictGetN s "origin"
  let oCode ← dictGetN (pyOr o (.obj [])) "code"
  let d ← dictGetN s "destination"
  let dCode ← dictGetN (pyOr d (.obj [])) "code"
  let dep ← dictGetN s "depart_date"
  let pre := "itinerary.segments[" ++ toString i ++ "]"
  return (if !truthy oCode then [pre ++ ".origin.code"] else []) ++
         (if !truthy dCode then [pre ++ ".destination.code"] else []) ++
         (if !truthy dep then [pre ++ ".depart_date"] else [])

/-- Missing-field paths of one explicit stay (`location_code`, `check_in`,
`check_out` when falsy). -/
def stayMissingAt (j : Nat) (st : JVal) : PyM (List String) := do
  let locA ← dictGetN st "location_code"
  let locB ← dictGetN st "destination"
  let loc := pyOr locA locB
  let ci ← dictGetN st "check_in"
  let co ← dictGetN st "check_out"
  let pre := "itinerary.lodging.stays[" ++ toString j ++ "]"
  return (if !truthy loc then [pre ++ ".location_code"] else []) ++
         (if !truthy ci then [pre ++ ".check_in"] else []) ++
         (if !truthy co then [pre ++ ".check_out"] else [])

/-- The lodging part of the missing-fields check. -/
def lodgingMissing (itiRaw : JVal) (lodg : JVal) : PyM (List String) := do
  let needed ← dictGet lodg "needed" (.bool true)
  if truthy needed then do
    let stays ← effectiveStaysCore itiRaw
    if stays.isEmpty then
      pure ["itinerary.lodging.check_in", "itinerary.lodging.check_out"]
    else do
      let staysKey ← dictGetN lodg "stays"
      if truthy staysKey then do
        let parts ← stays.enum.mapM (fun (p : Nat × JVal) => stayMissingAt p.1 p.2)
        pure parts.flatten
      else do
        let ci ← dictGetN lodg "check_in"
        let co ← dictGetN lodg "check_out"
        pure ((if !truthy ci then ["itinerary.lodging.check_in"] else []) ++
              (if !truthy co then ["itinerary.lodging.check_out"] else []))
  else
    pure []

/-- `Reducer._required_fields_missing_for_quotes`, factored through the only
two sections it reads (the raw `itinerary` and `party` values). -/
def requiredMissingCore (itiRaw partyRaw : JVal) : PyM (List String) := do
  let iti := pyOr itiRaw (.obj [])
  let segsRaw ← dictGet iti "segments" (.arr [])
  let segs ← asArr (pyOr segsRaw (.arr []))
  let segMissing ←
    if segs.isEmpty then
      pure ["itinerary.segments"]
    else do
      let parts ← segs.enum.mapM (fun (p : Nat × JVal) => segMissingAt p.1 p.2)
      pure parts.flatten
  let party := pyOr partyRaw (.obj [])
  let travRaw ← dictGet party "travelers" (.obj [])
  let adultsV ← dictGet travRaw "adults" (.num 0)
  let adultsLt ← pyLtInt adultsV 1
  let adultMissing := if adultsLt then ["party.travelers.adults"] else []
  let lodgRaw ← dictGet iti "lodging" (.obj [])
  let lodg := pyOr lodgRaw (.obj [])
  let lodgMissing ← lodgingMissing itiRaw lodg
  return segMissing ++ adultMissing ++ lodgMissing

/-- `_required_fields_missing_for_quotes` on the document. -/
def requiredMissing (doc : JVal) : PyM (List String) := do
  let itiRaw ← dictGet doc "itinerary" (.obj [])
  let partyRaw ← dictGet doc "party" (.obj [])
  requiredMissingCore itiRaw partyRaw

/-- The confirmation keyword tuple of `Reducer._is_confirmation`. -/
def confirmationsList : List String :=
  ["yes", "y", "ok", "okay", "looks good", "look good", "go ahead", "correct",
   "that" ++ apos ++ "s right", "thats right", "confirm", "proceed", "search", "find flights",
   "find hotels", "get quotes", "sounds good", "perfect", "good", "continue"]

/-- `Reducer._is_confirmation` (keyword-based fallback classifier). -/
def isConfirmation (text : String) : Bool :=
  let t := strLower (strStrip text)
  if t = "" then false
  else if confirmationsList.contains t then true
  else if t.length ≤ 4 && ["yes", "y", "ok"].contains t then true
  else if ["yes ", "yes,", "ok ", "ok,", "sure ", "go ahead"].any (fun c => strStarts t c) then true
  else if t.length < 50 &&
      (strHas t "go ahead" || strHas t "looks good" || strHas t "sounds good" ||
       strHas t ("let" ++ apos ++ "s go")) then true
  else false

/-- `_is_confirmation(v)` for an arbitrary value: `(text or "").strip()`
raises unless the truthy value is a string. -/
def isConfirmationJ (v : JVal) : PyM Bool :=
  if truthy v then (asStr v).map isConfirmation else some false

/-- The traveler-count fragments of `_format_trip_summary`. -/
def summaryTravParts (trav : JVal) : PyM (List String) := do
  let adultsV ← dictGet trav "adults" (.num 0)
  let adults := pyOr adultsV (.num 0)
  let childrenV ← dictGet trav "children" (.num 0)
  let children := pyOr childrenV (.num 0)
  let infantsV ← dictGet trav "infants" (.num 0)
  let infants := pyOr infantsV (.num 0)
  return (if truthy adults then
           [pyStr adults ++ " adult" ++ (if pyNe adults (.num 1) then "s" else "")] else []) ++
         (if truthy children then [pyStr children ++ " child/ren"] else []) ++
         (if truthy infants then
           [pyStr infants ++ " infant" ++ (if pyNe infants (.num 1) then "s" else "")] else [])

/-- One `Leg i: ORIG → DEST on DATE` line of `_format_trip_summary`. -/
def summaryLegLine (i : Nat) (s : JVal) : PyM String := do
  let o ← dictGetN s "origin"
  let oCode ← dictGetN (pyOr o (.obj [])) "code"
  let d ← dictGetN s "destination"
  let dCode ← dictGetN (pyOr d (.obj [])) "code"
  let dep ← dictGetN s "depart_date"
  return "  - Leg " ++ toString (i + 1) ++ ": " ++ pyStr (pyOr oCode (.str "?")) ++
         " → " ++ pyStr (pyOr dCode (.str "?")) ++ " on " ++ pyStr (pyOr dep (.str "?"))

/-- One `Stay j: LOC, check-in CI, check-out CO` line of
`_format_trip_summary`. -/
def summaryStayLine (j : Nat) (st : JVal) : PyM String := do
  let locA ← dictGetN st "location_code"
  let locB ← dictGetN st "destination"
  let loc := pyOr (pyOr locA locB) (.str "?")
  let ci ← dictGetN st "check_in"
  let co ← dictGetN st "check_out"
  return "  - Stay " ++ toString (j + 1) ++ ": " ++ pyStr loc ++ ", check-in " ++
         pyStr (pyOr ci (.str "?")) ++ ", check-out " ++ pyStr (pyOr co (.str "?"))

/-- The hotel-stays block of `_format_trip_summary`. -/
def summaryStayLines (itiRaw : JVal) (lodg : JVal) : PyM (List String) := do
  let needed ← dictGet lodg "needed" (.bool true)
  if truthy needed then do
    let stays ← effectiveStaysCore itiRaw
    if stays.isEmpty then pure []
    else do
      let sls ← stays.enum.mapM (fun (p : Nat × JVal) => summaryStayLine p.1 p.2)
      pure ("- **Hotel stays:**" :: sls)
  else
    pure []

/-- `Reducer._format_trip_summary`. -/
def formatTripSummary (doc : JVal) : PyM String := do
  let line0 := "I have everything I need. Here’s your trip summary:"
  let itiRaw ← dictGet doc "itinerary" (.obj [])
  let iti := pyOr itiRaw (.obj [])
  let segsRaw ← dictGet iti "segments" (.arr [])
  let segs ← asArr (pyOr segsRaw (.arr []))
  let partyRaw ← dictGet doc "party" (.obj [])
  let travRaw ← dictGet (pyOr partyRaw (.obj [])) "travelers" (.obj [])
  let travParts ← summaryTravParts (pyOr travRaw (.obj []))
  let travLines := if travParts.isEmpty then [] else
    ["- **Travelers:** " ++ String.intercalate ", " travParts]
  let segLines ←
    if segs.isEmpty then pure []
    else do
      let legs ← segs.enum.mapM (fun (p : Nat × JVal) => summaryLegLine p.1 p.2)
      pure ("- **Flights:**" :: legs)
  let lodgRaw ← dictGet iti "lodging" (.obj [])
  let stayLines ← summaryStayLines itiRaw (pyOr lodgRaw (.obj []))
  return String.intercalate "\n" (line0 :: (travLines ++ segLines ++ stayLines))

/-- One entry of `segments_summary` in `_summarize_intent_for_tools`. -/
def segSummaryOf (s : JVal) : PyM JVal := do
  let o ← dictGetN s "origin"
  let oCode ← dictGetN (pyOr o (.obj [])) "code"
  let d ← dictGetN s "destination"
  let dCode ← dictGetN (pyOr d (.obj [])) "code"
  let dep ← dictGetN s "depart_date"
  let tm ← dictGet s "transport_mode" (.str "flight")
  return JVal.obj [("origin", oCode), ("destination", dCode),
                   ("depart_date", dep), ("transport_mode", tm)]

/-- One entry of `stays_summary` in `_summarize_intent_for_tools`. -/
def staySummaryOf (st : JVal) : PyM JVal := do
  let locA ← dictGetN st "location_code"
  let locB ← dictGetN st "destination"
  let ci ← dictGetN st "check_in"
  let co ← dictGetN st "check_out"
  return JVal.obj [("location_code", pyOr locA locB), ("check_in", ci), ("check_out", co)]

/-- `(segs[0].get(key) or {}).get("code") if segs else None`. -/
def firstSegCode (segs : List JVal) (key : String) : PyM JVal :=
  match segs with
  | [] => some JVal.null
  | s0 :: _ => do
      let o ← dictGetN s0 key
      dictGetN (pyOr o (.obj [])) "code"

/-- `segs[i].get("depart_date")` for the first/second segment, else `None`. -/
def segDepartAt (segs : List JVal) (i : Nat) : PyM JVal :=
  match segs.drop i with
  | [] => some JVal.null
  | s :: _ => dictGetN s "depart_date"

/-- `Reducer._summarize_intent_for_tools`. -/
def summarizeIntentForTools (doc : JVal) : PyM JVal := do
  let itiRaw ← dictGet doc "itinerary" (.obj [])
  let iti := pyOr itiRaw (.obj [])
  let segsRaw ← dictGet iti "segments" (.arr [])
  let segs ← asArr (pyOr segsRaw (.arr []))
  let partyRaw ← dictGet doc "party" (.obj [])
  let party := pyOr partyRaw (.obj [])
  let stays ← effectiveStays doc
  let segSummaries ← segs.mapM segSummaryOf
  let staySummaries ← stays.mapM staySummaryOf
  let origin ← firstSegCode segs "origin"
  let dest ← firstSegCode segs "destination"
  let tripType ← dictGetN iti "trip_type"
  let depDate ← segDepartAt segs 0
  let retDate ← if segs.length > 1 then segDepartAt segs 1 else pure JVal.null
  let travRaw ← dictGetN party "travelers"
  let consRaw ← dictGetN doc "constraints"
  return JVal.obj
    [("origin", origin), ("destination", dest), ("trip_type", tripType),
     ("segments", .arr segSummaries), ("stays", .arr staySummaries),
     ("dates", .obj [("departure_date", depDate), ("return_date", retDate)]),
     ("travelers", pyOr travRaw (.obj [])), ("constraints", pyOr consRaw (.obj []))]

/-- `Reducer._build_flight_quote_args`. -/
def buildFlightQuoteArgs (doc : JVal) (segIdx : Nat) : PyM JVal := do
  let iti ← subscr doc "itinerary"
  let segsV ← subscr iti "segments"
  let segs ← asArr segsV
  if h : segIdx < segs.length then do
    let seg := pyOr (segs.get ⟨segIdx, h⟩) (.obj [])
    let party ← subscr doc "party"
    let travelers ← subscr party "travelers"
    let prefsRaw ← dictGet doc "preferences" (.obj [])
    let flightPrefs ← dictGet (pyOr prefsRaw (.obj [])) "flight" (.obj [])
    let prefs := pyOr flightPrefs (.obj [])
    let o ← dictGetN seg "origin"
    let oCode ← dictGetN (pyOr o (.obj [])) "code"
    let d ← dictGetN seg "destination"
    let dCode ← dictGetN (pyOr d (.obj [])) "code"
    let dep ← dictGetN seg "depart_date"
    let cabin ← dictGet prefs "cabin" (.str "economy")
    let maxStops ← dictGet prefs "max_stops" (.num 1)
    let avoidRedEye ← dictGet prefs "avoid_red_eye" (.bool false)
    let preferred ← dictGet prefs "preferred_airlines" (.arr [])
    return JVal.obj
      [("origin", oCode), ("destination", dCode), ("departure_date", dep),
       ("trip_type", .str "one_way"), ("travelers", travelers), ("cabin", cabin),
       ("constraints", .obj [("max_stops", maxStops), ("avoid_red_eye", avoidRedEye),
                             ("preferred_airlines", preferred)]),
       ("result_limit", .num 10), ("segment_index", .num segIdx)]
  else
    return JVal.obj []

/-- `Reducer._build_hotel_quote_args` (the reducer always passes the stay). -/
def buildHotelQuoteArgs (doc : JVal) (stayIdx : Nat) (stay : JVal) : PyM JVal := do
  let itiRaw ← dictGetN doc "itinerary"
  let iti := pyOr itiRaw (.obj [])
  let lodgRaw ← dictGetN iti "lodging"
  let lodg := pyOr lodgRaw (.obj [])
  let prefsRaw ← dictGet doc "preferences" (.obj [])
  let hotelPrefs ← dictGet (pyOr prefsRaw (.obj [])) "hotel" (.obj [])
  let hp := pyOr hotelPrefs (.obj [])
  let locA ← dictGetN stay "location_code"
  let locB ← dictGetN stay "destination"
  let staysKey ← dictGetN lodg "stays"
  let hint ← dictGetN lodg "location_hint"
  let dest := pyOr (pyOr locA locB) (if truthy staysKey then .null else hint)
  let partyRaw ← dictGetN doc "party"
  let ci ← dictGetN stay "check_in"
  let co ← dictGetN stay "check_out"
  let starMin ← dictGet hp "star_min" (.num 3)
  let refOnly ← dictGet hp "refundable_only" (.bool false)
  let stayHint ← dictGetN stay "location_hint"
  return JVal.obj
    [("schema", .str "renglo.trip_intent.v1"), ("itinerary", iti),
     ("party", pyOr partyRaw (.obj [])), ("stay_index", .num stayIdx),
     ("destination", dest),
     ("dates", .obj [("start_date", ci), ("end_date", co)]),
     ("constraints", .obj [("hotel_star_min", starMin), ("refundable_only", refOnly),
                           ("location_hint", pyOr stayHint hint)]),
     ("result_limit", .num 10)]

/-- `Reducer._render_bundles`. -/
def renderBundles (doc : JVal) : PyM String := do
  let wmRaw ← dictGet doc "working_memory" (.obj [])
  let wm := pyOr wmRaw (.obj [])
  let bundlesRaw ← dictGetN wm "ranked_bundles"
  let bundles ← asArr (pyOr bundlesRaw (.arr []))
  let bundleLines ← (bundles.take 3).mapM (fun b => do
    let bid ← dictGetN b "bundle_id"
    let etRaw ← dictGetN b "estimated_total"
    let et := pyOr etRaw (.obj [])
    let amount ← dictGetN et "amount"
    let currency ← dictGet et "currency" (.str "USD")
    let why ← dictGet b "why_this_bundle" (.str "")
    let line := strRStrip ("- " ++ pyStr bid ++ ": total " ++ pyStr amount ++ " " ++ pyStr currency ++
                 " — " ++ pyStr why)
    let tosRaw ← dictGetN b "tradeoffs"
    let tos ← asArr (pyOr tosRaw (.arr []))
    pure (line :: (tos.take 2).map (fun t => "  - tradeoff: " ++ pyStr t)))
  return String.intercalate "\n"
    (("Here are the top options:" :: bundleLines.flatten) ++
     ["Reply with a bundle_id to risk-check it, or tell me what to change."])

/-! ### Reducer document-mutation helpers

The source mutates `trip_intent` in place through the `status` and
`working_memory` aliases; here those writes go through the document's field
list. -/

/-- The `status` dict of the document (`none` when it is not a dict, where
the source's attribute access would raise). -/
def getStatusF (df : Fields) : PyM Fields :=
  asObj (getD df "status" .null)

/-- `status[k] = v` through the document. -/
def setStatus (df : Fields) (k : String) (v : JVal) : PyM Fields := do
  let s ← getStatusF df
  return osetL df "status" (.obj (osetL s k v))

/-- The `working_memory` dict of the document. -/
def getWMF (df : Fields) : PyM Fields :=
  asObj (getD df "working_memory" .null)

/-- Replace the document's `working_memory`. -/
def setWM (df : Fields) (wm : Fields) : Fields :=
  osetL df "working_memory" (.obj wm)

/-- `sel.get(pluralKey) or ([sel.get(singKey)] if sel.get(singKey) else [])`
(the selected-id extraction used by the bundle/hold/purchase branches). -/
def idsOf (sel : JVal) (pluralKey singKey : String) : PyM (List JVal) := do
  let idsV ← dictGetN sel pluralKey
  if truthy idsV then
    asArr idsV
  else do
    let idV ← dictGetN sel singKey
    pure (if truthy idV then [idV] else [])

/-- `next((b for b in bundles if b.get("bundle_id") == bid), None)`. -/
def firstBundleMatch (bundles : List JVal) (bid : JVal) : PyM (Option JVal) :=
  match bundles with
  | [] => pure none
  | b :: rest => do
      let v ← dictGetN b "bundle_id"
      if pyEq v bid then pure (some b) else firstBundleMatch rest bid

/-- The inner loop of the selected-option scan: the first option of the group
whose `option_id` occurs in `ids`. -/
def firstWithOptionId (opts : List JVal) (ids : List JVal) : PyM (Option JVal) :=
  match opts with
  | [] => pure none
  | o :: rest => do
      let oid ← dictGetN o "option_id"
      if ids.any (fun i => pyEq oid i) then pure (some o) else firstWithOptionId rest ids

/-- `for opts in groups: for o in (opts or []): if o.get("option_id") in ids:
append(o); break`. -/
def pickSelected (groups : List JVal) (ids : List JVal) : PyM (List JVal) :=
  match groups with
  | [] => pure []
  | g :: rest => do
      let l ← asArr (pyOr g (.arr []))
      let hd ← firstWithOptionId l ids
      let tl ← pickSelected rest ids
      pure ((match hd with | some o => [o] | none => []) ++ tl)

/-- `next((o for o in opts if o.get("option_id") == target), {})`. -/
def firstEqOption (opts : List JVal) (target : JVal) : PyM JVal :=
  match opts with
  | [] => pure (JVal.obj [])
  | o :: rest => do
      let oid ← dictGetN o "option_id"
      if pyEq oid target then pure o else firstEqOption rest target

/-- `[h["hold_id"] for h in holds if h.get("status") == "held"]`. -/
def heldHoldIds (holds : List JVal) : PyM (List JVal) :=
  match holds with
  | [] => pure []
  | h :: rest => do
      let st ← dictGetN h "status"
      if pyEq st (.str "held") then do
        let hid ← subscr h "hold_id"
        let tl ← heldHoldIds rest
        pure (hid :: tl)
      else heldHoldIds rest

/-! ### Reducer event branches -/

/-- The `USER_MESSAGE` branch of `Reducer.run`: force intake (preserving
`awaiting_confirmation`), clear any previous tool error, and queue the
extraction operation with the current-intent context. -/
def evUserMessage (df0 : Fields) (evData : JVal) : PyM (Fields × List MTool) := do
  let df ← setStatus df0 "phase" (.str "intake")
  let st ← getStatusF df
  let cur := getD st "state" .null
  let df ← if pyNe cur (.str "awaiting_confirmation") then
      setStatus df "state" (.str "collecting_requirements")
    else pure df
  let st2 ← getStatusF df
  let df := if (lookupJ st2 "last_tool_error").isSome then
      osetL df "status" (.obj (removeKeyL st2 "last_tool_error"))
    else df
  let reqRaw ← dictGet (JVal.obj df) "request" (.obj [])
  let req := pyOr reqRaw (.obj [])
  let tz ← dictGet req "timezone" (.str "America/New_York")
  let curIntent ← summarizeIntentForTools (.obj df)
  let text ← subscr evData "text"
  let ctx : JVal := .obj [("timezone", tz), ("current_intent", curIntent)]
  return (df, [⟨"trip_requirements_extract", .obj [("user_message", text), ("context", ctx)]⟩])

/-- The `USER_SELECTED_BUNDLE` branch: record the selection, resolve the
chosen options out of the quote caches and queue the risk check. -/
def evSelectedBundle (df0 : Fields) (evData : JVal) : PyM (Fields × List MTool) := do
  let bid ← subscr evData "bundle_id"
  let wm0 ← getWMF df0
  let sel0 ← asObj (getD wm0 "selected" .null)
  let sel1 := osetL sel0 "bundle_id" bid
  let bundles ← asArr (pyOr (getD wm0 "ranked_bundles" .null) (.arr []))
  let bundleOpt ← firstBundleMatch bundles bid
  let sel2 ←
    match bundleOpt with
    | none => pure sel1
    | some b => do
        let f1 ← dictGetN b "flight_option_id"
        let h1 ← dictGetN b "hotel_option_id"
        let fids ← dictGetN b "flight_option_ids"
        let hids ← dictGetN b "hotel_option_ids"
        pure (osetL (osetL (osetL (osetL sel1 "flight_option_id" f1) "hotel_option_id" h1)
              "flight_option_ids" (pyOr fids (.arr []))) "hotel_option_ids" (pyOr hids (.arr [])))
  let wm := osetL wm0 "selected" (.obj sel2)
  let df := setWM df0 wm
  let df ← setStatus df "phase" (.str "quote")
  let df ← setStatus df "state" (.str "risk_checking")
  let sel : JVal := .obj sel2
  let flightIds ← idsOf sel "flight_option_ids" "flight_option_id"
  let hotelIds ← idsOf sel "hotel_option_ids" "hotel_option_id"
  let bySegV := getD wm "flight_quotes_by_segment" .null
  let flightQuotesAllV := if truthy bySegV then bySegV
    else pyOr (getD wm "flight_quotes" .null) (.arr [])
  let byStayV := getD wm "hotel_quotes_by_stay" .null
  let hotelGroups ←
    if truthy byStayV then do
      let l ← asArr byStayV
      let fl ← flattenHotelRooms l
      pure (fl.map (fun r => JVal.arr r))
    else
      pure [pyOr (getD wm "hotel_quotes" .null) (.arr [])]
  let fqa ← asArr flightQuotesAllV
  let flightGroups :=
    match fqa with
    | [] => ([] : List JVal)
    | x :: _ =>
        match x with
        | JVal.arr _ => fqa
        | _ => [JVal.arr fqa]
  let selF0 ← pickSelected flightGroups flightIds
  let selH0 ← pickSelected hotelGroups hotelIds
  let fid1 ← dictGetN sel "flight_option_id"
  let selF1 ←
    if selF0.isEmpty && truthy fid1 then do
      let t ← subscr sel "flight_option_id"
      let flat ← asArr (pyOr (getD wm "flight_quotes" .null) (.arr []))
      let v ← firstEqOption flat t
      pure [v]
    else pure selF0
  let hid1 ← dictGetN sel "hotel_option_id"
  let selH1 ←
    if selH0.isEmpty && truthy hid1 then do
      let t ← subscr sel "hotel_option_id"
      let flat ← asArr (pyOr (getD wm "hotel_quotes" .null) (.arr []))
      let v ← firstEqOption flat t
      pure [v]
    else pure selH0
  let selFlights := if selF1.isEmpty then [JVal.obj []] else selF1
  let selHotels := if selH1.isEmpty then [JVal.obj []] else selH1
  let selFlight := selFlights.headD (JVal.obj [])
  let selHotel := selHotels.headD (JVal.obj [])
  let summary ← summarizeIntentForTools (.obj df)
  let polRaw ← dictGet (.obj df) "policy" (.obj [])
  let rules ← dictGet (pyOr polRaw (.obj [])) "rules" (.obj [])
  let args : JVal := .obj
    [("trip_intent", summary), ("selected_flight", selFlight), ("selected_hotel", selHotel),
     ("selected_flights", .arr selFlights), ("selected_hotels", .arr selHotels),
     ("org_policy", rules)]
  return (df, [⟨"noma/policy_and_risk_check", args⟩])

/-- The `USER_REQUEST_HOLD` branch: require a selected bundle and a
non-blocking risk report, then queue hold creation. -/
def evRequestHold (df0 : Fields) : PyM (Fields × List MTool × List String) := do
  let wm ← getWMF df0
  let sel := pyOr (getD wm "selected" (.obj [])) (.obj [])
  let rr := pyOr (getD wm "risk_report" .null) (.obj [])
  let selBid ← dictGetN sel "bundle_id"
  if !truthy selBid then
    return (df0, [], ["Please pick a bundle_id first."])
  else do
    let blocking ← dictGetN rr "blocking_issues"
    if truthy blocking then
      return (df0, [],
        ["I can’t place holds because the selected bundle has blocking policy issues."])
    else do
      let partyRaw ← dictGet (JVal.obj df0) "party" (.obj [])
      let tpiRaw ← dictGet (pyOr partyRaw (.obj [])) "traveler_profile_ids" (.arr [])
      let tpi := pyOr tpiRaw (.arr [])
      let flightIds ← idsOf sel "flight_option_ids" "flight_option_id"
      let hotelIds ← idsOf sel "hotel_option_ids" "hotel_option_id"
      let items :=
        (flightIds.filter (fun v => truthy v)).map (fun fid =>
          JVal.obj [("item_type", .str "flight"), ("option_id", fid),
                    ("traveler_profile_ids", tpi)]) ++
        (hotelIds.filter (fun v => truthy v)).map (fun hid =>
          JVal.obj [("item_type", .str "hotel"), ("option_id", hid),
                    ("traveler_profile_ids", tpi)])
      if items.isEmpty then
        return (df0, [], ["Missing selected flight/hotel option ids. Please select the bundle again."])
      else do
        let df ← setStatus df0 "phase" (.str "book")
        let df ← setStatus df "state" (.str "placing_holds")
        let tripId ← dictGetN (JVal.obj df) "trip_id"
        let bidV ← dictGetN sel "bundle_id"
        let key := "hold_" ++ pyStr tripId ++ "_" ++ pyStr bidV
        return (df, [⟨"noma/reservation_hold_create",
                      .obj [("idempotency_key", .str key), ("items", .arr items)]⟩], [])

/-- The `USER_APPROVED_PURCHASE` branch: require holds with status `"held"`,
then queue the purchase. -/
def evApprovedPurchase (df0 : Fields) (evData : JVal) : PyM (Fields × List MTool × List String) := do
  let wm ← getWMF df0
  let holds ← asArr (pyOr (getD wm "holds" .null) (.arr []))
  let holdIds ← heldHoldIds holds
  if holdIds.isEmpty then
    return (df0, [],
      ["No active holds found. Say " ++ apos ++ "hold" ++ apos ++ " first, then approve purchase."])
  else do
    let df ← setStatus df0 "phase" (.str "book")
    let df ← setStatus df "state" (.str "purchasing")
    let tripId ← dictGetN (JVal.obj df) "trip_id"
    let tok ← subscr evData "approval_token"
    let pm ← subscr evData "payment_method_id"
    let partyRaw ← dictGet (JVal.obj df) "party" (.obj [])
    let contactRaw ← dictGet (pyOr partyRaw (.obj [])) "contact" (.obj [])
    let email ← dictGetN (pyOr contactRaw (.obj [])) "email"
    let args : JVal := .obj
      [("idempotency_key", .str ("purchase_" ++ pyStr tripId)), ("approval_token", tok),
       ("hold_ids", .arr holdIds), ("payment_method_id", pm), ("contact_email", email)]
    return (df, [⟨"noma/booking_confirm_and_purchase", args⟩], [])

/-- The `TOOL_ERROR` branch: record the failure, force `(error, retryable)`
and return with **no** tool calls so the failed call is not re-queued. -/
def evToolError (df0 : Fields) (evData : JVal) (now : Int) : PyM ROut := do
  let df ← setStatus df0 "phase" (.str "error")
  let df ← setStatus df "state" (.str "retryable")
  let toolName ← dictGet evData "tool_name" (.str "unknown")
  let errText ← dictGet evData "error" (.str "Unknown error")
  let msg := "Tool error: " ++ pyStr toolName ++ " — " ++ pyStr errText
  let df ← setStatus df "last_tool_error"
    (.obj [("tool_name", toolName), ("error", errText), ("at", .num now)])
  let st ← getStatusF df
  let st := setdefaultL st "notes" (.arr [])
  let notes ← asArr (getD st "notes" .null)
  let note := "[tool_error] " ++ pyStr toolName ++ " failed: " ++ pyStr errText ++
    ". Say " ++ apos ++ "try again" ++ apos ++ " or send a new message to re-run."
  let df := osetL df "status" (.obj (osetL st "notes" (.arr (notes ++ [.str note]))))
  return ⟨.obj df, [], [msg]⟩

/-! ### Reducer quoting/ranking section -/

/-- The per-segment stored flight quotes the quoting walk inspects:
`(by_seg[i] if i < len(by_seg) else None) if by_seg else (flat if i == 0 else
None)`. -/
def segQuotesAt (bySeg flatF : List JVal) (i : Nat) : JVal :=
  if !bySeg.isEmpty then (if i < bySeg.length then bySeg.getD i .null else .null)
  else (if i = 0 then .arr flatF else .null)

/-- The per-stay stored hotel quotes the quoting walk inspects. -/
def stayQuotesAt (byStay flatH : List JVal) (j : Nat) : JVal :=
  if !byStay.isEmpty then (if j < byStay.length then byStay.getD j .null else .null)
  else (if j = 0 then .arr flatH else .null)

/-- `has_all_flight_quotes` of `Reducer.run` (with the trailing
no-flight-segments override). -/
def hasAllFlightQuotes (fIdx : List Nat) (bySeg flatF : List JVal) : Bool :=
  if fIdx.isEmpty then true
  else
    (!bySeg.isEmpty && decide (bySeg.length ≥ fIdx.length) &&
      (List.range (min fIdx.length bySeg.length)).all (fun i => truthy (bySeg.getD i .null)))
    || (!flatF.isEmpty && (fIdx.isEmpty || fIdx.length = 1))

/-- `has_all_hotel_quotes` of `Reducer.run`. -/
def hasAllHotelQuotes (lodgingNeeded : Bool) (stays : List JVal) (byStay flatH : List JVal) : Bool :=
  !lodgingNeeded
  || (!byStay.isEmpty && decide (byStay.length ≥ stays.length) &&
       (List.range stays.length).all (fun j => truthy (byStay.getD j .null)))
  || (!flatH.isEmpty && (stays.isEmpty || stays.length = 1))

/-- `room_counts_per_stay` of the ranker arguments. -/
def roomCountsOf (byStay : List JVal) : PyM (List Int) :=
  byStay.mapM (fun stay =>
    if !truthy stay then pure (0 : Int)
    else do
      let l ← asArr stay
      match l with
      | [] => pure 0
      | x :: _ =>
          match x with
          | JVal.obj _ => pure 1
          | _ => pure (l.length : Int))

/-- The ranker tool arguments (`ranker_args` of `Reducer.run`). -/
def rankerArgsOf (df : Fields) (wm : Fields) (useMulti : Bool)
    (bySeg byStay flatF flatH : List JVal) : PyM JVal := do
  let summary ← summarizeIntentForTools (.obj df)
  let weights : JVal := .obj
    [("price", .fnum (1 / 2)), ("duration", .fnum (1 / 5)),
     ("refundable", .fnum (1 / 5)), ("convenience", .fnum (1 / 10))]
  let base : Fields := [("trip_intent", summary), ("ranking_policy", .obj [("weights", weights)])]
  if useMulti && (!bySeg.isEmpty || !byStay.isEmpty) then do
    let fobs := if bySeg.isEmpty then [JVal.arr flatF] else bySeg
    let flat2 ← flattenHotelRooms byStay
    let hobs := if flat2.isEmpty then [JVal.arr flatH] else flat2.map (fun r => JVal.arr r)
    let roomCounts ← roomCountsOf byStay
    let args1 := base ++ [("flight_options_by_segment", .arr fobs),
                          ("hotel_options_by_stay", .arr hobs)]
    if !roomCounts.isEmpty then do
      let occ ← roomOccupancies (.obj df)
      let withRc := args1 ++ [("room_counts_per_stay", .arr (roomCounts.map JVal.num))]
      if !occ.isEmpty && decide ((occ.foldl (· + ·) 0) > 0) then
        pure (JVal.obj (withRc ++ [("room_occupancies", .arr (occ.map (fun n => JVal.num n)))]))
      else pure (JVal.obj withRc)
    else pure (JVal.obj args1)
  else
    pure (JVal.obj (base ++
      [("flight_options", pyOr (getD wm "flight_quotes" .null) (.arr [])),
       ("hotel_options", pyOr (getD wm "hotel_quotes" .null) (.arr []))]))

/-- The risk-report messaging block at the end of `Reducer.run`. -/
def riskMessages (rrV : JVal) : PyM (List String) := do
  if truthy rrV then do
    let blocking ← dictGetN rrV "blocking_issues"
    if truthy blocking then do
      let blV ← subscr rrV "blocking_issues"
      let bl ← asArr blV
      pure (["Selected bundle has blocking issues:"] ++ bl.map (fun bi => "- " ++ pyStr bi))
    else do
      let risks ← dictGetN rrV "risks"
      let riskLines ←
        if truthy risks then do
          let rl ← asArr risks
          pure (["Risks to note:"] ++ rl.map (fun r => "- " ++ pyStr r))
        else pure ([] : List String)
      pure (riskLines ++
        ["Say " ++ apos ++ "hold" ++ apos ++ " to place holds, or pick a different bundle_id."])
  else
    pure []

/-- The flight-leg walk of the quoting tail: queue one quote call for the
first flight segment lacking quotes. -/
def flightQuoteStep (df0 : Fields) (tcs0 : List MTool) (fIdx : List Nat)
    (bySeg flatF : List JVal) : PyM (Fields × List MTool) :=
  match fIdx.find? (fun i => !truthy (segQuotesAt bySeg flatF i)) with
  | none => pure (df0, tcs0)
  | some i => do
      let df ← setStatus df0 "phase" (.str "quote")
      let df ← setStatus df "state" (.str "quoting_flights")
      let args ← buildFlightQuoteArgs (.obj df) i
      pure (df, if truthy args then tcs0 ++ [⟨"noma/flight_quote_search", args⟩] else tcs0)

/-- The hotel-stay walk of the quoting tail: runs only when no operation is
queued yet, and queues one quote call for the first stay lacking quotes. -/
def hotelQuoteStep (df1 : Fields) (tcs1 : List MTool) (lodgingNeeded : Bool)
    (stays byStay flatH : List JVal) : PyM (Fields × List MTool) :=
  if lodgingNeeded && !stays.isEmpty && tcs1.isEmpty then
    match (List.range stays.length).find? (fun j => !truthy (stayQuotesAt byStay flatH j)) with
    | none => pure (df1, tcs1)
    | some j => do
        let df ← setStatus df1 "phase" (.str "quote")
        let df ← setStatus df "state" (.str "quoting_hotels")
        let args ← buildHotelQuoteArgs (.obj df) j (stays.getD j .null)
        pure (df, tcs1 ++ [⟨"noma/hotel_quote_search", args⟩])
  else pure (df1, tcs1)

/-- The ranking gate of the quoting tail. -/
def rankStep (df2 : Fields) (tcs2 : List MTool) (wm : Fields) (lodgingNeeded useMulti : Bool)
    (fIdx : List Nat) (stays bySeg byStay flatF flatH : List JVal) :
    PyM (Fields × List MTool) :=
  if hasAllFlightQuotes fIdx bySeg flatF && hasAllHotelQuotes lodgingNeeded stays byStay flatH
      && !truthy (getD wm "ranked_bundles" .null) then do
    let df ← setStatus df2 "phase" (.str "quote")
    let df ← setStatus df "state" (.str "ranking_bundles")
    let args ← rankerArgsOf df wm useMulti bySeg byStay flatF flatH
    pure (df, tcs2 ++ [⟨"noma/trip_option_ranker", args⟩])
  else pure (df2, tcs2)

/-- The bundle-presentation step of the quoting tail. -/
def presentStep (df3 : Fields) (msgs0 : List String) (rankedV : JVal) :
    PyM (Fields × List String) := do
  let st ← getStatusF df3
  let stateV := getD st "state" .null
  let inPresentSet :=
    ["presenting_options", "ranking_bundles", "have_flight_quotes", "have_hotel_quotes"].any
      (fun s => pyEq stateV (.str s))
  if truthy rankedV && inPresentSet then do
    let df ← setStatus df3 "state" (.str "presenting_options")
    let rb ← renderBundles (.obj df)
    pure (df, msgs0 ++ [rb])
  else pure (df3, msgs0)

/-- The state-driven quoting / ranking / presentation tail of `Reducer.run`
(everything after the confirmation gate). -/
def quoteSection (df0 : Fields) (tcs0 : List MTool) (msgs0 : List String) : PyM ROut := do
  let itiRaw ← dictGet (JVal.obj df0) "itinerary" (.obj [])
  let lodgV ← dictGet (pyOr itiRaw (.obj [])) "lodging" (.obj [])
  let neededV ← dictGet lodgV "needed" (.bool true)
  let lodgingNeeded := truthy neededV
  let fIdx ← flightSegIdx (.obj df0)
  let stays ← effectiveStays (.obj df0)
  let wm ← getWMF df0
  let bySeg ← asArr (pyOr (getD wm "flight_quotes_by_segment" .null) (.arr []))
  let byStay ← asArr (pyOr (getD wm "hotel_quotes_by_stay" .null) (.arr []))
  let flatF ← asArr (pyOr (getD wm "flight_quotes" .null) (.arr []))
  let flatH ← asArr (pyOr (getD wm "hotel_quotes" .null) (.arr []))
  let useMulti := fIdx.length > 1 || stays.length > 1 || (!bySeg.isEmpty || !byStay.isEmpty)
  let (df1, tcs1) ← flightQuoteStep df0 tcs0 fIdx bySeg flatF
  let (df2, tcs2) ← hotelQuoteStep df1 tcs1 lodgingNeeded stays byStay flatH
  let rankedV := getD wm "ranked_bundles" .null
  let (df3, tcs3) ← rankStep df2 tcs2 wm lodgingNeeded useMulti fIdx stays bySeg byStay flatF flatH
  let (df4, msgs1) ← presentStep df3 msgs0 rankedV
  let rrV := getD wm "risk_report" .null
  let rms ← riskMessages rrV
  return ⟨.obj df4, tcs3, msgs1 ++ rms⟩

/-- The extraction-result confirmation gate of `Reducer.run` (summary
rendering, confirmation classification) followed by the quoting tail. -/
def confirmGate (df0 : Fields) (evType : String) (evData : JVal)
    (tcs : List MTool) (msgs : List String) : PyM ROut := do
  let toolName ←
    if evType = "TOOL_RESULT" then dictGet (pyOr evData (.obj [])) "tool_name" (.str "")
    else pure (JVal.str "")
  if evType = "TOOL_RESULT" && pyEq toolName (.str "trip_requirements_extract") then do
    let st ← getStatusF df0
    let curState := getD st "state" (.str "")
    let umA ← dictGetN (pyOr evData (.obj [])) "user_message"
    let userMsg ←
      if truthy umA then pure umA
      else do
        let reqRaw ← dictGetN (JVal.obj df0) "request"
        dictGet (pyOr reqRaw (.obj [])) "user_message" (.str "")
    if pyNe curState (.str "awaiting_confirmation") then do
      let df ← setStatus df0 "phase" (.str "intake")
      let df ← setStatus df "state" (.str "awaiting_confirmation")
      let summary ← formatTripSummary (.obj df)
      let m := summary ++
        "\n\nIf this looks correct, reply **Yes** or **Looks good** to search for flights and hotels. If something needs to change, tell us what to update."
      return ⟨.obj df, [], msgs ++ [m]⟩
    else do
      let conf ← isConfirmationJ userMsg
      if !conf then do
        let summary ← formatTripSummary (.obj df0)
        let m := summary ++
          "\n\nReply **Yes** or **Looks good** when you’re ready to search, or tell us what to change."
        return ⟨.obj df0, [], msgs ++ [m]⟩
      else do
        let df ← setStatus df0 "state" (.str "ready_to_quote")
        quoteSection df tcs (msgs ++ ["Searching for flights and hotels…"])
  else
    quoteSection df0 tcs msgs

/-- Step 2 of `Reducer.run`: recompute the missing-required-fields list from
scratch; when non-empty force `(intake, collecting_requirements)` and return
only the extraction call (`USER_MESSAGE`) or a follow-up-question call. -/
def reducerContinue (df0 : Fields) (evType : String) (evData : JVal)
    (tcs : List MTool) (msgs : List String) : PyM ROut := do
  let missing ← requiredMissing (.obj df0)
  let df ← setStatus df0 "missing_required" (.arr (missing.map JVal.str))
  if !missing.isEmpty then do
    let df ← setStatus df "phase" (.str "intake")
    let df ← setStatus df "state" (.str "collecting_requirements")
    if evType = "USER_MESSAGE" then
      return ⟨.obj df, tcs, msgs⟩
    else do
      let reqRaw ← dictGetN (JVal.obj df) "request"
      let userMsg ← dictGet (pyOr reqRaw (.obj [])) "user_message" (.str "")
      let args : JVal := .obj
        [("trip_intent", .obj df), ("missing", .arr (missing.map JVal.str)),
         ("user_message", userMsg)]
      return ⟨.obj df, [⟨"generate_followup_questions", args⟩], msgs⟩
  else if evType = "USER_MESSAGE" then
    return ⟨.obj df, tcs, msgs⟩
  else
    confirmGate df evType evData tcs msgs

/-- `Reducer.run`: the decision engine.  `evType`/`evData` are the event's
type and payload; `now` stands in for `int(time.time())`. -/
def reducerRun (doc : JVal) (evType : String) (evData : JVal) (now : Int) : PyM ROut := do
  let df0 ← asObj doc
  let df1 := setdefaultL df0 "status"
    (.obj [("phase", .str "intake"), ("state", .str "collecting_requirements"),
           ("missing_required", .arr [])])
  let df2 := setdefaultL df1 "working_memory" (.obj [])
  let wm0 ← getWMF df2
  let df3 := setWM df2 (ensureWMDefaults wm0)
  if evType = "TOOL_ERROR" then
    evToolError df3 evData now
  else do
    let (df4, tcs, msgs) ←
      if evType = "USER_MESSAGE" then do
        let (d, t) ← evUserMessage df3 evData
        pure (d, t, ([] : List String))
      else if evType = "USER_SELECTED_BUNDLE" then do
        let (d, t) ← evSelectedBundle df3 evData
        pure (d, t, ([] : List String))
      else if evType = "USER_REQUEST_HOLD" then
        evRequestHold df3
      else if evType = "USER_APPROVED_PURCHASE" then
        evApprovedPurchase df3 evData
      else
        pure (df3, [], [])
    reducerContinue df4 evType evData tcs msgs

/-! ## Applier (`applier.py`) -/

/-- `_tool_id_from_name`: strip the extension before the first `/`. -/
def toolIdFromName (name : String) : String :=
  match splitOnChar name (Char.ofNat 47) with
  | [] => name
  | [_] => name
  | _ :: rest => String.intercalate "/" rest

/-- `_ensure_option_ids`: give each dict option a deterministic
`{prefix}{index}_{position}` id when it has neither `option_id` nor `id`
(hotel prefixes also mirror the id into `id`). -/
def ensureOptionIds (options : List JVal) (pre : String) (index : JVal) : List JVal :=
  options.enum.map (fun (p : Nat × JVal) =>
    match p.2 with
    | .obj o =>
        let existing := pyOr (getD o "option_id" .null) (getD o "id" .null)
        if truthy existing then .obj o
        else
          let oid := pre ++ pyStr index ++ "_" ++ toString p.1
          let o1 := osetL o "option_id" (.str oid)
          let o2 :=
            if (lookupJ o1 "id").isNone && strStarts pre "htl" then
              osetL o1 "id" (.str oid)
            else o1
          .obj o2
    | v => v)

/-- Numeric view shared by the Python comparison operators (`bool` counts as
an int, floats compare exactly). -/
def numRat : JVal → Option Rat
  | .num n => some (n : Rat)
  | .fnum q => some q
  | .bool b => some (if b then 1 else 0)
  | _ => none

/-- Python `a <= b` for the string/number combinations the engines compare;
anything else raises `TypeError`. -/
def pyLe (a b : JVal) : Option Bool :=
  match a, b with
  | .str x, .str y => some (decide (x ≤ y))
  | _, _ =>
      match numRat a, numRat b with
      | some x, some y => some (decide (x ≤ y))
      | _, _ => none

/-- Python `a > b` (same domain as `pyLe`). -/
def pyGt (a b : JVal) : Option Bool :=
  match a, b with
  | .str x, .str y => some (decide (y < x))
  | _, _ =>
      match numRat a, numRat b with
      | some x, some y => some (decide (y < x))
      | _, _ => none

/-- Gregorian leap year. -/
def isLeap (y : Nat) : Bool :=
  (y % 4 = 0 && y % 100 ≠ 0) || y % 400 = 0

/-- Days in a month. -/
def daysInMonth (y m : Nat) : Nat :=
  if m = 2 then (if isLeap y then 29 else 28)
  else if [4, 6, 9, 11].contains m then 30 else 31

/-- The day after `(y, m, d)`. -/
def nextDay : Nat × Nat × Nat → Nat × Nat × Nat
  | (y, m, d) =>
      if d < daysInMonth y m then (y, m, d + 1)
      else if m < 12 then (y, m + 1, 1)
      else (y + 1, 1, 1)

/-- `date + n days`. -/
def addDaysDate (ymd : Nat × Nat × Nat) : Nat → Nat × Nat × Nat
  | 0 => ymd
  | n + 1 => addDaysDate (nextDay ymd) n

/-- Parse `YYYY-MM-DD` (as `strptime("%Y-%m-%d")` accepts it: dash-separated
decimal fields naming a real calendar date). -/
def parseIsoDate (sv : String) : Option (Nat × Nat × Nat) :=
  match splitOnChar sv (Char.ofNat 45) with
  | [ys, ms, ds] =>
      if ys.length > 0 && ys.length ≤ 4 && ys.data.all Char.isDigit &&
         ms.length > 0 && ms.length ≤ 2 && ms.data.all Char.isDigit &&
         ds.length > 0 && ds.length ≤ 2 && ds.data.all Char.isDigit then
        let y := digitsToNat ys.data
        let m := digitsToNat ms.data
        let d := digitsToNat ds.data
        if 1 ≤ y && 1 ≤ m && m ≤ 12 && 1 ≤ d && d ≤ daysInMonth y m then
          some (y, m, d)
        else none
      else none
  | _ => none

/-- Zero-pad to two digits. -/
def pad2 (n : Nat) : String :=
  if n < 10 then "0" ++ toString n else toString n

/-- Zero-pad a year to four digits. -/
def pad4 (n : Nat) : String :=
  if n < 10 then "000" ++ toString n
  else if n < 100 then "00" ++ toString n
  else if n < 1000 then "0" ++ toString n
  else toString n

/-- `Applier._add_days`: shift an ISO date, returning the input unchanged
when it does not parse. -/
def addDaysStr (sv : String) (n : Nat) : String :=
  match parseIsoDate sv with
  | some ymd =>
      let (y, m, d) := addDaysDate ymd n
      pad4 y ++ "-" ++ pad2 m ++ "-" ++ pad2 d
  | none => sv

/-- `_add_days(v, 1)` on a value: non-strings fail `strptime` and are
returned unchanged (the `except` branch). -/
def addDaysJ (v : JVal) : JVal :=
  match v with
  | .str sv => .str (addDaysStr sv 1)
  | _ => v

/-- One pass of the `_ensure_min_stay_nights` loop from stay `j` on,
threading the (in-place mutated) stays and segments lists. -/
def minStayLoop (stays segs : List JVal) (j : Nat) : PyM (List JVal × List JVal) :=
  if h : j < stays.length then do
    let stay := stays.get ⟨j, h⟩
    if !truthy stay then minStayLoop stays segs (j + 1)
    else do
      let stF ← asObj stay
      let ci := getD stF "check_in" .null
      let co := getD stF "check_out" .null
      if !truthy ci || !truthy co then minStayLoop stays segs (j + 1)
      else do
        let le ← pyLe co ci
        if le then do
          let co2 := addDaysJ ci
          let stays2 := stays.set j (.obj (osetL stF "check_out" co2))
          let segIdx := j + 1
          if hs : segIdx < segs.length then
            let sv := segs.get ⟨segIdx, hs⟩
            if truthy sv then do
              let svF ← asObj sv
              minStayLoop stays2 (segs.set segIdx (.obj (osetL svF "depart_date" co2))) (j + 1)
            else minStayLoop stays2 segs (j + 1)
          else minStayLoop stays2 segs (j + 1)
        else minStayLoop stays segs (j + 1)
  else pure (stays, segs)
termination_by stays.length - j
decreasing_by all_goals simp_all [List.length_set] <;> omega

/-- `Applier._ensure_min_stay_nights`: force every stay to at least one
night, moving the next segment's depart date along. -/
def ensureMinStayNights (df : Fields) : PyM Fields := do
  let itiRaw ← dictGet (JVal.obj df) "itinerary" (.obj [])
  let iti := pyOr itiRaw (.obj [])
  let segsRaw ← dictGet iti "segments" (.arr [])
  let segs ← asArr (pyOr segsRaw (.arr []))
  let lodgRaw ← dictGet iti "lodging" (.obj [])
  let lodg := pyOr lodgRaw (.obj [])
  let staysRaw ← dictGetN lodg "stays"
  let stays ← asArr (pyOr staysRaw (.arr []))
  if stays.isEmpty || segs.length < 2 then
    return df
  else do
    let (stays2, segs2) ← minStayLoop stays segs 0
    let itiF ← asObj iti
    let lodgF ← asObj lodg
    let lodg2 := osetL lodgF "stays" (.arr stays2)
    let iti2 := osetL (osetL itiF "segments" (.arr segs2)) "lodging" (.obj lodg2)
    return osetL df "itinerary" (.obj iti2)

/-! ### The extraction-to-Patch translation (`_apply_requirements_extract`) -/

/-- `o if isinstance(o, str) else (o.get("code") if isinstance(o, dict) else
None)`. -/
def codeOf (v : JVal) : JVal :=
  match v with
  | .str sv => .str sv
  | .obj l => getD l "code" .null
  | _ => .null

/-- `{"type": "airport", "code": c} if isinstance(c, str) else (fallback or
{"type": "airport", "code": c})`. -/
def airportField (c : JVal) (fallback : JVal) : JVal :=
  match c with
  | .str sv => .obj [("type", .str "airport"), ("code", .str sv)]
  | _ => pyOr fallback (.obj [("type", .str "airport"), ("code", c)])

/-- The per-existing-segment overlay of the extraction translation: keep
every existing field and overlay only what the extraction supplied; segments
that end up without both codes and a date are dropped. -/
def overlaySeg (i : Nat) (existing es : JVal) : PyM (Option JVal) := do
  let esO ← dictGetN es "origin"
  let esOC ← dictGetN es "origin_code"
  let exO ← dictGetN existing "origin"
  let exOCode ← dictGetN (pyOr exO (.obj [])) "code"
  let o := pyOr (pyOr esO esOC) exOCode
  let esD ← dictGetN es "destination"
  let esDC ← dictGetN es "destination_code"
  let exD ← dictGetN existing "destination"
  let exDCode ← dictGetN (pyOr exD (.obj [])) "code"
  let d := pyOr (pyOr esD esDC) exDCode
  let oCode := codeOf o
  let dCode := codeOf d
  let esDep ← dictGetN es "depart_date"
  let exDep ← dictGetN existing "depart_date"
  let dep := pyOr esDep exDep
  if truthy oCode && truthy dCode && truthy dep then do
    let exSid ← dictGetN existing "segment_id"
    let esSid ← dictGetN es "segment_id"
    let sid := pyOr (pyOr exSid esSid) (.str ("seg_" ++ toString i))
    let esTm ← dictGetN es "transport_mode"
    let exTm ← dictGet existing "transport_mode" (.str "flight")
    let esTw ← dictGetN es "depart_time_window"
    let exTw ← dictGetN existing "depart_time_window"
    let tw := pyOr (pyOr esTw exTw) (.obj [("start", .null), ("end", .null)])
    return some (.obj
      [("segment_id", sid), ("origin", airportField oCode exO),
       ("destination", airportField dCode exD), ("depart_date", dep),
       ("transport_mode", pyOr esTm exTm), ("depart_time_window", tw)])
  else
    return none

/-- A surplus/standalone extracted segment (no existing counterpart). -/
def freshSeg (sidIdx : Nat) (es : JVal) : PyM (Option JVal) := do
  let esO ← dictGetN es "origin"
  let esOC ← dictGetN es "origin_code"
  let o := pyOr esO esOC
  let esD ← dictGetN es "destination"
  let esDC ← dictGetN es "destination_code"
  let d := pyOr esD esDC
  let oCode := codeOf o
  let dCode := codeOf d
  let esDep ← dictGetN es "depart_date"
  if truthy oCode && truthy dCode && truthy esDep then do
    let esSid ← dictGetN es "segment_id"
    let sid := pyOr esSid (.str ("seg_" ++ toString sidIdx))
    let dep ← subscr es "depart_date"
    let tm ← dictGet es "transport_mode" (.str "flight")
    let esTw ← dictGetN es "depart_time_window"
    let tw := pyOr esTw (.obj [("start", .null), ("end", .null)])
    return some (.obj
      [("segment_id", sid), ("origin", airportField oCode o),
       ("destination", airportField dCode d), ("depart_date", dep),
       ("transport_mode", tm), ("depart_time_window", tw)])
  else
    return none

/-- The overlay loop over existing segments. -/
def overlaySegs (existing extractedSegs : List JVal) : PyM (List JVal) := do
  let outs ← existing.enum.mapM (fun (p : Nat × JVal) =>
    overlaySeg p.1 p.2 (extractedSegs.getD p.1 (.obj [])))
  return outs.filterMap id

/-- The surplus loop: extracted segments beyond the existing count, numbered
by the accumulated output length. -/
def surplusSegs (acc : List JVal) : List JVal → PyM (List JVal)
  | [] => pure acc
  | es :: rest => do
      let r ← freshSeg acc.length es
      match r with
      | some sv => surplusSegs (acc ++ [sv]) rest
      | none => surplusSegs acc rest

/-- The no-existing-segments loop over extracted segments (fresh indices). -/
def freshSegsAll (extractedSegs : List JVal) : PyM (List JVal) := do
  let outs ← extractedSegs.enum.mapM (fun (p : Nat × JVal) => freshSeg p.1 p.2)
  return outs.filterMap id

/-- The origin/destination/dates fallback when the extraction supplies no
segment list (single leg, plus a round-trip return leg). -/
def segsFromOriginDest (origin dest tripType : JVal) (dates : JVal) : PyM (List JVal) := do
  let dep ← dictGetN dates "departure_date"
  let ret ← dictGetN dates "return_date"
  if truthy origin && truthy dest then do
    let out1 := [JVal.obj
      [("segment_id", .str "seg_outbound"),
       ("origin", .obj [("type", .str "airport"), ("code", origin)]),
       ("destination", .obj [("type", .str "airport"), ("code", dest)]),
       ("depart_date", dep), ("transport_mode", .str "flight"),
       ("depart_time_window", .obj [("start", .null), ("end", .null)])]]
    if pyEq tripType (.str "round_trip") && truthy ret then
      return out1 ++ [JVal.obj
        [("segment_id", .str "seg_return"),
         ("origin", .obj [("type", .str "airport"), ("code", dest)]),
         ("destination", .obj [("type", .str "airport"), ("code", origin)]),
         ("depart_date", ret), ("transport_mode", .str "flight"),
         ("depart_time_window", .obj [("start", .null), ("end", .null)])]]
    else
      return out1
  else if truthy dest then
    return [JVal.obj
      [("segment_id", .str "seg_outbound"), ("origin", .obj []),
       ("destination", .obj [("type", .str "airport"), ("code", dest)]),
       ("depart_date", dep), ("transport_mode", .str "flight"),
       ("depart_time_window", .obj [("start", .null), ("end", .null)])]]
  else if truthy origin then
    return [JVal.obj
      [("segment_id", .str "seg_outbound"),
       ("origin", .obj [("type", .str "airport"), ("code", origin)]),
       ("destination", .obj []), ("depart_date", dep),
       ("transport_mode", .str "flight"),
       ("depart_time_window", .obj [("start", .null), ("end", .null)])]]
  else
    return []

/-- The inferred-return-leg step: when the built list is open (first origin
code differs from last destination code), append a return segment. -/
def appendInferredReturn (segs : List JVal) (extracted lod dates : JVal) : PyM (List JVal) := do
  match segs with
  | [] => pure []
  | s0 :: _ => do
      let o0 ← dictGetN s0 "origin"
      let firstOrigin :=
        match o0 with
        | .obj l => getD l "code" .null
        | _ => .null
      let slast := segs.getLastD (.obj [])
      let dl ← dictGetN slast "destination"
      let lastDest :=
        match dl with
        | .obj l => getD l "code" .null
        | _ => .null
      if truthy firstOrigin && truthy lastDest && pyNe firstOrigin lastDest then do
        let exStays ← dictGetN extracted "stays"
        let lodStays ← dictGetN lod "stays"
        let returnStays := pyOr (pyOr exStays lodStays) (.arr [])
        let ret0 ← dictGetN dates "return_date"
        let retDep ←
          if !truthy ret0 && truthy returnStays then do
            let rl ← asArr returnStays
            dictGetN (pyOr (rl.getLastD .null) (.obj [])) "check_out"
          else pure ret0
        return segs ++ [JVal.obj
          [("segment_id", .str "seg_return"),
           ("origin", .obj [("type", .str "airport"), ("code", lastDest)]),
           ("destination", .obj [("type", .str "airport"), ("code", firstOrigin)]),
           ("depart_date", retDep), ("transport_mode", .str "flight"),
           ("depart_time_window", .obj [("start", .null), ("end", .null)])]]
      else
        return segs

/-- The whole segment list of the extraction Patch. -/
def buildExtractSegs (docF : Fields) (extracted lod dates : JVal) : PyM (List JVal) := do
  let origin ← dictGetN extracted "origin"
  let dest ← dictGetN extracted "destination"
  let tripType ← dictGetN extracted "trip_type"
  let exSegsRaw ← dictGetN extracted "segments"
  let exSegs ← asArr (pyOr exSegsRaw (.arr []))
  let exIti ← dictGet (JVal.obj docF) "itinerary" (.obj [])
  let exSegsDocRaw ← dictGetN (pyOr exIti (.obj [])) "segments"
  let existingSegs ← asArr (pyOr exSegsDocRaw (.arr []))
  let segs0 ←
    if !exSegs.isEmpty then
      if !existingSegs.isEmpty then do
        let base ← overlaySegs existingSegs exSegs
        if exSegs.length > existingSegs.length then
          surplusSegs base (exSegs.drop existingSegs.length)
        else
          pure base
      else
        freshSegsAll exSegs
    else
      segsFromOriginDest origin dest tripType dates
  appendInferredReturn segs0 extracted lod dates

/-- One overlaid stay of the extraction Patch. -/
def overlayStay (existing s : JVal) : PyM JVal := do
  let sCi ← dictGetN s "check_in"
  let exCi ← dictGetN existing "check_in"
  let ci := pyOr sCi exCi
  let sCo ← dictGetN s "check_out"
  let exCo ← dictGetN existing "check_out"
  let co0 := pyOr sCo exCo
  let co ←
    if truthy ci && truthy co0 then do
      let le ← pyLe co0 ci
      if le && truthy exCo then do
        let gt ← pyGt exCo ci
        if gt then subscr existing "check_out" else pure co0
      else pure co0
    else pure co0
  let sLoc ← dictGetN s "location_code"
  let sDest ← dictGetN s "destination"
  let exLoc ← dictGetN existing "location_code"
  let exDest ← dictGetN existing "destination"
  let sHint ← dictGetN s "location_hint"
  let exHint ← dictGetN existing "location_hint"
  return JVal.obj
    [("location_code", pyOr (pyOr (pyOr sLoc sDest) exLoc) exDest),
     ("check_in", ci), ("check_out", co), ("location_hint", pyOr sHint exHint)]

/-- A surplus or standalone extracted stay. -/
def freshStay (s : JVal) : PyM JVal := do
  let sLoc ← dictGetN s "location_code"
  let sDest ← dictGetN s "destination"
  let ci ← dictGetN s "check_in"
  let co ← dictGetN s "check_out"
  let hint ← dictGetN s "location_hint"
  return JVal.obj
    [("location_code", pyOr sLoc sDest), ("check_in", ci), ("check_out", co),
     ("location_hint", hint)]

/-- The `existing_stays` list the stays overlay starts from (backfilled from
lodging-level check-in/out when there is no explicit list). -/
def existingStaysOf (docF : Fields) : PyM (List JVal) := do
  let itiRaw ← dictGetN (JVal.obj docF) "itinerary"
  let exLodgRaw ← dictGetN (pyOr itiRaw (.obj [])) "lodging"
  let exLodg := pyOr exLodgRaw (.obj [])
  let esRaw ← dictGetN exLodg "stays"
  let existingStays ← asArr (pyOr esRaw (.arr []))
  if !existingStays.isEmpty then
    return existingStays
  else do
    let ci ← dictGetN exLodg "check_in"
    let co ← dictGetN exLodg "check_out"
    if truthy ci || truthy co then do
      let exIti2 ← dictGet (JVal.obj docF) "itinerary" (.obj [])
      let segsRaw ← dictGetN (pyOr exIti2 (.obj [])) "segments"
      let existingSegs ← asArr (pyOr segsRaw (.arr []))
      let destCode ←
        match existingSegs with
        | [] => pure JVal.null
        | s0 :: _ => do
            let d ← dictGetN s0 "destination"
            pure (match pyOr d (.obj []) with
                  | .obj l => getD l "code" .null
                  | _ => .null)
      return [JVal.obj [("location_code", destCode), ("check_in", ci), ("check_out", co)]]
    else
      return []

/-- The `needed` key of the lodging sub-patch. -/
def lodgNeededPart (lod : JVal) : Fields :=
  match lod with
  | .obj lf =>
      (match lookupJ lf "needed" with
       | some nv => osetL [] "needed" nv
       | none => [])
  | _ => []

/-- The stays overlay of the lodging sub-patch (extraction supplied stays). -/
def lodgStaysOverlay (docF : Fields) (extractedStaysV : JVal) (l1 : Fields) :
    PyM Fields := do
  let extractedStays ← asArr extractedStaysV
  let existingStays ← existingStaysOf docF
  if !existingStays.isEmpty then do
    let overlaid ← existingStays.enum.mapM (fun (p : Nat × JVal) =>
      overlayStay p.2 (extractedStays.getD p.1 (.obj [])))
    let surplus ←
      if extractedStays.length > existingStays.length then
        (extractedStays.drop existingStays.length).mapM freshStay
      else pure []
    pure (osetL l1 "stays" (.arr (overlaid ++ surplus)))
  else do
    let fresh ← extractedStays.mapM freshStay
    pure (osetL l1 "stays" (.arr fresh))

/-- The lodging-level check-in/out fallback (no stays supplied). -/
def lodgDatesFallback (lod dates : JVal) (l1 : Fields) : PyM Fields := do
  let dep ← dictGetN dates "departure_date"
  let ret ← dictGetN dates "return_date"
  let a := if truthy dep then osetL l1 "check_in" dep else l1
  let b := if truthy ret then osetL a "check_out" ret else a
  let lci ← dictGetN lod "check_in"
  let lco ← dictGetN lod "check_out"
  let c := if truthy lci then osetL b "check_in" lci else b
  pure (if truthy lco then osetL c "check_out" lco else c)

/-- The `location_hint` key of the lodging sub-patch. -/
def lodgHintPart (lod : JVal) (l2 : Fields) : Fields :=
  match lod with
  | .obj lf =>
      (match lookupJ lf "location_hint" with
       | some hv => osetL l2 "location_hint" hv
       | none => l2)
  | _ => l2

/-- The lodging sub-dict of the extraction Patch (`needed`, `stays` or
lodging-level check-in/out, `location_hint`). -/
def buildExtractLodging (docF : Fields) (extracted lod dates : JVal) : PyM Fields := do
  let l1 := lodgNeededPart lod
  let exStaysRaw ← dictGetN extracted "stays"
  let lodStaysRaw ← dictGetN lod "stays"
  let extractedStaysV := pyOr (pyOr exStaysRaw lodStaysRaw) (.arr [])
  let l2 ←
    if truthy extractedStaysV then lodgStaysOverlay docF extractedStaysV l1
    else lodgDatesFallback lod dates l1
  return lodgHintPart lod l2

/-- The flight-preferences sub-patch (`cabin`, `max_stops`, `avoid_red_eye`,
`preferred_airlines`). -/
def buildExtractPrefs (extracted : JVal) : PyM Fields := do
  let cabin ← dictGetN extracted "cabin"
  let consRaw ← dictGet extracted "constraints" (.obj [])
  let cons := pyOr consRaw (.obj [])
  let f0 : Fields := []
  let f1 := if truthy cabin then osetL f0 "cabin" cabin else f0
  match cons with
  | .obj cf => do
      let f2 := match lookupJ cf "max_stops" with
        | some v => osetL f1 "max_stops" v
        | none => f1
      let f3 := match lookupJ cf "avoid_red_eye" with
        | some v => osetL f2 "avoid_red_eye" v
        | none => f2
      pure (match lookupJ cf "preferred_airlines" with
        | some v => osetL f3 "preferred_airlines" v
        | none => f3)
  | _ => pure f1

/-- The `dates:`/`travelers:` fragments of the applied-requirements audit
note. -/
def noteDatesPart (dates : JVal) : PyM (List String) := do
  if truthy dates then do
    let dep ← dictGetN dates "departure_date"
    let ret ← dictGetN dates "return_date"
    if truthy dep && truthy ret then
      pure ["dates: " ++ pyStr dep ++ " → " ++ pyStr ret]
    else if truthy dep then
      pure ["departure_date: " ++ pyStr dep]
    else if truthy ret then
      pure ["return_date: " ++ pyStr ret]
    else pure []
  else pure []

/-- `[f"{v} {k}" for k, v in travelers.items() if v and v != 0]`. -/
def noteTravParts (travelers : JVal) : List String :=
  match travelers with
  | .obj tf =>
      if tf.isEmpty then []
      else
        (tf.filter (fun kv => truthy kv.2 && pyNe kv.2 (.num 0))).map
          (fun kv => pyStr kv.2 ++ " " ++ kv.1)
  | _ => []

/-- The `segments:` fragment (`O→D (date)` bits). -/
def noteSegBits (segs : List JVal) : PyM (List String) :=
  segs.mapM (fun sv => do
    let o ← dictGetN sv "origin"
    let oCode ← dictGetN (pyOr o (.obj [])) "code"
    let d ← dictGetN sv "destination"
    let dCode ← dictGetN (pyOr d (.obj [])) "code"
    let dt ← dictGetN sv "depart_date"
    pure (pyStr (pyOr oCode (.str "?")) ++ "→" ++ pyStr (pyOr dCode (.str "?")) ++
          (if truthy dt then " (" ++ pyStr dt ++ ")" else "")))

/-- The audit-note text of `_apply_requirements_extract` (`Applied extracted
requirements: …`). -/
def buildExtractNote (extracted lod dates missingV : JVal) (segs : List JVal) :
    PyM String := do
  let origin ← dictGetN extracted "origin"
  let dest ← dictGetN extracted "destination"
  let p1 := (if truthy origin then ["origin: " ++ pyStr origin] else []) ++
            (if truthy dest then ["destination: " ++ pyStr dest] else [])
  let p2 ← noteDatesPart dates
  let travelers ← dictGetN extracted "travelers"
  let tbits := noteTravParts travelers
  let p3 := if tbits.isEmpty then [] else ["travelers: " ++ String.intercalate ", " tbits]
  let tripType ← dictGetN extracted "trip_type"
  let p4 := if truthy tripType then ["trip_type: " ++ pyStr tripType] else []
  let segBits ← noteSegBits segs
  let p5 := if segs.isEmpty then [] else ["segments: " ++ String.intercalate ", " segBits]
  let lci ← dictGetN lod "check_in"
  let lco ← dictGetN lod "check_out"
  let p6 ←
    if truthy lci || truthy lco then do
      let a ← dictGet lod "check_in" (.str "—")
      let b ← dictGet lod "check_out" (.str "—")
      pure ["lodging: check_in " ++ pyStr a ++ ", check_out " ++ pyStr b]
    else pure []
  let cabin ← dictGetN extracted "cabin"
  let p7 := if truthy cabin then ["cabin: " ++ pyStr cabin] else []
  let p8 := if truthy missingV then ["missing_required: " ++ pyStr missingV]
            else ["missing_required: none"]
  let parts := p1 ++ p2 ++ p3 ++ p4 ++ p5 ++ p6 ++ p7 ++ p8
  let summary := if parts.isEmpty then "no fields changed" else String.intercalate "; " parts
  return "Applied extracted requirements: " ++ summary

/-- The Patch of the extraction translation (`_apply_requirements_extract`
up to the `patcher.run` call), plus the audit note. -/
def extractBuildPatch (docF : Fields) (result : JVal) : PyM (Fields × String) := do
  let extractedRaw ← dictGet result "trip_intent" (.obj [])
  let extracted := pyOr extractedRaw (.obj [])
  let missingRaw ← dictGet result "missing_required_fields" (.arr [])
  let missingV := pyOr missingRaw (.arr [])
  let patch0 : Fields := [("status", .obj [("missing_required", missingV)])]
  let travelers ← dictGetN extracted "travelers"
  let patch1 ←
    match travelers with
    | .obj tf =>
        if tf.isEmpty then pure patch0
        else do
          let partyRaw ← dictGet (JVal.obj docF) "party" (.obj [])
          let exTravRaw ← dictGetN (pyOr partyRaw (.obj [])) "travelers"
          let exTrav ← asObj (pyOr exTravRaw (.obj []))
          let merged := tf.foldl (fun acc kv =>
            if isNullJ kv.2 then acc else osetL acc kv.1 kv.2) exTrav
          pure (osetL patch0 "party" (.obj [("travelers", .obj merged)]))
    | _ => pure patch0
  let tripType ← dictGetN extracted "trip_type"
  let patch2 :=
    if truthy tripType then
      osetL patch1 "itinerary" (.obj [("trip_type", tripType)])
    else patch1
  let datesRaw ← dictGet extracted "dates" (.obj [])
  let dates := pyOr datesRaw (.obj [])
  let lodRaw ← dictGet extracted "lodging" (.obj [])
  let lod := pyOr lodRaw (.obj [])
  let segs ← buildExtractSegs docF extracted lod dates
  let patch3 ←
    if !segs.isEmpty then do
      let itiCur ← asObj (getD patch2 "itinerary" (.obj []))
      pure (osetL patch2 "itinerary" (.obj (osetL itiCur "segments" (.arr segs))))
    else pure patch2
  let itiCur2 ← asObj (getD patch3 "itinerary" (.obj []))
  let lodgF ← buildExtractLodging docF extracted lod dates
  let patch4 := osetL patch3 "itinerary" (.obj (osetL itiCur2 "lodging" (.obj lodgF)))
  let prefsF ← buildExtractPrefs extracted
  let patch5 :=
    if prefsF.isEmpty then patch4
    else osetL patch4 "preferences" (.obj [("flight", .obj prefsF)])
  let note ← buildExtractNote extracted lod dates missingV segs
  return (patch5, note)

/-- `Applier._apply_requirements_extract`: translate the extraction result
into a Patch, apply it through the Patcher, enforce minimum stay nights and
update the status/notes. -/
def applyRequirementsExtract (docF : Fields) (result : JVal) : PyM Fields := do
  let (patch, note) ← extractBuildPatch docF result
  let missingRaw ← dictGet result "missing_required_fields" (.arr [])
  let missingV := pyOr missingRaw (.arr [])
  let clarRaw ← dictGet result "clarifying_questions" (.arr [])
  let clarV := pyOr clarRaw (.arr [])
  let pout ← patcherRun (.obj docF) (.obj patch) "trip_requirements_extract" note
  let df2 ← asObj pout.tripIntent
  let df3 ← ensureMinStayNights df2
  let df4 := setdefaultL df3 "status" (.obj [])
  let df5 ←
    if truthy missingV then do
      let d ← setStatus df4 "phase" (.str "intake")
      setStatus d "state" (.str "collecting_requirements")
    else
      setStatus df4 "phase" (.str "intake")
  if truthy clarV then do
    let st ← getStatusF df5
    let st := setdefaultL st "notes" (.arr [])
    let notes ← asArr (getD st "notes" .null)
    let line := "[clarifying_questions] " ++ pyStr clarV
    return osetL df5 "status" (.obj (osetL st "notes" (.arr (notes ++ [.str line]))))
  else
    return df5

/-- `while len(l) <= idx: l.append(None); l[idx] = v` (with Python's
negative-index assignment for completeness). -/
def listSetPad (l : List JVal) (idx : Int) (v : JVal) : Option (List JVal) :=
  if idx ≥ 0 then
    let n := idx.toNat
    let padded := if l.length ≤ n then l ++ List.replicate (n + 1 - l.length) JVal.null else l
    some (padded.set n v)
  else
    let k := (-idx).toNat
    if k ≤ l.length then some (l.set (l.length - k) v) else none

/-- A list index taken from tool arguments: `None` means absent, ints (and
bools) index; anything else raises on the `len <= idx` comparison. -/
def argIndex (v : JVal) : Option (Option Int) :=
  match v with
  | .null => some none
  | .num n => some (some n)
  | .bool b => some (some (if b then 1 else 0))
  | _ => none

/-- The `flight_quote_search` folding branch. -/
def foldFlightQuotes (wm : Fields) (result arguments : JVal) : PyM Fields := do
  let optsRaw ← dictGet result "options" (.arr [])
  let opts ← asArr optsRaw
  let segIdxV ← dictGet arguments "segment_index" .null
  let idxForIds ← dictGet arguments "segment_index" (.num 0)
  let options := ensureOptionIds opts "flt_seg" idxForIds
  let segIdx ← argIndex segIdxV
  match segIdx with
  | some n => do
      let wm1 := setdefaultL wm "flight_quotes_by_segment" (.arr [])
      let bySeg ← asArr (getD wm1 "flight_quotes_by_segment" .null)
      let bySeg2 ← listSetPad bySeg n (.arr options)
      let wm2 := osetL wm1 "flight_quotes_by_segment" (.arr bySeg2)
      if bySeg2.length = 1 && truthy (bySeg2.getD 0 .null) then
        pure (osetL wm2 "flight_quotes" (bySeg2.getD 0 .null))
      else pure wm2
  | none =>
      pure (osetL wm "flight_quotes" (.arr options))

/-- The `hotel_quote_search` folding branch. -/
def foldHotelQuotes (wm : Fields) (result arguments : JVal) : PyM Fields := do
  let obrRaw ← dictGetN result "options_by_room"
  let stayIdxV ← dictGet arguments "stay_index" .null
  let stayIdx ← argIndex stayIdxV
  let perStay ←
    match obrRaw with
    | .arr rooms => do
        let lists ← rooms.mapM asArr
        pure (lists.map (fun r => JVal.arr r))
    | _ => do
        let optsRaw ← dictGet result "options" (.arr [])
        let opts ← asArr optsRaw
        let idxForIds := match stayIdxV with | .null => JVal.num 0 | v => v
        pure [JVal.arr (ensureOptionIds opts "htl_stay" idxForIds)]
  match stayIdx with
  | some n => do
      let wm1 := setdefaultL wm "hotel_quotes_by_stay" (.arr [])
      let byStay ← asArr (getD wm1 "hotel_quotes_by_stay" .null)
      let byStay2 ← listSetPad byStay n (.arr perStay)
      let wm2 := osetL wm1 "hotel_quotes_by_stay" (.arr byStay2)
      if byStay2.length = 1 && truthy (byStay2.getD 0 .null) then do
        let first ← asArr (byStay2.getD 0 .null)
        let roomLists ← first.mapM (fun rl => asArr (pyOr rl (.arr [])))
        pure (osetL wm2 "hotel_quotes" (.arr roomLists.flatten))
      else pure wm2
  | none => do
      let roomLists ← perStay.mapM (fun rl => asArr (pyOr rl (.arr [])))
      pure (osetL wm "hotel_quotes" (.arr roomLists.flatten))

/-- The `policy_and_risk_check` `_merge_into` folding branch. -/
def foldRiskCheck (wm : Fields) (result : JVal) (mergeSpec : JVal) : PyM Fields := do
  let wmPathV ← dictGet mergeSpec "wm_path" (.str "risk_report")
  let wmPath ← asStr wmPathV
  let keysV ← dictGet mergeSpec "merge_keys_from_selected" (.arr [])
  let keys ← asArr keysV
  let merged0 ← asObj result
  let sel := pyOr (getD wm "selected" (.obj [])) (.obj [])
  let merged ← keys.foldlM (fun acc k => do
    let ks ← asStr k
    let v ← dictGetN sel ks
    pure (if isNullJ v then acc else osetL acc ks v)) merged0
  return osetL wm wmPath (.obj merged)

/-- The fallback convention-table folding branch (first non-`_` key of the
convention whose result value is not `None`). -/
def foldByConvention (wm : Fields) (result : JVal) : Fields → PyM Fields
  | [] => pure wm
  | (outputKey, spec) :: rest =>
      if strStarts outputKey "_" then foldByConvention wm result rest
      else do
        let value ← dictGetN result outputKey
        if isNullJ value then foldByConvention wm result rest
        else do
          let wmPathV ← dictGetN (pyOr spec (.obj [])) "wm_path"
          let appendV ← dictGetN (pyOr spec (.obj [])) "append"
          match wmPathV with
          | .str p =>
              if truthy wmPathV && !truthy appendV then pure (osetL wm p value)
              else pure wm
          | _ => pure wm

/-- `Applier.run`.  `conv`/`statusUpdates` are the engine's declarative
tables, loaded by the source from `common/output_convention.json` (a data
file not present in the source tree), so they are explicit parameters here. -/
def applierRun (conv statusUpdates : Fields) (doc : JVal) (toolName : String)
    (resultRaw argumentsRaw : JVal) : PyM JVal := do
  let docF ← asObj doc
  let result := pyOr resultRaw (.obj [])
  let arguments := pyOr argumentsRaw (.obj [])
  let toolId := toolIdFromName toolName
  if toolId = "trip_requirements_extract" then do
    let out ← applyRequirementsExtract docF result
    return JVal.obj out
  else do
    let df1 := setdefaultL docF "status" (.obj [])
    let df2 := setdefaultL df1 "working_memory" (.obj [])
    let wm0 ← getWMF df2
    let wm1 := ensureWMDefaults wm0
    let convEntry := getD conv toolId (.obj [])
    let wm2 ←
      if toolId = "policy_and_risk_check" then
        match convEntry with
        | .obj ce =>
            match lookupJ ce "_merge_into" with
            | some mergeSpec => foldRiskCheck wm1 result mergeSpec
            | none => do
                let cf ← asObj convEntry
                foldByConvention wm1 result cf
        | _ => do
            let cf ← asObj convEntry
            foldByConvention wm1 result cf
      else if toolId = "booking_confirm_and_purchase" then do
        let conf ← dictGetN result "confirmation"
        if isNullJ conf then pure wm1
        else do
          let wm1b := setdefaultL wm1 "bookings" (.arr [])
          let bk ← asArr (getD wm1b "bookings" .null)
          pure (osetL wm1b "bookings" (.arr (bk ++ [conf])))
      else if toolId = "flight_quote_search" then
        foldFlightQuotes wm1 result arguments
      else if toolId = "hotel_quote_search" then
        foldHotelQuotes wm1 result arguments
      else if toolId = "trip_option_ranker" then do
        let b ← dictGet result "bundles" (.arr [])
        pure (osetL wm1 "ranked_bundles" b)
      else if toolId = "reservation_hold_create" then do
        let h ← dictGet result "holds" (.arr [])
        pure (osetL wm1 "holds" h)
      else do
        let cf ← asObj convEntry
        foldByConvention wm1 result cf
    let df3 := setWM df2 wm2
    let statusUpdate := getD statusUpdates toolId (.obj [])
    if truthy statusUpdate then do
      let st ← getStatusF df3
      let curPhase := getD st "phase" .null
      let curState := getD st "state" .null
      let newPhase ← dictGet statusUpdate "phase" curPhase
      let newState ← dictGet statusUpdate "state" curState
      let df4 ← setStatus df3 "phase" newPhase
      let df5 ← setStatus df4 "state" newState
      return JVal.obj df5
    else
      return JVal.obj df3

/-! ## Runner tool queue (`runner.py`, `_run_tool_queue_and_followups`)

External calls (`SHC.handler_call`, the LLM-backed extraction and follow-up
question helpers) are abstracted as an oracle `callTool : name → arguments →
Except String JVal`: `.ok` is the call's return value, `.error e` an
exception with message `e`.  Store saves and chat output are no-ops on the
document. -/

/-- Simplified JSON string escaping (quotes and backslashes; the arguments
the claims serialize contain neither). -/
def jsonEscape (sv : String) : String :=
  sv.toList.foldl (fun acc c =>
    if c = Char.ofNat 34 then acc ++ "\\" ++ (Char.ofNat 34).toString
    else if c = Char.ofNat 92 then acc ++ "\\\\"
    else acc ++ c.toString) ""

mutual

/-- `json.dumps` with its default separators. -/
def jsonDumps : JVal → String
  | .null => "null"
  | .bool b => if b then "true" else "false"
  | .num n => toString n
  | .fnum q => ratDecimalRepr q
  | .str sv => (Char.ofNat 34).toString ++ jsonEscape sv ++ (Char.ofNat 34).toString
  | .arr l => "[" ++ jsonDumpsList l ++ "]"
  | .obj l => "\x7b" ++ jsonDumpsFields l ++ "\x7d"

def jsonDumpsList : List JVal → String
  | [] => ""
  | [x] => jsonDumps x
  | x :: y :: rest => jsonDumps x ++ ", " ++ jsonDumpsList (y :: rest)

def jsonDumpsFields : Fields → String
  | [] => ""
  | [(k, v)] =>
      (Char.ofNat 34).toString ++ jsonEscape k ++ (Char.ofNat 34).toString ++ ": " ++ jsonDumps v
  | (k, v) :: kv :: rest =>
      (Char.ofNat 34).toString ++ jsonEscape k ++ (Char.ofNat 34).toString ++ ": " ++ jsonDumps v ++
        ", " ++ jsonDumpsFields (kv :: rest)

end

/-- `Runner.MAX_TOOL_RUNS_PER_TURN`. -/
def MAX_TOOL_RUNS_PER_TURN : Nat := 50

/-- `Runner.MAX_RUNS_PER_TOOL_NAME`. -/
def MAX_RUNS_PER_TOOL_NAME : Nat := 3

/-- `str(err_msg)` when raising a handler-call failure. -/
def strOfErrVal (v : JVal) : String :=
  match v with
  | .str sv => sv
  | w => pyStr w

/-- `tool_run_count.get(name, 0)`. -/
def countOf (counts : List (String × Nat)) (name : String) : Nat :=
  match counts.find? (fun p => p.1 = name) with
  | some p => p.2
  | none => 0

/-- `tool_run_count[name] = tool_run_count.get(name, 0) + 1`. -/
def bumpCount (counts : List (String × Nat)) (name : String) : List (String × Nat) :=
  match counts with
  | [] => [(name, 1)]
  | (k, n) :: rest => if k = name then (k, n + 1) :: rest else (k, n) :: bumpCount rest name

/-- Append a note line to `status.notes` (via the setdefault chain the
runner uses). -/
def appendStatusNote (doc : JVal) (line : String) : PyM JVal := do
  let df ← asObj doc
  let df1 := setdefaultL df "status" (.obj [])
  let st ← getStatusF df1
  let st := setdefaultL st "notes" (.arr [])
  let notes ← asArr (getD st "notes" .null)
  return JVal.obj (osetL df1 "status" (.obj (osetL st "notes" (.arr (notes ++ [.str line])))))

/-- The total-dispatch runaway stop: force `(error, retryable)`, record the
note and end the turn. -/
def runawayStopDoc (doc : JVal) : PyM JVal := do
  let df ← asObj doc
  let df1 := setdefaultL df "status" (.obj [])
  let df2 ← setStatus df1 "phase" (.str "error")
  let df3 ← setStatus df2 "state" (.str "retryable")
  appendStatusNote (.obj df3)
    ("[runaway] Too many tool runs this turn; stopping to avoid loop. Say " ++ apos ++
     "try again" ++ apos ++ " or send a new message.")

/-- The per-tool-name runaway skip note. -/
def skipNoteDoc (doc : JVal) (name : String) : PyM JVal :=
  appendStatusNote doc
    ("[runaway] Skipping " ++ name ++ ": already run " ++ toString MAX_RUNS_PER_TOOL_NAME ++
     " times this turn.")

/-- One successful dispatch after the call returned: fold the result through
the Applier, record the success note, feed `TOOL_RESULT` back through the
Reducer and collect its follow-up calls. -/
def dispatchApplyReduce (conv statusUpdates : Fields) (now : Int) (doc : JVal) (tc : MTool)
    (result : JVal) : PyM (JVal × List MTool) := do
  let outV ← dictGetN result "output"
  let resultForApplier := match outV with | .obj _ => outV | _ => result
  let applied ← applierRun conv statusUpdates doc tc.name resultForApplier tc.arguments
  let df0 ← asObj applied
  let df1 := setdefaultL df0 "working_memory" (.obj [])
  let df2 ←
    if tc.name = "noma/trip_option_ranker" then do
      let bundles ←
        match resultForApplier with
        | .obj _ => dictGet resultForApplier "bundles" (.arr [])
        | _ => pure (JVal.arr [])
      let wm ← getWMF df1
      pure (setWM df1 (osetL wm "ranked_bundles" bundles))
    else pure df1
  let df3 := setdefaultL df2 "status" (.obj [])
  let st ← getStatusF df3
  let st := setdefaultL st "notes" (.arr [])
  let notes ← asArr (getD st "notes" .null)
  let note := "[tool_success] " ++ tc.name ++ " | input: " ++ jsonDumps tc.arguments
  let df4 := osetL df3 "status" (.obj (osetL st "notes" (.arr (notes ++ [.str note]))))
  let evData0 : Fields := [("tool_name", .str tc.name), ("result", result)]
  let evData ←
    if tc.name = "trip_requirements_extract" && truthy tc.arguments then do
      let um ← dictGet tc.arguments "user_message" (.str "")
      pure (evData0 ++ [("user_message", um)])
    else pure evData0
  let reduced ← reducerRun (.obj df4) "TOOL_RESULT" (.obj evData) now
  return (reduced.tripIntent, reduced.toolCalls)

/-- `Runner._run_tool_queue_and_followups`: the deterministic dispatch loop
with both runaway guards.  `fuel` only bounds the model's recursion (the
total-dispatch guard stops real runs long before any reasonable fuel). -/
def runToolQueue (conv statusUpdates : Fields)
    (callTool : String → JVal → Except String JVal) (now : Int) :
    Nat → JVal → List MTool → Nat → List (String × Nat) → PyM JVal
  | 0, _, _, _, _ => none
  | fuel + 1, doc, queue, runCount, counts =>
      match queue with
      | [] => pure doc
      | tc :: rest =>
          let runCount := runCount + 1
          if runCount > MAX_TOOL_RUNS_PER_TURN then
            runawayStopDoc doc
          else if countOf counts tc.name ≥ MAX_RUNS_PER_TOOL_NAME then do
            let doc2 ← skipNoteDoc doc tc.name
            runToolQueue conv statusUpdates callTool now fuel doc2 rest runCount counts
          else
            let counts := bumpCount counts tc.name
            let callRes : Except String JVal :=
              if tc.name = "trip_requirements_extract" then callTool tc.name tc.arguments
              else if tc.name = "generate_followup_questions" then callTool tc.name tc.arguments
              else if (splitOnChar tc.name (Char.ofNat 47)).length < 2 then
                Except.error ("❌ " ++ tc.name ++ " is not a valid tool. Use " ++ apos ++
                  "extension/handler" ++ apos ++ " or " ++ apos ++
                  "extension/handler/subhandler" ++ apos ++ ".")
              else callTool tc.name tc.arguments
            match callRes with
            | Except.error e => do
                let rerr ← reducerRun doc "TOOL_ERROR"
                  (.obj [("tool_name", .str tc.name), ("error", .str e)]) now
                runToolQueue conv statusUpdates callTool now fuel rerr.tripIntent rest runCount counts
            | Except.ok result =>
                if tc.name = "generate_followup_questions" then
                  runToolQueue conv statusUpdates callTool now fuel doc rest runCount counts
                else do
                  let successV ← dictGetN result "success"
                  if !truthy successV then do
                    let outV ← dictGetN result "output"
                    let errV ← dictGetN result "error"
                    let e := strOfErrVal (pyOr outV (pyOr errV (.str "Handler call failed")))
                    let rerr ← reducerRun doc "TOOL_ERROR"
                      (.obj [("tool_name", .str tc.name), ("error", .str e)]) now
                    runToolQueue conv statusUpdates callTool now fuel rerr.tripIntent rest runCount counts
                  else do
                    let (doc2, followups) ← dispatchApplyReduce conv statusUpdates now doc tc result
                    runToolQueue conv statusUpdates callTool now fuel doc2 (rest ++ followups)
                      runCount counts

/-! ## Projections used by the theorem statements -/

/-- `doc["status"].get(k)` (status read used by the specifications). -/
def statusField (doc : JVal) (k : String) : Option JVal := do
  let f ← asObj doc
  let st ← asObj (getD f "status" .null)
  pure (getD st k .null)

/-- `doc["working_memory"].get(k)`. -/
def wmField (doc : JVal) (k : String) : Option JVal := do
  let f ← asObj doc
  let wm ← asObj (getD f "working_memory" .null)
  pure (getD wm k .null)

/-- The names of the two quoting operations. -/
def quotingOpNames : List String := ["noma/flight_quote_search", "noma/hotel_quote_search"]

/-- The quoting operations among a call list. -/
def quotingOps (tcs : List MTool) : List MTool :=
  tcs.filter (fun t => quotingOpNames.contains t.name)

/-- Whether a call list contains the ranking operation. -/
def hasRankerOp (tcs : List MTool) : Bool :=
  tcs.any (fun t => t.name = "noma/trip_option_ranker")

/-! ## Basic lemmas about the dict operations -/

@[simp] theorem pym_bind_eq {α β : Type} (a : PyM α) (f : α → PyM β) :
    bind a f = obind a f := rfl

@[simp] theorem pym_pure_eq {α : Type} (a : α) : (pure a : PyM α) = some a := rfl

@[simp] theorem obind_some {α β : Type} (a : α) (f : α → Option β) :
    obind (some a) f = f a := rfl

@[simp] theorem obind_none {α β : Type} (f : α → Option β) :
    obind (none : Option α) f = none := rfl

theorem obind_eq_some {α β : Type} {a : Option α} {f : α → Option β} {b : β} :
    obind a f = some b ↔ ∃ x, a = some x ∧ f x = some b := by
  cases a <;> simp [obind]

theorem pym_bind_eq_some {α β : Type} {a : PyM α} {f : α → PyM β} {b : β} :
    bind a f = some b ↔ ∃ x, a = some x ∧ f x = some b := obind_eq_some

@[simp] theorem lookupJ_osetL_self (l : Fields) (k : String) (v : JVal) :
    lookupJ (osetL l k v) k = some v := by
  induction l with
  | nil => simp [osetL, lookupJ]
  | cons kv rest ih =>
      obtain ⟨k0, v0⟩ := kv
      by_cases h : k0 = k <;> simp [osetL, lookupJ, h, ih]

theorem lookupJ_osetL_ne (l : Fields) (k k0 : String) (v : JVal) (h : k0 ≠ k) :
    lookupJ (osetL l k v) k0 = lookupJ l k0 := by
  induction l with
  | nil =>
      have hne : ¬ k = k0 := fun hh => h (Eq.symm hh)
      simp [osetL, lookupJ, hne]
  | cons kv rest ih =>
      obtain ⟨k1, v1⟩ := kv
      by_cases h1 : k1 = k
      · subst h1
        have hne : ¬ k1 = k0 := fun hh => h (Eq.symm hh)
        simp [osetL, lookupJ, hne]
      · by_cases h2 : k1 = k0 <;> simp [osetL, lookupJ, h1, h2, ih, h]

@[simp] theorem getD_osetL_self (l : Fields) (k : String) (v d : JVal) :
    getD (osetL l k v) k d = v := by
  simp [getD]

theorem getD_osetL_ne (l : Fields) (k k0 : String) (v d : JVal) (h : k0 ≠ k) :
    getD (osetL l k v) k0 d = getD l k0 d := by
  simp [getD, lookupJ_osetL_ne l k k0 v h]

theorem lookupJ_append_ne (l : Fields) (k k0 : String) (d : JVal) (h : k0 ≠ k) :
    lookupJ (l ++ [(k, d)]) k0 = lookupJ l k0 := by
  induction l with
  | nil =>
      have hne : ¬ k = k0 := fun hh => h (Eq.symm hh)
      simp [lookupJ, hne]
  | cons kv rest ih =>
      obtain ⟨k1, v1⟩ := kv
      by_cases h2 : k1 = k0 <;> simp [lookupJ, h2, ih]

theorem lookupJ_append_self (l : Fields) (k : String) (d : JVal)
    (h : lookupJ l k = none) : lookupJ (l ++ [(k, d)]) k = some d := by
  induction l with
  | nil => simp [lookupJ]
  | cons kv rest ih =>
      obtain ⟨k1, v1⟩ := kv
      by_cases h2 : k1 = k
      · simp [lookupJ, h2] at h
      · simp only [lookupJ, h2, if_false, List.cons_append] at h ⊢
        simp [lookupJ, h2]
        exact ih h

theorem lookupJ_setdefaultL_ne (l : Fields) (k k0 : String) (d : JVal) (h : k0 ≠ k) :
    lookupJ (setdefaultL l k d) k0 = lookupJ l k0 := by
  unfold setdefaultL
  cases hl : lookupJ l k with
  | some v => rfl
  | none => exact lookupJ_append_ne l k k0 d h

theorem lookupJ_setdefaultL_self (l : Fields) (k : String) (d : JVal) :
    lookupJ (setdefaultL l k d) k = some ((lookupJ l k).getD d) := by
  unfold setdefaultL
  cases hl : lookupJ l k with
  | some v => simp [hl]
  | none => simp [hl, lookupJ_append_self l k d hl]

/-! ## Claim C2 infrastructure -/

/-- Every binding of key `k` in the field list holds a list value. -/
def keyAllArr (l : Fields) (k : String) : Prop :=
  ∀ p ∈ l, (p : String × JVal).1 = k → ∃ xs, p.2 = JVal.arr xs

/-- No binding of key `k` in the field list holds a list value. -/
def keyNoArr (l : Fields) (k : String) : Prop :=
  ∀ p ∈ l, (p : String × JVal).1 = k → ∀ xs, p.2 ≠ JVal.arr xs

theorem mem_osetL {p : String × JVal} {l : Fields} {k : String} {v : JVal}
    (h : p ∈ osetL l k v) : p ∈ l ∨ p = (k, v) := by
  induction l with
  | nil =>
      simp [osetL] at h
      exact Or.inr h
  | cons q rest ih =>
      obtain ⟨k1, v1⟩ := q
      by_cases h1 : k1 = k
      · subst h1
        simp [osetL] at h
        rcases h with h | h
        · exact Or.inr (by simp [h])
        · exact Or.inl (List.mem_cons_of_mem _ h)
      · simp [osetL, h1] at h
        rcases h with h | h
        · exact Or.inl (by simp [h])
        · rcases ih h with h2 | h2
          · exact Or.inl (List.mem_cons_of_mem _ h2)
          · exact Or.inr h2

theorem lookupJ_mem {l : Fields} {k : String} {v : JVal}
    (h : lookupJ l k = some v) : (k, v) ∈ l := by
  induction l with
  | nil => simp [lookupJ] at h
  | cons q rest ih =>
      obtain ⟨k1, v1⟩ := q
      by_cases h1 : k1 = k
      · subst h1
        simp [lookupJ] at h
        simp [h]
      · simp [lookupJ, h1] at h
        exact List.mem_cons_of_mem _ (ih h)

theorem keyAllArr_osetL {l : Fields} {k key : String} {v : JVal}
    (hl : keyAllArr l key) (hv : key = k → ∃ xs, v = JVal.arr xs) :
    keyAllArr (osetL l k v) key := by
  intro p hp hk
  rcases mem_osetL hp with h | h
  · exact hl p h hk
  · subst h
    exact hv hk.symm

theorem keyNoArr_osetL {l : Fields} {k key : String} {v : JVal}
    (hl : keyNoArr l key) (hv : key = k → ∀ xs, v ≠ JVal.arr xs) :
    keyNoArr (osetL l k v) key := by
  intro p hp hk
  rcases mem_osetL hp with h | h
  · exact hl p h hk
  · subst h
    exact hv hk.symm

theorem keyAllArr_tail {q : String × JVal} {l : Fields} {k : String}
    (h : keyAllArr (q :: l) k) : keyAllArr l k :=
  fun p hp hk => h p (List.mem_cons_of_mem _ hp) hk

theorem keyNoArr_tail {q : String × JVal} {l : Fields} {k : String}
    (h : keyNoArr (q :: l) k) : keyNoArr l k :=
  fun p hp hk => h p (List.mem_cons_of_mem _ hp) hk

theorem mergeVal_arr (d : JVal) (xs : List JVal) :
    mergeVal d (JVal.arr xs) = JVal.arr xs := rfl

theorem mergeVal_not_arr {v : JVal} (hv : ∀ xs, v ≠ JVal.arr xs) (d : JVal) :
    ∀ xs, mergeVal d v ≠ JVal.arr xs := by
  intro xs
  rw [mergeVal.eq_def]
  cases d <;> cases v <;> simp_all

theorem keyAllArr_merge {k : String} : ∀ {p d : Fields},
    keyAllArr d k → keyAllArr p k → keyAllArr (mergeFields d p) k := by
  intro p
  induction p with
  | nil =>
      intro d hd _
      simpa [mergeFields] using hd
  | cons q rest ih =>
      intro d hd hp
      obtain ⟨k0, v0⟩ := q
      rw [mergeFields]
      refine ih ?_ (keyAllArr_tail hp)
      refine keyAllArr_osetL hd ?_
      intro hk
      obtain ⟨xs, hxs⟩ := hp (k0, v0) (List.mem_cons_self _ _) hk.symm
      simp only at hxs
      subst hxs
      refine ⟨xs, ?_⟩
      cases hdl : lookupJ d k0 with
      | none => rfl
      | some w => simp [mergeVal_arr]

theorem keyNoArr_merge {k : String} : ∀ {p d : Fields},
    keyNoArr d k → keyNoArr p k → keyNoArr (mergeFields d p) k := by
  intro p
  induction p with
  | nil =>
      intro d hd _
      simpa [mergeFields] using hd
  | cons q rest ih =>
      intro d hd hp
      obtain ⟨k0, v0⟩ := q
      rw [mergeFields]
      refine ih ?_ (keyNoArr_tail hp)
      refine keyNoArr_osetL hd ?_
      intro hk
      have hv0 := hp (k0, v0) (List.mem_cons_self _ _) hk.symm
      simp only at hv0
      intro xs
      cases hdl : lookupJ d k0 with
      | none => exact hv0 xs
      | some w => exact mergeVal_not_arr hv0 w xs

/-- The caches cleared by the flight-invalidation rule are schema-typed in a
working-memory field list: the three list-valued cache keys hold lists
whenever present, and `risk_report` never holds a list. -/
def wmKeysTyped (wf : Fields) : Prop :=
  keyAllArr wf "flight_quotes_by_segment" ∧ keyAllArr wf "ranked_bundles" ∧
  keyAllArr wf "holds" ∧ keyNoArr wf "risk_report"

/-- Every `working_memory` dict bound at the top level of a document field
list is schema-typed. -/
def wmTypedF (f : Fields) : Prop :=
  ∀ p ∈ f, (p : String × JVal).1 = "working_memory" →
    ∀ wf, p.2 = JVal.obj wf → wmKeysTyped wf

/-- Schema-typedness of a document value. -/
def wmTyped (v : JVal) : Prop := ∀ f, v = JVal.obj f → wmTypedF f

theorem wmKeysTyped_nil : wmKeysTyped [] := by
  refine ⟨?_, ?_, ?_, ?_⟩ <;> intro p hp <;> simp at hp

theorem wmKeysTyped_merge {d p : Fields} (hd : wmKeysTyped d) (hp : wmKeysTyped p) :
    wmKeysTyped (mergeFields d p) :=
  ⟨keyAllArr_merge hd.1 hp.1, keyAllArr_merge hd.2.1 hp.2.1,
   keyAllArr_merge hd.2.2.1 hp.2.2.1, keyNoArr_merge hd.2.2.2 hp.2.2.2⟩

theorem wmTypedF_osetL {l : Fields} {k : String} {v : JVal}
    (hl : wmTypedF l)
    (hv : k = "working_memory" → ∀ wf, v = JVal.obj wf → wmKeysTyped wf) :
    wmTypedF (osetL l k v) := by
  intro p hp hk wf hwf
  rcases mem_osetL hp with h | h
  · exact hl p h hk wf hwf
  · subst h
    exact hv hk wf hwf

theorem wmTypedF_tail {q : String × JVal} {l : Fields}
    (h : wmTypedF (q :: l)) : wmTypedF l :=
  fun p hp hk => h p (List.mem_cons_of_mem _ hp) hk

theorem wmTypedF_merge : ∀ {p d : Fields},
    wmTypedF d → wmTypedF p → wmTypedF (mergeFields d p) := by
  intro p
  induction p with
  | nil =>
      intro d hd _
      simpa [mergeFields] using hd
  | cons q rest ih =>
      intro d hd hp
      obtain ⟨k0, v0⟩ := q
      rw [mergeFields]
      refine ih ?_ (wmTypedF_tail hp)
      refine wmTypedF_osetL hd ?_
      intro hk wf hwf
      revert hwf
      cases hdl : lookupJ d k0 with
      | none =>
          intro hwf
          exact hp (k0, v0) (List.mem_cons_self _ _) hk wf hwf
      | some dd =>
          show mergeVal dd v0 = JVal.obj wf → wmKeysTyped wf
          rw [mergeVal.eq_def]
          cases dd with
          | obj ddf =>
              cases v0 with
              | obj pvf =>
                  intro hwf
                  simp only [JVal.obj.injEq] at hwf
                  subst hwf
                  exact wmKeysTyped_merge
                    (hd (k0, JVal.obj ddf) (lookupJ_mem hdl) hk ddf rfl)
                    (hp (k0, JVal.obj pvf) (List.mem_cons_self _ _) hk pvf rfl)
              | null => intro hwf; exact hp (k0, JVal.null) (List.mem_cons_self _ _) hk wf hwf
              | bool b => intro hwf; exact hp (k0, JVal.bool b) (List.mem_cons_self _ _) hk wf hwf
              | num n => intro hwf; exact hp (k0, JVal.num n) (List.mem_cons_self _ _) hk wf hwf
              | fnum r => intro hwf; exact hp (k0, JVal.fnum r) (List.mem_cons_self _ _) hk wf hwf
              | str st => intro hwf; exact hp (k0, JVal.str st) (List.mem_cons_self _ _) hk wf hwf
              | arr ys => intro hwf; exact hp (k0, JVal.arr ys) (List.mem_cons_self _ _) hk wf hwf
          | null => intro hwf; exact hp (k0, v0) (List.mem_cons_self _ _) hk wf (by cases v0 <;> simpa using hwf)
          | bool b => intro hwf; exact hp (k0, v0) (List.mem_cons_self _ _) hk wf (by cases v0 <;> simpa using hwf)
          | num n => intro hwf; exact hp (k0, v0) (List.mem_cons_self _ _) hk wf (by cases v0 <;> simpa using hwf)
          | fnum r => intro hwf; exact hp (k0, v0) (List.mem_cons_self _ _) hk wf (by cases v0 <;> simpa using hwf)
          | str st => intro hwf; exact hp (k0, v0) (List.mem_cons_self _ _) hk wf (by cases v0 <;> simpa using hwf)
          | arr ys => intro hwf; exact hp (k0, v0) (List.mem_cons_self _ _) hk wf (by cases v0 <;> simpa using hwf)

theorem asObj_eq_some {v : JVal} {f : Fields} (h : asObj v = some f) :
    v = JVal.obj f := by
  cases v <;> simp [asObj] at h <;> simp [h]

/-- The flight-rule clearing targets in their fully cleared state, plus the
reset selection. -/
def wmCleared (wm : Fields) : Prop :=
  lookupJ wm "flight_quotes_by_segment" = some (JVal.arr []) ∧
  lookupJ wm "ranked_bundles" = some (JVal.arr []) ∧
  lookupJ wm "risk_report" = some JVal.null ∧
  lookupJ wm "holds" = some (JVal.arr []) ∧
  lookupJ wm "selected" = some emptySelection

theorem lookupJ_ensureSelectedIds_ne (w : Fields) {k : String} (h : k ≠ "selected") :
    lookupJ (ensureSelectedIds w) k = lookupJ w k := by
  unfold ensureSelectedIds
  cases hs : lookupJ w "selected" with
  | none => rfl
  | some v => cases v <;> simp [lookupJ_osetL_ne _ _ _ _ h]

theorem ensureWM_fqbs (wm : Fields) :
    lookupJ (ensureWMDefaults wm) "flight_quotes_by_segment" =
      some ((lookupJ wm "flight_quotes_by_segment").getD (JVal.arr [])) := by
  unfold ensureWMDefaults
  rw [lookupJ_ensureSelectedIds_ne _ (by decide),
      lookupJ_setdefaultL_ne _ _ _ _ (by decide),
      lookupJ_setdefaultL_ne _ _ _ _ (by decide),
      lookupJ_setdefaultL_ne _ _ _ _ (by decide),
      lookupJ_setdefaultL_ne _ _ _ _ (by decide),
      lookupJ_setdefaultL_ne _ _ _ _ (by decide),
      lookupJ_setdefaultL_ne _ _ _ _ (by decide),
      lookupJ_setdefaultL_self,
      lookupJ_setdefaultL_ne _ _ _ _ (by decide),
      lookupJ_setdefaultL_ne _ _ _ _ (by decide)]

theorem ensureWM_rb (wm : Fields) :
    lookupJ (ensureWMDefaults wm) "ranked_bundles" =
      some ((lookupJ wm "ranked_bundles").getD (JVal.arr [])) := by
  unfold ensureWMDefaults
  rw [lookupJ_ensureSelectedIds_ne _ (by decide),
      lookupJ_setdefaultL_ne _ _ _ _ (by decide),
      lookupJ_setdefaultL_ne _ _ _ _ (by decide),
      lookupJ_setdefaultL_ne _ _ _ _ (by decide),
      lookupJ_setdefaultL_ne _ _ _ _ (by decide),
      lookupJ_setdefaultL_self,
      lookupJ_setdefaultL_ne _ _ _ _ (by decide),
      lookupJ_setdefaultL_ne _ _ _ _ (by decide),
      lookupJ_setdefaultL_ne _ _ _ _ (by decide),
      lookupJ_setdefaultL_ne _ _ _ _ (by decide)]

theorem ensureWM_risk (wm : Fields) :
    lookupJ (ensureWMDefaults wm) "risk_report" =
      some ((lookupJ wm "risk_report").getD JVal.null) := by
  unfold ensureWMDefaults
  rw [lookupJ_ensureSelectedIds_ne _ (by decide),
      lookupJ_setdefaultL_ne _ _ _ _ (by decide),
      lookupJ_setdefaultL_ne _ _ _ _ (by decide),
      lookupJ_setdefaultL_ne _ _ _ _ (by decide),
      lookupJ_setdefaultL_self,
      lookupJ_setdefaultL_ne _ _ _ _ (by decide),
      lookupJ_setdefaultL_ne _ _ _ _ (by decide),
      lookupJ_setdefaultL_ne _ _ _ _ (by decide),
      lookupJ_setdefaultL_ne _ _ _ _ (by decide),
      lookupJ_setdefaultL_ne _ _ _ _ (by decide)]

theorem ensureWM_holds (wm : Fields) :
    lookupJ (ensureWMDefaults wm) "holds" =
      some ((lookupJ wm "holds").getD (JVal.arr [])) := by
  unfold ensureWMDefaults
  rw [lookupJ_ensureSelectedIds_ne _ (by decide),
      lookupJ_setdefaultL_ne _ _ _ _ (by decide),
      lookupJ_setdefaultL_ne _ _ _ _ (by decide),
      lookupJ_setdefaultL_self,
      lookupJ_setdefaultL_ne _ _ _ _ (by decide),
      lookupJ_setdefaultL_ne _ _ _ _ (by decide),
      lookupJ_setdefaultL_ne _ _ _ _ (by decide),
      lookupJ_setdefaultL_ne _ _ _ _ (by decide),
      lookupJ_setdefaultL_ne _ _ _ _ (by decide),
      lookupJ_setdefaultL_ne _ _ _ _ (by decide)]

theorem clearKey_fst_lookup_ne (st : Fields × List String × List String)
    (key reason : String) {k : String} (h : k ≠ key) :
    lookupJ (clearKey st key reason).1 k = lookupJ st.1 k := by
  obtain ⟨wm, c, r⟩ := st
  cases hv : lookupJ wm key <;>
    simp [clearKey, hv, lookupJ_osetL_ne _ _ _ _ h]

theorem clearKey_fst_lookup_self_arr {st : Fields × List String × List String}
    {key : String} (reason : String) {xs : List JVal}
    (h : lookupJ st.1 key = some (JVal.arr xs)) :
    lookupJ (clearKey st key reason).1 key = some (JVal.arr []) := by
  obtain ⟨wm, c, r⟩ := st
  simp only at h
  simp [clearKey, h, lookupJ_osetL_self]

theorem clearKey_fst_lookup_self_notarr {st : Fields × List String × List String}
    {key : String} (reason : String) {v : JVal}
    (h : lookupJ st.1 key = some v) (hv : ∀ xs, v ≠ JVal.arr xs) :
    lookupJ (clearKey st key reason).1 key = some JVal.null := by
  obtain ⟨wm, c, r⟩ := st
  simp only at h
  cases v with
  | arr xs => exact absurd rfl (hv xs)
  | null => simp [clearKey, h, lookupJ_osetL_self]
  | bool b => simp [clearKey, h, lookupJ_osetL_self]
  | num n => simp [clearKey, h, lookupJ_osetL_self]
  | fnum q => simp [clearKey, h, lookupJ_osetL_self]
  | str s => simp [clearKey, h, lookupJ_osetL_self]
  | obj f => simp [clearKey, h, lookupJ_osetL_self]

theorem clearKey_fst_lookup_self_null {st : Fields × List String × List String}
    {key : String} (reason : String) (h : lookupJ st.1 key = some JVal.null) :
    lookupJ (clearKey st key reason).1 key = some JVal.null :=
  clearKey_fst_lookup_self_notarr reason h (fun _ hxs => by cases hxs)

theorem clearSelection_fst (st : Fields × List String × List String) (reason : String) :
    (clearSelection st reason).1 = osetL st.1 "selected" emptySelection := by
  obtain ⟨wm, c, r⟩ := st
  rfl

/-- The flight-invalidation clearing chain establishes the cleared state as
long as the working memory is schema-typed and carries the keys. -/
theorem invFlight_clears
    (st : Fields × List String × List String)
    (hfqbs : ∃ xs, lookupJ st.1 "flight_quotes_by_segment" = some (JVal.arr xs))
    (hrb : ∃ xs, lookupJ st.1 "ranked_bundles" = some (JVal.arr xs))
    (hholds : ∃ xs, lookupJ st.1 "holds" = some (JVal.arr xs))
    (hrisk : ∃ v, lookupJ st.1 "risk_report" = some v ∧ ∀ xs, v ≠ JVal.arr xs) :
    wmCleared (invFlight st).1 := by
  obtain ⟨x1, h1⟩ := hfqbs
  obtain ⟨x2, h2⟩ := hrb
  obtain ⟨x3, h3⟩ := hholds
  obtain ⟨v4, h4, hv4⟩ := hrisk
  unfold invFlight
  refine ⟨?_, ?_, ?_, ?_, ?_⟩
  · rw [clearSelection_fst, lookupJ_osetL_ne _ _ _ _ (by decide),
      clearKey_fst_lookup_ne _ _ _ (by decide),
      clearKey_fst_lookup_ne _ _ _ (by decide),
      clearKey_fst_lookup_ne _ _ _ (by decide)]
    exact clearKey_fst_lookup_self_arr _
      (by rw [clearKey_fst_lookup_ne _ _ _ (by decide)]; exact h1)
  · rw [clearSelection_fst, lookupJ_osetL_ne _ _ _ _ (by decide),
      clearKey_fst_lookup_ne _ _ _ (by decide),
      clearKey_fst_lookup_ne _ _ _ (by decide)]
    exact clearKey_fst_lookup_self_arr _
      (by rw [clearKey_fst_lookup_ne _ _ _ (by decide),
              clearKey_fst_lookup_ne _ _ _ (by decide)]; exact h2)
  · rw [clearSelection_fst, lookupJ_osetL_ne _ _ _ _ (by decide),
      clearKey_fst_lookup_ne _ _ _ (by decide)]
    refine clearKey_fst_lookup_self_notarr _ ?_ hv4
    rw [clearKey_fst_lookup_ne _ _ _ (by decide),
        clearKey_fst_lookup_ne _ _ _ (by decide),
        clearKey_fst_lookup_ne _ _ _ (by decide)]
    exact h4
  · rw [clearSelection_fst, lookupJ_osetL_ne _ _ _ _ (by decide)]
    exact clearKey_fst_lookup_self_arr _
      (by rw [clearKey_fst_lookup_ne _ _ _ (by decide),
              clearKey_fst_lookup_ne _ _ _ (by decide),
              clearKey_fst_lookup_ne _ _ _ (by decide),
              clearKey_fst_lookup_ne _ _ _ (by decide)]; exact h3)
  · rw [clearSelection_fst]
    exact lookupJ_osetL_self _ _ _

/-- The hotel-invalidation chain preserves the cleared state. -/
theorem invHotel_preserves
    (st : Fields × List String × List String) (h : wmCleared st.1) :
    wmCleared (invHotel st).1 := by
  obtain ⟨h1, h2, h3, h4, h5⟩ := h
  unfold invHotel
  refine ⟨?_, ?_, ?_, ?_, ?_⟩
  · rw [clearSelection_fst, lookupJ_osetL_ne _ _ _ _ (by decide),
      clearKey_fst_lookup_ne _ _ _ (by decide),
      clearKey_fst_lookup_ne _ _ _ (by decide),
      clearKey_fst_lookup_ne _ _ _ (by decide),
      clearKey_fst_lookup_ne _ _ _ (by decide),
      clearKey_fst_lookup_ne _ _ _ (by decide)]
    exact h1
  · rw [clearSelection_fst, lookupJ_osetL_ne _ _ _ _ (by decide),
      clearKey_fst_lookup_ne _ _ _ (by decide),
      clearKey_fst_lookup_ne _ _ _ (by decide)]
    exact clearKey_fst_lookup_self_arr _
      (by rw [clearKey_fst_lookup_ne _ _ _ (by decide),
              clearKey_fst_lookup_ne _ _ _ (by decide)]; exact h2)
  · rw [clearSelection_fst, lookupJ_osetL_ne _ _ _ _ (by decide),
      clearKey_fst_lookup_ne _ _ _ (by decide)]
    refine clearKey_fst_lookup_self_null _ ?_
    rw [clearKey_fst_lookup_ne _ _ _ (by decide),
        clearKey_fst_lookup_ne _ _ _ (by decide),
        clearKey_fst_lookup_ne _ _ _ (by decide)]
    exact h3
  · rw [clearSelection_fst, lookupJ_osetL_ne _ _ _ _ (by decide)]
    exact clearKey_fst_lookup_self_arr _
      (by rw [clearKey_fst_lookup_ne _ _ _ (by decide),
              clearKey_fst_lookup_ne _ _ _ (by decide),
              clearKey_fst_lookup_ne _ _ _ (by decide),
              clearKey_fst_lookup_ne _ _ _ (by decide)]; exact h4)
  · rw [clearSelection_fst]
    exact lookupJ_osetL_self _ _ _

/-- The policy/constraints branch leaves a cleared working memory untouched. -/
theorem invPolicy_cleared_eq (st : Fields × List String × List String)
    (changed : List String) (h : wmCleared st.1) : invPolicy st changed = st := by
  obtain ⟨h1, h2, h3, h4, h5⟩ := h
  unfold invPolicy
  have hrd : getD st.1 "risk_report" JVal.null = JVal.null := by
    simp [getD, h3]
  have hhd : getD st.1 "holds" JVal.null = JVal.arr [] := by
    simp [getD, h4]
  simp [hrd, hhd, truthy]

/-- `_invalidate_caches` with a flight-trigger path among the changed paths
clears the flight caches and resets the selection, given a schema-typed
working memory. -/
theorem invalidateCaches_flight
    {docF : Fields} {changed : List String}
    {res : Fields × List String × List String}
    (hty : ∀ v, lookupJ docF "working_memory" = some v →
      ∀ wf, v = JVal.obj wf → wmKeysTyped wf)
    (hfire : anyStarts changed
      ["itinerary.segments", "preferences.flight", "party.travelers"] = true)
    (h : invalidateCaches docF changed = some res) :
    ∃ wm, lookupJ res.1 "working_memory" = some (JVal.obj wm) ∧ wmCleared wm := by
  simp only [invalidateCaches, pym_bind_eq_some, pym_pure_eq, Option.some.injEq,
    hfire, if_true] at h
  obtain ⟨wm0, hwm0, hres⟩ := h
  have hkt : wmKeysTyped wm0 := by
    have hv0 := asObj_eq_some hwm0
    rw [getD, lookupJ_setdefaultL_self] at hv0
    cases hv : lookupJ docF "working_memory" with
    | none =>
        rw [hv] at hv0
        simp at hv0
        subst hv0
        exact ⟨fun p hp => by simp at hp, fun p hp => by simp at hp,
               fun p hp => by simp at hp, fun p hp => by simp at hp⟩
    | some v =>
        rw [hv] at hv0
        simp at hv0
        exact hty v hv wm0 hv0
  have hfq : ∃ xs, lookupJ (ensureWMDefaults wm0) "flight_quotes_by_segment" =
      some (JVal.arr xs) := by
    rw [ensureWM_fqbs]
    cases hl : lookupJ wm0 "flight_quotes_by_segment" with
    | none => exact ⟨[], rfl⟩
    | some v =>
        obtain ⟨xs, hxs⟩ := hkt.1 (_, v) (lookupJ_mem hl) rfl
        simp only at hxs
        subst hxs
        exact ⟨xs, rfl⟩
  have hrb : ∃ xs, lookupJ (ensureWMDefaults wm0) "ranked_bundles" =
      some (JVal.arr xs) := by
    rw [ensureWM_rb]
    cases hl : lookupJ wm0 "ranked_bundles" with
    | none => exact ⟨[], rfl⟩
    | some v =>
        obtain ⟨xs, hxs⟩ := hkt.2.1 (_, v) (lookupJ_mem hl) rfl
        simp only at hxs
        subst hxs
        exact ⟨xs, rfl⟩
  have hho : ∃ xs, lookupJ (ensureWMDefaults wm0) "holds" =
      some (JVal.arr xs) := by
    rw [ensureWM_holds]
    cases hl : lookupJ wm0 "holds" with
    | none => exact ⟨[], rfl⟩
    | some v =>
        obtain ⟨xs, hxs⟩ := hkt.2.2.1 (_, v) (lookupJ_mem hl) rfl
        simp only at hxs
        subst hxs
        exact ⟨xs, rfl⟩
  have hrr : ∃ v, lookupJ (ensureWMDefaults wm0) "risk_report" = some v ∧
      ∀ xs, v ≠ JVal.arr xs := by
    rw [ensureWM_risk]
    cases hl : lookupJ wm0 "risk_report" with
    | none => exact ⟨JVal.null, rfl, fun xs hxs => by cases hxs⟩
    | some v =>
        exact ⟨v, rfl, fun xs => hkt.2.2.2 (_, v) (lookupJ_mem hl) rfl xs⟩
  have hcl1 : wmCleared (invFlight (ensureWMDefaults wm0, [], [])).1 :=
    invFlight_clears _ hfq hrb hho hrr
  have hcl2 : wmCleared (if anyStarts changed ["itinerary.lodging", "preferences.hotel"]
      then invHotel (invFlight (ensureWMDefaults wm0, [], []))
      else invFlight (ensureWMDefaults wm0, [], [])).1 := by
    by_cases hh : anyStarts changed ["itinerary.lodging", "preferences.hotel"]
    · rw [if_pos hh]
      exact invHotel_preserves _ hcl1
    · rw [if_neg hh]
      exact hcl1
  rw [← hres]
  refine ⟨_, lookupJ_osetL_self _ _ _, ?_⟩
  by_cases hp : anyStarts changed ["policy", "constraints"]
  · rw [if_pos hp, invPolicy_cleared_eq _ _ hcl2]
    exact hcl2
  · rw [if_neg hp]
    exact hcl2

theorem anyStarts_of_mem {changed prefs : List String} {cp p : String}
    (hc : cp ∈ changed) (hp : p ∈ prefs) (h : strStarts cp p = true) :
    anyStarts changed prefs = true := by
  unfold anyStarts
  rw [List.any_eq_true]
  exact ⟨cp, hc, by rw [List.any_eq_true]; exact ⟨p, hp, h⟩⟩

/-- Claim C2: any patch whose computed changed paths touch
`itinerary.segments` leaves the merged document with the flight-derived
caches cleared and the selection reset. -/
theorem c2_segment_change_clears_flight_caches
    (doc patch : JVal) (source note : String) (out : POut)
    (hdoc : wmTyped doc) (hpatch : wmTyped patch)
    (hrun : patcherRun doc patch source note = some out)
    (hcp : ∃ cp ∈ out.changed, strStarts cp "itinerary.segments" = true) :
    ∃ wm, subscr out.tripIntent "working_memory" = some (JVal.obj wm) ∧
      lookupJ wm "flight_quotes_by_segment" = some (JVal.arr []) ∧
      lookupJ wm "ranked_bundles" = some (JVal.arr []) ∧
      lookupJ wm "risk_report" = some JVal.null ∧
      lookupJ wm "holds" = some (JVal.arr []) ∧
      lookupJ wm "selected" = some emptySelection := by
  simp only [patcherRun, pym_bind_eq_some, pym_pure_eq, Option.some.injEq] at hrun
  obtain ⟨df, hdf, pf, hpf, statusF, hstF, s2, hs2, x, hx, sugg, hsugg, hout⟩ := hrun
  obtain ⟨m3, cleared, reasons⟩ := x
  subst hout
  simp only at hcp ⊢
  have hty : ∀ v, lookupJ (osetL (setdefaultL (mergeFields df pf) "status" (.obj []))
      "status" (.obj s2)) "working_memory" = some v →
      ∀ wf, v = JVal.obj wf → wmKeysTyped wf := by
    intro v hv wf hwf
    rw [lookupJ_osetL_ne _ _ _ _ (by decide),
        lookupJ_setdefaultL_ne _ _ _ _ (by decide)] at hv
    have hm : wmTypedF (mergeFields df pf) :=
      wmTypedF_merge (hdoc df (asObj_eq_some hdf)) (hpatch pf (asObj_eq_some hpf))
    exact hm _ (lookupJ_mem hv) rfl wf hwf
  obtain ⟨cp, hcmem, hcs⟩ := hcp
  have hfire := anyStarts_of_mem hcmem
    (List.mem_cons_self "itinerary.segments"
      ["preferences.flight", "party.travelers"]) hcs
  obtain ⟨wm, hwm, hcl⟩ := invalidateCaches_flight hty hfire hx
  exact ⟨wm, hwm, hcl.1, hcl.2.1, hcl.2.2.1, hcl.2.2.2.1, hcl.2.2.2.2⟩

/-- A two-key document whose `working_memory` sections (there are none) are
trivially schema-typed. -/
theorem wmTyped_no_wm_doc :
    wmTyped (JVal.obj [("itinerary", JVal.obj [("segments", JVal.arr [])])]) := by
  intro f hf
  cases hf
  intro p hp hk wf hwf
  simp at hp
  subst hp
  simp at hk

theorem wmTyped_no_wm_patch :
    wmTyped (JVal.obj [("itinerary", JVal.obj [("segments",
      JVal.arr [JVal.obj [("origin", JVal.str "JFK")]])])]) := by
  intro f hf
  cases hf
  intro p hp hk wf hwf
  simp at hp
  subst hp
  simp at hk

set_option maxRecDepth 4000 in
/-- Witness for C2 at a concrete document and patch: a patch that rewrites
`itinerary.segments` leads to a fully cleared working memory. -/
theorem c2_witness :
    patcherRun
      (JVal.obj [("itinerary", JVal.obj [("segments", JVal.arr [])])])
      (JVal.obj [("itinerary", JVal.obj [("segments",
        JVal.arr [JVal.obj [("origin", JVal.str "JFK")]])])])
      "requirements_extract" "" = some
      ⟨JVal.obj [("itinerary", JVal.obj [("segments",
          JVal.arr [JVal.obj [("origin", JVal.str "JFK")]])]),
        ("status", JVal.obj [("notes", JVal.arr [])]),
        ("working_memory", JVal.obj [("flight_quotes", JVal.arr []),
          ("hotel_quotes", JVal.arr []), ("flight_quotes_by_segment", JVal.arr []),
          ("hotel_quotes_by_stay", JVal.arr []), ("ranked_bundles", JVal.arr []),
          ("risk_report", JVal.null), ("holds", JVal.arr []),
          ("bookings", JVal.arr []),
          ("selected", JVal.obj [("bundle_id", JVal.null),
            ("flight_option_id", JVal.null), ("hotel_option_id", JVal.null),
            ("flight_option_ids", JVal.arr []), ("hotel_option_ids", JVal.arr [])])])],
       ["itinerary.segments", "status"],
       ["working_memory.flight_quotes", "working_memory.flight_quotes_by_segment",
        "working_memory.ranked_bundles", "working_memory.risk_report",
        "working_memory.holds", "working_memory.selected"],
       ["Flight inputs changed → cleared flight quotes.",
        "Flight inputs changed → cleared flight quotes by segment.",
        "Flight inputs changed → cleared ranked bundles.",
        "Flight inputs changed → cleared risk report.",
        "Flight inputs changed → cleared holds.",
        "Selection cleared because flight-derived artifacts are stale."],
       ["flight_quote_search", "hotel_quote_search"]⟩ ∧
    ∃ wm, subscr
      (JVal.obj [("itinerary", JVal.obj [("segments",
          JVal.arr [JVal.obj [("origin", JVal.str "JFK")]])]),
        ("status", JVal.obj [("notes", JVal.arr [])]),
        ("working_memory", JVal.obj [("flight_quotes", JVal.arr []),
          ("hotel_quotes", JVal.arr []), ("flight_quotes_by_segment", JVal.arr []),
          ("hotel_quotes_by_stay", JVal.arr []), ("ranked_bundles", JVal.arr []),
          ("risk_report", JVal.null), ("holds", JVal.arr []),
          ("bookings", JVal.arr []),
          ("selected", JVal.obj [("bundle_id", JVal.null),
            ("flight_option_id", JVal.null), ("hotel_option_id", JVal.null),
            ("flight_option_ids", JVal.arr []), ("hotel_option_ids", JVal.arr [])])])])
      "working_memory" = some (JVal.obj wm) ∧
      lookupJ wm "flight_quotes_by_segment" = some (JVal.arr []) ∧
      lookupJ wm "ranked_bundles" = some (JVal.arr []) ∧
      lookupJ wm "risk_report" = some JVal.null ∧
      lookupJ wm "holds" = some (JVal.arr []) ∧
      lookupJ wm "selected" = some emptySelection := by
  have hrun : patcherRun
      (JVal.obj [("itinerary", JVal.obj [("segments", JVal.arr [])])])
      (JVal.obj [("itinerary", JVal.obj [("segments",
        JVal.arr [JVal.obj [("origin", JVal.str "JFK")]])])])
      "requirements_extract" "" = some
      ⟨JVal.obj [("itinerary", JVal.obj [("segments",
          JVal.arr [JVal.obj [("origin", JVal.str "JFK")]])]),
        ("status", JVal.obj [("notes", JVal.arr [])]),
        ("working_memory", JVal.obj [("flight_quotes", JVal.arr []),
          ("hotel_quotes", JVal.arr []), ("flight_quotes_by_segment", JVal.arr []),
          ("hotel_quotes_by_stay", JVal.arr []), ("ranked_bundles", JVal.arr []),
          ("risk_report", JVal.null), ("holds", JVal.arr []),
          ("bookings", JVal.arr []),
          ("selected", JVal.obj [("bundle_id", JVal.null),
            ("flight_option_id", JVal.null), ("hotel_option_id", JVal.null),
            ("flight_option_ids", JVal.arr []), ("hotel_option_ids", JVal.arr [])])])],
       ["itinerary.segments", "status"],
       ["working_memory.flight_quotes", "working_memory.flight_quotes_by_segment",
        "working_memory.ranked_bundles", "working_memory.risk_report",
        "working_memory.holds", "working_memory.selected"],
       ["Flight inputs changed → cleared flight quotes.",
        "Flight inputs changed → cleared flight quotes by segment.",
        "Flight inputs changed → cleared ranked bundles.",
        "Flight inputs changed → cleared risk report.",
        "Flight inputs changed → cleared holds.",
        "Selection cleared because flight-derived artifacts are stale."],
       ["flight_quote_search", "hotel_quote_search"]⟩ := by rfl
  refine ⟨hrun, ?_⟩
  exact c2_segment_change_clears_flight_caches _ _ _ _ _
    wmTyped_no_wm_doc wmTyped_no_wm_patch hrun
    ⟨"itinerary.segments", List.mem_cons_self _ _, rfl⟩

/-! ## Claim C6: the missing-fields computation reads only `itinerary` and
`party` -/

/-- Claim C6: the missing-required-fields computation factors through the
document's `itinerary` and `party` sections alone — two (dict) documents
whose `itinerary` and `party` reads agree produce identical results,
whatever `working_memory` or any other section contains. -/
theorem c6_missing_fields_depend_only_on_itinerary_party (f1 f2 : Fields)
    (hiti : getD f1 "itinerary" (.obj []) = getD f2 "itinerary" (.obj []))
    (hparty : getD f1 "party" (.obj []) = getD f2 "party" (.obj [])) :
    requiredMissing (.obj f1) = requiredMissing (.obj f2) := by
  simp only [requiredMissing, pym_bind_eq, dictGet, obind_some]
  rw [hiti, hparty]

/-- Witness for C6: two concrete documents with the same itinerary/party but
different caches report the same missing fields. -/
theorem c6_missing_fields_witness :
    getD [("itinerary", JVal.obj []), ("party", JVal.obj []),
          ("working_memory", JVal.obj [("holds", JVal.arr [JVal.str "h"])])]
        "itinerary" (.obj []) =
      getD [("itinerary", JVal.obj []), ("party", JVal.obj []),
            ("working_memory", JVal.obj [])] "itinerary" (.obj []) ∧
    getD [("itinerary", JVal.obj []), ("party", JVal.obj []),
          ("working_memory", JVal.obj [("holds", JVal.arr [JVal.str "h"])])]
        "party" (.obj []) =
      getD [("itinerary", JVal.obj []), ("party", JVal.obj []),
            ("working_memory", JVal.obj [])] "party" (.obj []) ∧
    requiredMissing (.obj [("itinerary", JVal.obj []), ("party", JVal.obj []),
          ("working_memory", JVal.obj [("holds", JVal.arr [JVal.str "h"])])]) =
      requiredMissing (.obj [("itinerary", JVal.obj []), ("party", JVal.obj []),
            ("working_memory", JVal.obj [])]) :=
  ⟨rfl, rfl,
   c6_missing_fields_depend_only_on_itinerary_party _ _ rfl rfl⟩

/-! ## Claim C1: `TOOL_ERROR` short-circuits the decision engine -/

theorem setStatus_eq_some {df df2 : Fields} {k : String} {v : JVal}
    (h : setStatus df k v = some df2) :
    ∃ s, asObj (getD df "status" .null) = some s ∧
      df2 = osetL df "status" (.obj (osetL s k v)) := by
  simp only [setStatus, getStatusF, pym_bind_eq_some, pym_pure_eq,
    Option.some.injEq] at h
  obtain ⟨s, hs, hd⟩ := h
  exact ⟨s, hs, hd.symm⟩

theorem statusField_osetL_status (df s : Fields) (k : String) :
    statusField (.obj (osetL df "status" (.obj s))) k = some (getD s k .null) := by
  simp [statusField, asObj, getD, lookupJ_osetL_self, obind]

/-- Claim C1: on a `TOOL_ERROR` event the decision engine returns no
operations and leaves the document in `(phase = error, state = retryable)`,
whatever the document's prior phase/state. -/
theorem c1_tool_error_short_circuits (doc evData : JVal) (now : Int) (out : ROut)
    (h : reducerRun doc "TOOL_ERROR" evData now = some out) :
    out.toolCalls = [] ∧
    statusField out.tripIntent "phase" = some (.str "error") ∧
    statusField out.tripIntent "state" = some (.str "retryable") := by
  simp only [reducerRun, pym_bind_eq_some, pym_pure_eq, reduceIte] at h
  obtain ⟨df0, hdf0, wm0, hwm0, h⟩ := h
  simp only [evToolError, pym_bind_eq_some, pym_pure_eq, Option.some.injEq] at h
  obtain ⟨df1, hdf1, df2, hdf2, tn, htn, et, het, df3, hdf3, st, hst, notes, hnotes, hout⟩ := h
  obtain ⟨s1, _, he1⟩ := setStatus_eq_some hdf1
  obtain ⟨s2, hs2, he2⟩ := setStatus_eq_some hdf2
  obtain ⟨s3, hs3, he3⟩ := setStatus_eq_some hdf3
  subst he1 he2 he3
  simp only [getD_osetL_self, asObj, Option.some.injEq] at hs2 hs3
  subst hs2 hs3
  simp only [getStatusF, getD_osetL_self, asObj, Option.some.injEq] at hst
  subst hst
  subst hout
  refine ⟨rfl, ?_, ?_⟩
  · rw [statusField_osetL_status]
    rw [show (getD (osetL (setdefaultL (osetL (osetL (osetL s1 "phase" (.str "error"))
        "state" (.str "retryable")) "last_tool_error"
        (.obj [("tool_name", tn), ("error", et), ("at", .num now)])) "notes" (.arr []))
        "notes" (.arr (notes ++ [.str ("[tool_error] " ++ pyStr tn ++ " failed: " ++
          pyStr et ++ ". Say " ++ apos ++ "try again" ++ apos ++
          " or send a new message to re-run.")]))) "phase" .null) =
        JVal.str "error" from ?_]
    unfold getD
    rw [lookupJ_osetL_ne _ _ _ _ (by decide), lookupJ_setdefaultL_ne _ _ _ _ (by decide),
      lookupJ_osetL_ne _ _ _ _ (by decide), lookupJ_osetL_ne _ _ _ _ (by decide),
      lookupJ_osetL_self]
    rfl
  · rw [statusField_osetL_status]
    unfold getD
    rw [lookupJ_osetL_ne _ _ _ _ (by decide), lookupJ_setdefaultL_ne _ _ _ _ (by decide),
      lookupJ_osetL_ne _ _ _ _ (by decide), lookupJ_osetL_self]
    rfl

/-- Witness for C1 at a concrete document and event. -/
theorem c1_tool_error_witness :
    ∃ out, reducerRun
      (.obj [("working_memory", .obj []), ("status", .obj [("phase", .str "book"),
             ("state", .str "purchasing")]), ("itinerary", .obj []), ("party", .obj [])])
      "TOOL_ERROR" (.obj [("tool_name", .str "flight_quote_search"),
                          ("error", .str "API timeout")]) 5 = some out ∧
    out.toolCalls = [] ∧
    statusField out.tripIntent "phase" = some (.str "error") ∧
    statusField out.tripIntent "state" = some (.str "retryable") := by
  obtain ⟨out, hout⟩ : ∃ out, reducerRun
      (.obj [("working_memory", .obj []), ("status", .obj [("phase", .str "book"),
             ("state", .str "purchasing")]), ("itinerary", .obj []), ("party", .obj [])])
      "TOOL_ERROR" (.obj [("tool_name", .str "flight_quote_search"),
                          ("error", .str "API timeout")]) 5 = some out := ⟨_, rfl⟩
  exact ⟨out, hout, c1_tool_error_short_circuits _ _ _ _ hout⟩

/-! ## Claim C5: one quoting operation at a time -/

theorem quotingOps_append (l1 l2 : List MTool) :
    quotingOps (l1 ++ l2) = quotingOps l1 ++ quotingOps l2 := by
  simp [quotingOps, List.filter_append]

theorem mapM_some_length {α β : Type} {f : α → PyM β} :
    ∀ {l : List α} {l2 : List β}, l.mapM f = some l2 → l2.length = l.length := by
  intro l
  induction l with
  | nil =>
      intro l2 h
      simp only [List.mapM_nil, pym_pure_eq, Option.some.injEq] at h
      simp [← h]
  | cons x xs ih =>
      intro l2 h
      rw [List.mapM_cons] at h
      simp only [pym_bind_eq_some, pym_pure_eq, Option.some.injEq] at h
      obtain ⟨y, hy, ys, hys, hl2⟩ := h
      subst hl2
      simp [ih hys]

/-- The indices produced by `flightSegIdx` are positions of the document's
segment list. -/
theorem flightSegIdx_lt {df : Fields} {fIdx : List Nat} {i : Nat}
    (h : flightSegIdx (.obj df) = some fIdx) (hi : i ∈ fIdx)
    {iti : JVal} (hiti : lookupJ df "itinerary" = some iti)
    {segsV : JVal} (hsegsV : subscr iti "segments" = some segsV)
    {segs : List JVal} (hsegs : asArr segsV = some segs) :
    i < segs.length := by
  simp only [flightSegIdx, pym_bind_eq_some, pym_pure_eq, Option.some.injEq,
    dictGet, obind_some] at h
  obtain ⟨itiV, hitiV, segsRaw, hsegsRaw, segs2, hsegs2, flags, hflags, hfilter⟩ := h
  rw [getD, hiti] at hitiV
  simp only [Option.getD_some] at hitiV
  subst hitiV
  obtain ⟨itiF, hitiF, hlook⟩ : ∃ f, iti = JVal.obj f ∧ lookupJ f "segments" = some segsV := by
    cases iti <;> simp [subscr] at hsegsV <;> exact ⟨_, rfl, hsegsV⟩
  subst hitiF
  have hne : itiF ≠ [] := by
    intro hnil
    rw [hnil] at hlook
    simp [lookupJ] at hlook
  have htr : truthy (JVal.obj itiF) = true := by
    cases itiF with
    | nil => exact absurd rfl hne
    | cons a l => rfl
  rw [pyOr, htr] at hsegsRaw
  simp only [if_true, Option.some.injEq] at hsegsRaw
  rw [getD, hlook] at hsegsRaw
  simp only [Option.getD_some] at hsegsRaw
  subst hsegsRaw
  have hsv : segsV = JVal.arr segs := by
    cases segsV <;> simp [asArr] at hsegs <;> simp [hsegs]
  subst hsv
  cases segs with
  | nil =>
      simp [pyOr, truthy, asArr] at hsegs2
      subst hsegs2
      simp only [List.mapM_nil, pym_pure_eq, Option.some.injEq] at hflags
      subst hflags
      simp at hfilter
      subst hfilter
      simp at hi
  | cons s0 srest =>
      have : pyOr (JVal.arr (s0 :: srest)) (JVal.arr []) = JVal.arr (s0 :: srest) := by
        simp [pyOr, truthy]
      rw [this] at hsegs2
      simp only [asArr, Option.some.injEq] at hsegs2
      subst hsegs2
      have hlen : flags.length = (s0 :: srest).length := mapM_some_length hflags
      subst hfilter
      obtain ⟨p, hpmem, hpeq⟩ := List.mem_filterMap.mp hi
      have hp1 : p.1 = i := by
        by_cases hb : p.2 = true <;> simp [hb] at hpeq
        exact hpeq
      have hlt : p.1 < flags.length := by
        have h1 : p ∈ flags.enum := hpmem
        have := List.fst_lt_of_mem_enum h1
        exact this
      omega


/-- What `flightQuoteStep` can produce. -/
theorem flightQuoteStep_eq_some {df0 : Fields} {tcs0 : List MTool} {fIdx : List Nat}
    {bySeg flatF : List JVal} {r : Fields × List MTool}
    (h : flightQuoteStep df0 tcs0 fIdx bySeg flatF = some r) :
    (fIdx.find? (fun i => !truthy (segQuotesAt bySeg flatF i)) = none ∧ r = (df0, tcs0)) ∨
    (∃ i args df, fIdx.find? (fun i => !truthy (segQuotesAt bySeg flatF i)) = some i ∧
      lookupJ df "itinerary" = lookupJ df0 "itinerary" ∧
      buildFlightQuoteArgs (.obj df) i = some args ∧
      r = (df, if truthy args then tcs0 ++ [⟨"noma/flight_quote_search", args⟩] else tcs0)) := by
  unfold flightQuoteStep at h
  cases hfind : fIdx.find? (fun i => !truthy (segQuotesAt bySeg flatF i)) with
  | none =>
      rw [hfind] at h
      simp only [pym_pure_eq, Option.some.injEq] at h
      exact Or.inl ⟨rfl, h.symm⟩
  | some i =>
      rw [hfind] at h
      simp only [pym_bind_eq_some, pym_pure_eq, Option.some.injEq] at h
      obtain ⟨d1, hd1, d2, hd2, args, hargs, hr⟩ := h
      refine Or.inr ⟨i, args, d2, rfl, ?_, hargs, hr.symm⟩
      obtain ⟨s1, _, he1⟩ := setStatus_eq_some hd1
      obtain ⟨s2, _, he2⟩ := setStatus_eq_some hd2
      subst he1 he2
      rw [lookupJ_osetL_ne _ _ _ _ (by decide), lookupJ_osetL_ne _ _ _ _ (by decide)]

/-- What `hotelQuoteStep` can produce. -/
theorem hotelQuoteStep_eq_some {df1 : Fields} {tcs1 : List MTool} {lodgingNeeded : Bool}
    {stays byStay flatH : List JVal} {r : Fields × List MTool}
    (h : hotelQuoteStep df1 tcs1 lodgingNeeded stays byStay flatH = some r) :
    ((lodgingNeeded && !stays.isEmpty && tcs1.isEmpty) = false ∧ r = (df1, tcs1)) ∨
    ((lodgingNeeded && !stays.isEmpty && tcs1.isEmpty) = true ∧
      (((List.range stays.length).find? (fun j => !truthy (stayQuotesAt byStay flatH j)) = none ∧
        r = (df1, tcs1)) ∨
       (∃ j args df,
         (List.range stays.length).find? (fun j => !truthy (stayQuotesAt byStay flatH j)) = some j ∧
         buildHotelQuoteArgs (.obj df) j (stays.getD j .null) = some args ∧
         r = (df, tcs1 ++ [⟨"noma/hotel_quote_search", args⟩])))) := by
  unfold hotelQuoteStep at h
  by_cases hc : (lodgingNeeded && !stays.isEmpty && tcs1.isEmpty) = true
  · rw [if_pos hc] at h
    refine Or.inr ⟨hc, ?_⟩
    cases hfind : (List.range stays.length).find? (fun j => !truthy (stayQuotesAt byStay flatH j)) with
    | none =>
        rw [hfind] at h
        simp only [pym_pure_eq, Option.some.injEq] at h
        exact Or.inl ⟨rfl, h.symm⟩
    | some j =>
        rw [hfind] at h
        simp only [pym_bind_eq_some, pym_pure_eq, Option.some.injEq] at h
        obtain ⟨d1, hd1, d2, hd2, args, hargs, hr⟩ := h
        exact Or.inr ⟨j, args, d2, rfl, hargs, hr.symm⟩
  · rw [if_neg hc] at h
    simp only [pym_pure_eq, Option.some.injEq] at h
    exact Or.inl ⟨by simpa using hc, h.symm⟩

/-- `rankStep` only ever appends the ranking operation. -/
theorem rankStep_tcs {df2 : Fields} {tcs2 : List MTool} {wm : Fields}
    {lodgingNeeded useMulti : Bool} {fIdx : List Nat}
    {stays bySeg byStay flatF flatH : List JVal} {r : Fields × List MTool}
    (h : rankStep df2 tcs2 wm lodgingNeeded useMulti fIdx stays bySeg byStay flatF flatH = some r) :
    r.2 = tcs2 ∨ ∃ args, r.2 = tcs2 ++ [⟨"noma/trip_option_ranker", args⟩] := by
  unfold rankStep at h
  by_cases hc : (hasAllFlightQuotes fIdx bySeg flatF &&
      hasAllHotelQuotes lodgingNeeded stays byStay flatH &&
      !truthy (getD wm "ranked_bundles" .null)) = true
  · rw [if_pos hc] at h
    simp only [pym_bind_eq_some, pym_pure_eq, Option.some.injEq] at h
    obtain ⟨d1, hd1, d2, hd2, args, hargs, hr⟩ := h
    exact Or.inr ⟨args, by rw [← hr]⟩
  · rw [if_neg hc] at h
    simp only [pym_pure_eq, Option.some.injEq] at h
    exact Or.inl (by rw [← h])

/-- What `buildFlightQuoteArgs` produces: the in-range case is a non-empty
argument dict carrying the requested segment index; the out-of-range case is
the empty dict. -/
theorem buildFlightQuoteArgs_spec {df : Fields} {i : Nat} {args : JVal}
    (hb : buildFlightQuoteArgs (.obj df) i = some args) :
    ∃ iti segsV segs, lookupJ df "itinerary" = some iti ∧
      subscr iti "segments" = some segsV ∧ asArr segsV = some segs ∧
      (i < segs.length → truthy args = true ∧ subscr args "segment_index" = some (.num i)) ∧
      (¬ i < segs.length → args = JVal.obj []) := by
  simp only [buildFlightQuoteArgs, pym_bind_eq_some, pym_pure_eq, Option.some.injEq] at hb
  obtain ⟨iti, hiti, segsV, hsegsV, segs, hsegs, hb⟩ := hb
  refine ⟨iti, segsV, segs, hiti, hsegsV, hsegs, ?_, ?_⟩
  · intro hlt
    rw [dif_pos hlt] at hb
    simp only [pym_bind_eq_some, pym_pure_eq, Option.some.injEq] at hb
    obtain ⟨p1, _, t1, _, p2, _, f1, _, o1, _, oc, _, d1, _, dc, _, dep, _, cab, _,
      ms, _, are, _, pref, _, hargs⟩ := hb
    rw [← hargs]
    exact ⟨rfl, rfl⟩
  · intro hlt
    rw [dif_neg hlt] at hb
    simp only [pym_pure_eq, Option.some.injEq] at hb
    exact hb.symm

/-- `buildHotelQuoteArgs` always produces a non-empty dict carrying the
requested stay index. -/
theorem buildHotelQuoteArgs_spec {doc stay : JVal} {j : Nat} {args : JVal}
    (hb : buildHotelQuoteArgs doc j stay = some args) :
    truthy args = true ∧ subscr args "stay_index" = some (.num j) := by
  simp only [buildHotelQuoteArgs, pym_bind_eq_some, pym_pure_eq, Option.some.injEq] at hb
  obtain ⟨a1, _, a2, _, a3, _, a4, _, a5, _, a6, _, a7, _, a8, _, a9, _, a10, _,
    a11, _, a12, _, a13, _, a14, _, hargs⟩ := hb
  rw [← hargs]
  exact ⟨rfl, rfl⟩

theorem quoting_mem_of_mem {tcs : List MTool} {t : MTool}
    (hm : t ∈ tcs) (hn : quotingOpNames.contains t.name = true) :
    t ∈ quotingOps tcs :=
  List.mem_filter.mpr ⟨hm, hn⟩

/-- Claim C5: with no quoting operation queued by the event handling, the
quoting tail emits at most one quoting operation; a flight quote call targets
the first flight segment lacking quotes in document order, and a hotel quote
call is emitted only when every flight segment has quotes, targeting the
first stay lacking quotes in document order. -/
theorem c5_quoting_one_at_a_time
    (df0 : Fields) (tcs0 : List MTool) (msgs0 : List String) (out : ROut)
    (hq : quotingOps tcs0 = [])
    (h : quoteSection df0 tcs0 msgs0 = some out) :
    (quotingOps out.toolCalls).length ≤ 1 ∧
    (∀ fargs, MTool.mk "noma/flight_quote_search" fargs ∈ out.toolCalls →
      ∃ fIdx wm bySeg flatF i,
        flightSegIdx (.obj df0) = some fIdx ∧ getWMF df0 = some wm ∧
        asArr (pyOr (getD wm "flight_quotes_by_segment" .null) (.arr [])) = some bySeg ∧
        asArr (pyOr (getD wm "flight_quotes" .null) (.arr [])) = some flatF ∧
        fIdx.find? (fun k => !truthy (segQuotesAt bySeg flatF k)) = some i ∧
        subscr fargs "segment_index" = some (.num i)) ∧
    (∀ hargs, MTool.mk "noma/hotel_quote_search" hargs ∈ out.toolCalls →
      ∃ fIdx wm bySeg flatF byStay flatH stays j,
        flightSegIdx (.obj df0) = some fIdx ∧ getWMF df0 = some wm ∧
        asArr (pyOr (getD wm "flight_quotes_by_segment" .null) (.arr [])) = some bySeg ∧
        asArr (pyOr (getD wm "flight_quotes" .null) (.arr [])) = some flatF ∧
        asArr (pyOr (getD wm "hotel_quotes_by_stay" .null) (.arr [])) = some byStay ∧
        asArr (pyOr (getD wm "hotel_quotes" .null) (.arr [])) = some flatH ∧
        effectiveStays (.obj df0) = some stays ∧
        (∀ k ∈ fIdx, truthy (segQuotesAt bySeg flatF k) = true) ∧
        (List.range stays.length).find? (fun k => !truthy (stayQuotesAt byStay flatH k)) = some j ∧
        subscr hargs "stay_index" = some (.num j)) := by
  simp only [quoteSection, pym_bind_eq_some, pym_pure_eq, Option.some.injEq] at h
  obtain ⟨itiRaw, hitiRaw, lodgV, hlodgV, neededV, hneededV, fIdx, hfIdx, stays, hstays,
    wm, hwm, bySeg, hbySeg, byStay, hbyStay, flatF, hflatF, flatH, hflatH,
    ⟨df1, tcs1⟩, hr1, ⟨df2, tcs2⟩, hr2, ⟨df3, tcs3⟩, hr3, ⟨df4, msgs1⟩, hr4,
    rms, hrms, hout⟩ := h
  subst hout
  simp only at *
  -- the ranking step only adds the (non-quoting) ranker call
  have htc3 : quotingOps tcs3 = quotingOps tcs2 ∧
      (∀ t : MTool, quotingOpNames.contains t.name = true → t ∈ tcs3 → t ∈ tcs2) := by
    rcases rankStep_tcs hr3 with h3 | ⟨rargs, h3⟩
    · simp only at h3
      rw [h3]
      exact ⟨rfl, fun t _ ht => ht⟩
    · simp only at h3
      rw [h3]
      constructor
      · rw [quotingOps_append]
        simp [quotingOps, quotingOpNames]
      · intro t hn ht
        rcases List.mem_append.mp ht with ht | ht
        · exact ht
        · simp at ht
          rw [ht] at hn
          simp [quotingOpNames] at hn
  -- case analysis on the two quoting steps
  -- facts used to rule out the empty-arguments flight case
  have hfargs_truthy : ∀ (i : Nat) (fargsv : JVal) (fdf : Fields),
      fIdx.find? (fun k => !truthy (segQuotesAt bySeg flatF k)) = some i →
      lookupJ fdf "itinerary" = lookupJ df0 "itinerary" →
      buildFlightQuoteArgs (.obj fdf) i = some fargsv →
      truthy fargsv = true ∧ subscr fargsv "segment_index" = some (.num i) := by
    intro i fargsv fdf hfind hlink hb
    obtain ⟨iti, segsV, segs, hiti, hsegsV, hsegs, hin, hout2⟩ := buildFlightQuoteArgs_spec hb
    have hlt : i < segs.length := by
      refine flightSegIdx_lt hfIdx (List.mem_of_find?_eq_some hfind) ?_ hsegsV hsegs
      rw [← hlink]
      exact hiti
    exact hin hlt
  rcases flightQuoteStep_eq_some hr1 with ⟨hffind, hfeq⟩ | ⟨i, fargsv, fdf, hffind, hflink, hfb, hfeq⟩ <;>
    simp only [Prod.mk.injEq] at hfeq <;>
    obtain ⟨hdf1, htcs1⟩ := hfeq
  · -- flight walk found nothing
    rcases hotelQuoteStep_eq_some hr2 with ⟨hhc, hheq⟩ | ⟨hhc, hh⟩
    · -- hotel gate closed
      simp only [Prod.mk.injEq] at hheq
      obtain ⟨hdf2, htcs2⟩ := hheq
      subst htcs2 htcs1
      refine ⟨?_, ?_, ?_⟩
      · rw [htc3.1, hq]
        simp
      · intro fargs hmem
        have := quoting_mem_of_mem (htc3.2 _ (by rfl) hmem) (by rfl)
        rw [hq] at this
        simp at this
      · intro hargs hmem
        have := quoting_mem_of_mem (htc3.2 _ (by rfl) hmem) (by rfl)
        rw [hq] at this
        simp at this
    · -- hotel gate open
      rcases hh with ⟨hhfind, hheq⟩ | ⟨j, hargsv, hdf, hhfind, hhb, hheq⟩
      · simp only [Prod.mk.injEq] at hheq
        obtain ⟨hdf2, htcs2⟩ := hheq
        subst htcs2 htcs1
        refine ⟨?_, ?_, ?_⟩
        · rw [htc3.1, hq]
          simp
        · intro fargs hmem
          have := quoting_mem_of_mem (htc3.2 _ (by rfl) hmem) (by rfl)
          rw [hq] at this
          simp at this
        · intro hargs hmem
          have := quoting_mem_of_mem (htc3.2 _ (by rfl) hmem) (by rfl)
          rw [hq] at this
          simp at this
      · simp only [Prod.mk.injEq] at hheq
        obtain ⟨hdf2, htcs2⟩ := hheq
        have htcs1nil : tcs1 = [] := by
          have := (Bool.and_eq_true _ _).mp hhc
          exact List.isEmpty_iff.mp this.2
        rw [htcs1nil] at htcs2
        subst htcs2
        refine ⟨?_, ?_, ?_⟩
        · rw [htc3.1]
          simp [quotingOps, quotingOpNames]
        · intro fargs hmem
          have hmem2 := htc3.2 _ (by rfl) hmem
          simp at hmem2
        · intro hargs hmem
          have hmem2 := htc3.2 _ (by rfl) hmem
          simp only [List.nil_append, List.mem_singleton, MTool.mk.injEq] at hmem2
          obtain ⟨-, hargseq⟩ := hmem2
          subst hargseq
          obtain ⟨-, hsub⟩ := buildHotelQuoteArgs_spec hhb
          refine ⟨fIdx, wm, bySeg, flatF, byStay, flatH, stays, j,
            hfIdx, hwm, hbySeg, hflatF, hbyStay, hflatH, hstays, ?_, hhfind, hsub⟩
          intro k hk
          have := List.find?_eq_none.mp hffind k hk
          simpa using this
  · -- flight walk found an unquoted segment
    obtain ⟨hftr, hfsub⟩ := hfargs_truthy i fargsv fdf hffind hflink hfb
    rw [hftr] at htcs1
    simp only [if_true] at htcs1
    rcases hotelQuoteStep_eq_some hr2 with ⟨hhc, hheq⟩ | ⟨hhc, hh⟩
    · -- hotel gate closed
      simp only [Prod.mk.injEq] at hheq
      obtain ⟨hdf2, htcs2⟩ := hheq
      subst htcs2 htcs1
      refine ⟨?_, ?_, ?_⟩
      · rw [htc3.1, quotingOps_append, hq]
        simp [quotingOps, quotingOpNames]
      · intro fargs hmem
        have hmem2 := htc3.2 _ (by rfl) hmem
        rcases List.mem_append.mp hmem2 with hmem3 | hmem3
        · have := quoting_mem_of_mem hmem3 (by rfl)
          rw [hq] at this
          simp at this
        · simp only [List.mem_singleton, MTool.mk.injEq] at hmem3
          obtain ⟨-, hfe⟩ := hmem3
          subst hfe
          exact ⟨fIdx, wm, bySeg, flatF, i, hfIdx, hwm, hbySeg, hflatF, hffind, hfsub⟩
      · intro hargs hmem
        have hmem2 := htc3.2 _ (by rfl) hmem
        rcases List.mem_append.mp hmem2 with hmem3 | hmem3
        · have := quoting_mem_of_mem hmem3 (by rfl)
          rw [hq] at this
          simp at this
        · simp at hmem3
    · -- hotel gate open: impossible, the flight call is already queued
      exfalso
      have := (Bool.and_eq_true _ _).mp hhc
      have hnil := List.isEmpty_iff.mp this.2
      rw [htcs1] at hnil
      simp at hnil

/-- A concrete two-leg flight document: the first leg already has stored
quotes, the second does not. -/
def c5df : Fields :=
  [("status", .obj []),
   ("itinerary", .obj [
      ("segments", .arr [
         .obj [("transport_mode", .str "flight"),
               ("origin", .obj [("code", .str "JFK")]),
               ("destination", .obj [("code", .str "LAX")]),
               ("depart_date", .str "2025-06-01")],
         .obj [("transport_mode", .str "flight"),
               ("origin", .obj [("code", .str "LAX")]),
               ("destination", .obj [("code", .str "SFO")]),
               ("depart_date", .str "2025-06-03")]]),
      ("lodging", .obj [("needed", .bool false)])]),
   ("party", .obj [("travelers", .obj [("adults", .num 1)])]),
   ("working_memory", .obj [
      ("flight_quotes_by_segment", .arr [.arr [.obj [("option_id", .str "f0_0")]], .arr []]),
      ("flight_quotes", .arr []), ("hotel_quotes", .arr []),
      ("hotel_quotes_by_stay", .arr []), ("ranked_bundles", .arr []),
      ("risk_report", .null), ("holds", .arr []), ("bookings", .arr []),
      ("selected", .obj [])])]

set_option maxRecDepth 8000 in
/-- Witness for C5 on the two-leg document: the quoting tail emits at most
one quoting operation, targeting the first unquoted leg / stay. -/
theorem c5_witness :
    ∃ out, quoteSection c5df [] [] = some out ∧
      (quotingOps out.toolCalls).length ≤ 1 ∧
      (∀ fargs, MTool.mk "noma/flight_quote_search" fargs ∈ out.toolCalls →
        ∃ fIdx wm bySeg flatF i,
          flightSegIdx (.obj c5df) = some fIdx ∧ getWMF c5df = some wm ∧
          asArr (pyOr (getD wm "flight_quotes_by_segment" .null) (.arr [])) = some bySeg ∧
          asArr (pyOr (getD wm "flight_quotes" .null) (.arr [])) = some flatF ∧
          fIdx.find? (fun k => !truthy (segQuotesAt bySeg flatF k)) = some i ∧
          subscr fargs "segment_index" = some (.num i)) ∧
      (∀ hargs, MTool.mk "noma/hotel_quote_search" hargs ∈ out.toolCalls →
        ∃ fIdx wm bySeg flatF byStay flatH stays j,
          flightSegIdx (.obj c5df) = some fIdx ∧ getWMF c5df = some wm ∧
          asArr (pyOr (getD wm "flight_quotes_by_segment" .null) (.arr [])) = some bySeg ∧
          asArr (pyOr (getD wm "flight_quotes" .null) (.arr [])) = some flatF ∧
          asArr (pyOr (getD wm "hotel_quotes_by_stay" .null) (.arr [])) = some byStay ∧
          asArr (pyOr (getD wm "hotel_quotes" .null) (.arr [])) = some flatH ∧
          effectiveStays (.obj c5df) = some stays ∧
          (∀ k ∈ fIdx, truthy (segQuotesAt bySeg flatF k) = true) ∧
          (List.range stays.length).find? (fun k => !truthy (stayQuotesAt byStay flatH k)) = some j ∧
          subscr hargs "stay_index" = some (.num j)) := by
  obtain ⟨out, hout⟩ : ∃ out, quoteSection c5df [] [] = some out := ⟨_, rfl⟩
  obtain ⟨h1, h2, h3⟩ := c5_quoting_one_at_a_time c5df [] [] out rfl hout
  exact ⟨out, hout, h1, h2, h3⟩


/-! ## Claim C3: the ranking gate -/

def c3df : Fields :=
  [("status", .obj [("phase", .str "quote"), ("state", .str "quoting_flights")]),
   ("itinerary", .obj [
      ("segments", .arr [
         .obj [("transport_mode", .str "train"),
               ("origin", .obj [("code", .str "PAR")]),
               ("destination", .obj [("code", .str "LYS")]),
               ("depart_date", .str "2025-06-01")],
         .obj [("transport_mode", .str "flight"),
               ("origin", .obj [("code", .str "LYS")]),
               ("destination", .obj [("code", .str "NCE")]),
               ("depart_date", .str "2025-06-02")]]),
      ("lodging", .obj [("needed", .bool false)])]),
   ("party", .obj [("travelers", .obj [("adults", .num 1)])]),
   ("working_memory", .obj [
      ("flight_quotes_by_segment", .arr [.arr [.obj [("option_id", .str "stale0")]], .arr []]),
      ("flight_quotes", .arr []), ("hotel_quotes", .arr []),
      ("hotel_quotes_by_stay", .arr []), ("ranked_bundles", .arr []),
      ("risk_report", .null), ("holds", .arr []), ("bookings", .arr []),
      ("selected", .obj [])])]

/-- The gate `has_all_flight_quotes` is correct when the flight segments are
the leading segments and the flat/per-segment caches are not mixed. -/
theorem hasAllFlightQuotes_correct {fIdx : List Nat} {bySeg flatF : List JVal}
    (h : hasAllFlightQuotes fIdx bySeg flatF = true)
    (H1 : ∀ i ∈ fIdx, i < fIdx.length)
    (H2 : bySeg ≠ [] → flatF = []) :
    ∀ i ∈ fIdx, truthy (segQuotesAt bySeg flatF i) = true := by
  intro i hi
  unfold hasAllFlightQuotes at h
  by_cases hemp : fIdx.isEmpty = true
  · rw [List.isEmpty_iff] at hemp
    subst hemp
    simp at hi
  · rw [if_neg hemp] at h
    rcases (Bool.or_eq_true _ _).mp h with h1 | h2
    · obtain ⟨h11, hall⟩ := (Bool.and_eq_true _ _).mp h1
      obtain ⟨hne, hlen⟩ := (Bool.and_eq_true _ _).mp h11
      have hnil : bySeg ≠ [] := by
        intro hn
        rw [hn] at hne
        simp at hne
      have hlen2 : fIdx.length ≤ bySeg.length := by
        simpa using hlen
      have hil : i < fIdx.length := H1 i hi
      have hib : i < bySeg.length := lt_of_lt_of_le hil hlen2
      have htr : truthy (bySeg.getD i .null) = true := by
        have := List.all_eq_true.mp hall i (by
          rw [List.mem_range]
          omega)
        simpa using this
      unfold segQuotesAt
      rw [if_pos (by simpa using hnil), if_pos hib]
      exact htr
    · obtain ⟨hfne, hone⟩ := (Bool.and_eq_true _ _).mp h2
      have hflat : flatF ≠ [] := by
        intro hn
        rw [hn] at hfne
        simp at hfne
      have hbs : bySeg = [] := by
        by_contra hbs
        exact hflat (H2 hbs)
      subst hbs
      have hlen1 : fIdx.length = 1 := by
        rcases (Bool.or_eq_true _ _).mp hone with ho | ho
        · exact absurd ho hemp
        · simpa using ho
      have : i = 0 := by
        have := H1 i hi
        omega
      subst this
      unfold segQuotesAt
      simp only [List.isEmpty_nil, Bool.not_true, if_false, if_pos rfl]
      simpa [truthy] using hflat

/-- The gate `has_all_hotel_quotes` is correct when the flat/per-stay caches
are not mixed. -/
theorem hasAllHotelQuotes_correct {stays byStay flatH : List JVal}
    (h : hasAllHotelQuotes true stays byStay flatH = true)
    (H3 : byStay ≠ [] → flatH = []) :
    ∀ j < stays.length, truthy (stayQuotesAt byStay flatH j) = true := by
  intro j hj
  unfold hasAllHotelQuotes at h
  simp only [Bool.not_true, Bool.false_or] at h
  rcases (Bool.or_eq_true _ _).mp h with h1 | h2
  · obtain ⟨h11, hall⟩ := (Bool.and_eq_true _ _).mp h1
    obtain ⟨hne, hlen⟩ := (Bool.and_eq_true _ _).mp h11
    have hnil : byStay ≠ [] := by
      intro hn
      rw [hn] at hne
      simp at hne
    have hlen2 : stays.length ≤ byStay.length := by
      simpa using hlen
    have hjb : j < byStay.length := lt_of_lt_of_le hj hlen2
    have htr : truthy (byStay.getD j .null) = true := by
      have := List.all_eq_true.mp hall j (by
        rw [List.mem_range]
        omega)
      simpa using this
    unfold stayQuotesAt
    rw [if_pos (by simpa using hnil), if_pos hjb]
    exact htr
  · obtain ⟨hfne, hone⟩ := (Bool.and_eq_true _ _).mp h2
    have hflat : flatH ≠ [] := by
      intro hn
      rw [hn] at hfne
      simp at hfne
    have hbs : byStay = [] := by
      by_contra hbs
      exact hflat (H3 hbs)
    subst hbs
    have hj0 : j = 0 := by
      rcases (Bool.or_eq_true _ _).mp hone with ho | ho
      · rw [List.isEmpty_iff] at ho
        rw [ho] at hj
        simp at hj
      · have : stays.length = 1 := by simpa using ho
        omega
    subst hj0
    unfold stayQuotesAt
    simp only [List.isEmpty_nil, Bool.not_true, if_false, if_pos rfl]
    simpa [truthy] using hflat

theorem hasRankerOp_append (l1 l2 : List MTool) :
    hasRankerOp (l1 ++ l2) = (hasRankerOp l1 || hasRankerOp l2) := by
  simp [hasRankerOp, List.any_append]

theorem flightQuoteStep_ranker {df0 : Fields} {tcs0 : List MTool} {fIdx : List Nat}
    {bySeg flatF : List JVal} {r : Fields × List MTool}
    (h : flightQuoteStep df0 tcs0 fIdx bySeg flatF = some r) :
    hasRankerOp r.2 = hasRankerOp tcs0 := by
  unfold flightQuoteStep at h
  cases hfind : fIdx.find? (fun i => !truthy (segQuotesAt bySeg flatF i)) with
  | none =>
      rw [hfind] at h
      simp only [pym_pure_eq, Option.some.injEq] at h
      rw [← h]
  | some i =>
      rw [hfind] at h
      simp only [pym_bind_eq_some, pym_pure_eq, Option.some.injEq] at h
      obtain ⟨d1, hd1, d2, hd2, args, hargs, hr⟩ := h
      rw [← hr]
      by_cases ht : truthy args = true
      · rw [ht]
        simp [hasRankerOp_append, hasRankerOp]
      · rw [Bool.not_eq_true] at ht
        rw [ht]
        simp

theorem hotelQuoteStep_ranker {df1 : Fields} {tcs1 : List MTool} {lodgingNeeded : Bool}
    {stays byStay flatH : List JVal} {r : Fields × List MTool}
    (h : hotelQuoteStep df1 tcs1 lodgingNeeded stays byStay flatH = some r) :
    hasRankerOp r.2 = hasRankerOp tcs1 := by
  unfold hotelQuoteStep at h
  by_cases hc : (lodgingNeeded && !stays.isEmpty && tcs1.isEmpty) = true
  · rw [if_pos hc] at h
    cases hfind : (List.range stays.length).find? (fun j => !truthy (stayQuotesAt byStay flatH j)) with
    | none =>
        rw [hfind] at h
        simp only [pym_pure_eq, Option.some.injEq] at h
        rw [← h]
    | some j =>
        rw [hfind] at h
        simp only [pym_bind_eq_some, pym_pure_eq, Option.some.injEq] at h
        obtain ⟨d1, hd1, d2, hd2, args, hargs, hr⟩ := h
        rw [← hr]
        simp [hasRankerOp_append, hasRankerOp]
  · rw [if_neg hc] at h
    simp only [pym_pure_eq, Option.some.injEq] at h
    rw [← h]

theorem rankStep_eq_some {df2 : Fields} {tcs2 : List MTool} {wm : Fields}
    {lodgingNeeded useMulti : Bool} {fIdx : List Nat}
    {stays bySeg byStay flatF flatH : List JVal} {r : Fields × List MTool}
    (h : rankStep df2 tcs2 wm lodgingNeeded useMulti fIdx stays bySeg byStay flatF flatH = some r) :
    ((hasAllFlightQuotes fIdx bySeg flatF &&
      hasAllHotelQuotes lodgingNeeded stays byStay flatH &&
      !truthy (getD wm "ranked_bundles" .null)) = true ∧
      ∃ args, r.2 = tcs2 ++ [⟨"noma/trip_option_ranker", args⟩]) ∨
    (r = (df2, tcs2)) := by
  unfold rankStep at h
  by_cases hc : (hasAllFlightQuotes fIdx bySeg flatF &&
      hasAllHotelQuotes lodgingNeeded stays byStay flatH &&
      !truthy (getD wm "ranked_bundles" .null)) = true
  · rw [if_pos hc] at h
    simp only [pym_bind_eq_some, pym_pure_eq, Option.some.injEq] at h
    obtain ⟨d1, hd1, d2, hd2, args, hargs, hr⟩ := h
    exact Or.inl ⟨hc, args, by rw [← hr]⟩
  · rw [if_neg hc] at h
    simp only [pym_pure_eq, Option.some.injEq] at h
    exact Or.inr h.symm

/-- Claim C3 (amended): the quoting tail emits the ranking operation only
when every flight segment and every required stay has stored quotes, PROVIDED
the flight-mode segments are the leading segments of the itinerary and the
flat and per-segment/per-stay quote caches are not simultaneously populated.
The original unconditional claim is refuted by `c3_counterexample`. -/
theorem c3_amended_ranker_gate
    (df0 : Fields) (tcs0 : List MTool) (msgs0 : List String) (out : ROut)
    (h : quoteSection df0 tcs0 msgs0 = some out)
    (hrk : hasRankerOp tcs0 = false)
    (H1 : ∀ fIdx, flightSegIdx (.obj df0) = some fIdx → ∀ i ∈ fIdx, i < fIdx.length)
    (H2 : ∀ wm bySeg flatF, getWMF df0 = some wm →
      asArr (pyOr (getD wm "flight_quotes_by_segment" .null) (.arr [])) = some bySeg →
      asArr (pyOr (getD wm "flight_quotes" .null) (.arr [])) = some flatF →
      bySeg ≠ [] → flatF = [])
    (H3 : ∀ wm byStay flatH, getWMF df0 = some wm →
      asArr (pyOr (getD wm "hotel_quotes_by_stay" .null) (.arr [])) = some byStay →
      asArr (pyOr (getD wm "hotel_quotes" .null) (.arr [])) = some flatH →
      byStay ≠ [] → flatH = [])
    (hrank : hasRankerOp out.toolCalls = true) :
    (∀ fIdx wm bySeg flatF, flightSegIdx (.obj df0) = some fIdx → getWMF df0 = some wm →
      asArr (pyOr (getD wm "flight_quotes_by_segment" .null) (.arr [])) = some bySeg →
      asArr (pyOr (getD wm "flight_quotes" .null) (.arr [])) = some flatF →
      ∀ i ∈ fIdx, truthy (segQuotesAt bySeg flatF i) = true) ∧
    (∀ itiRaw lodgV neededV stays wm byStay flatH,
      dictGet (JVal.obj df0) "itinerary" (.obj []) = some itiRaw →
      dictGet (pyOr itiRaw (.obj [])) "lodging" (.obj []) = some lodgV →
      dictGet lodgV "needed" (.bool true) = some neededV →
      truthy neededV = true →
      effectiveStays (.obj df0) = some stays → getWMF df0 = some wm →
      asArr (pyOr (getD wm "hotel_quotes_by_stay" .null) (.arr [])) = some byStay →
      asArr (pyOr (getD wm "hotel_quotes" .null) (.arr [])) = some flatH →
      ∀ j < stays.length, truthy (stayQuotesAt byStay flatH j) = true) := by
  simp only [quoteSection, pym_bind_eq_some, pym_pure_eq, Option.some.injEq] at h
  obtain ⟨itiRaw, hitiRaw, lodgV, hlodgV, neededV, hneededV, fIdx, hfIdx, stays, hstays,
    wm, hwm, bySeg, hbySeg, byStay, hbyStay, flatF, hflatF, flatH, hflatH,
    ⟨df1, tcs1⟩, hr1, ⟨df2, tcs2⟩, hr2, ⟨df3, tcs3⟩, hr3, ⟨df4, msgs1⟩, hr4,
    rms, hrms, hout⟩ := h
  subst hout
  simp only at hrank
  have hrk1 : hasRankerOp tcs1 = false := by
    have := flightQuoteStep_ranker hr1
    simp only at this
    rw [this, hrk]
  have hrk2 : hasRankerOp tcs2 = false := by
    have := hotelQuoteStep_ranker hr2
    simp only at this
    rw [this, hrk1]
  rcases rankStep_eq_some hr3 with ⟨hcond, args, htcs3⟩ | heq
  · obtain ⟨h12, hnr⟩ := (Bool.and_eq_true _ _).mp hcond
    obtain ⟨hf, hh⟩ := (Bool.and_eq_true _ _).mp h12
    constructor
    · intro fIdx2 wm2 bySeg2 flatF2 hfIdx2 hwm2 hbySeg2 hflatF2
      rw [hfIdx] at hfIdx2
      rw [hwm] at hwm2
      obtain rfl : fIdx = fIdx2 := Option.some_inj.mp hfIdx2
      obtain rfl : wm = wm2 := Option.some_inj.mp hwm2
      rw [hbySeg] at hbySeg2
      rw [hflatF] at hflatF2
      obtain rfl : bySeg = bySeg2 := Option.some_inj.mp hbySeg2
      obtain rfl : flatF = flatF2 := Option.some_inj.mp hflatF2
      exact hasAllFlightQuotes_correct hf (H1 fIdx hfIdx)
        (H2 wm bySeg flatF hwm hbySeg hflatF)
    · intro itiRaw2 lodgV2 neededV2 stays2 wm2 byStay2 flatH2
        hitiRaw2 hlodgV2 hneededV2 hntr hstays2 hwm2 hbyStay2 hflatH2
      rw [hitiRaw] at hitiRaw2
      obtain rfl : itiRaw = itiRaw2 := Option.some_inj.mp hitiRaw2
      rw [hlodgV] at hlodgV2
      obtain rfl : lodgV = lodgV2 := Option.some_inj.mp hlodgV2
      rw [hneededV] at hneededV2
      obtain rfl : neededV = neededV2 := Option.some_inj.mp hneededV2
      rw [hstays] at hstays2
      obtain rfl : stays = stays2 := Option.some_inj.mp hstays2
      rw [hwm] at hwm2
      obtain rfl : wm = wm2 := Option.some_inj.mp hwm2
      rw [hbyStay] at hbyStay2
      obtain rfl : byStay = byStay2 := Option.some_inj.mp hbyStay2
      rw [hflatH] at hflatH2
      obtain rfl : flatH = flatH2 := Option.some_inj.mp hflatH2
      rw [hntr] at hh
      exact hasAllHotelQuotes_correct hh (H3 wm byStay flatH hwm hbyStay hflatH)
  · exfalso
    have : tcs3 = tcs2 := by
      have := congrArg Prod.snd heq
      simpa using this
    rw [this, hrk2] at hrank
    cases hrank

/-- Counterexample to the original claim C3: on an itinerary mixing a train
leg (segment 0, with a stale per-segment quote entry) and a flight leg
(segment 1, with no stored quotes), the decision engine emits the ranking
operation in the same call that queues the flight quote search. -/
theorem c3_counterexample :
    (reducerRun (.obj c3df) "TOOL_RESULT"
        (.obj [("tool_name", .str "flight_quote_search")]) 0).map
      (fun out => hasRankerOp out.toolCalls) = some true ∧
    flightSegIdx (.obj c3df) = some [1] ∧
    wmField (.obj c3df) "flight_quotes_by_segment" =
      some (.arr [.arr [.obj [("option_id", .str "stale0")]], .arr []]) ∧
    truthy (segQuotesAt [.arr [.obj [("option_id", .str "stale0")]], .arr []] [] 1) = false := by
  exact ⟨rfl, rfl, rfl, rfl⟩

def c3wdf : Fields :=
  [("status", .obj [("phase", .str "quote"), ("state", .str "quoting_flights")]),
   ("itinerary", .obj [
      ("segments", .arr [
         .obj [("transport_mode", .str "flight"),
               ("origin", .obj [("code", .str "JFK")]),
               ("destination", .obj [("code", .str "LAX")]),
               ("depart_date", .str "2025-06-01")],
         .obj [("transport_mode", .str "flight"),
               ("origin", .obj [("code", .str "LAX")]),
               ("destination", .obj [("code", .str "SFO")]),
               ("depart_date", .str "2025-06-03")]]),
      ("lodging", .obj [("needed", .bool false)])]),
   ("party", .obj [("travelers", .obj [("adults", .num 1)])]),
   ("working_memory", .obj [
      ("flight_quotes_by_segment", .arr [.arr [.obj [("option_id", .str "q0")]],
                                         .arr [.obj [("option_id", .str "q1")]]]),
      ("flight_quotes", .arr []), ("hotel_quotes", .arr []),
      ("hotel_quotes_by_stay", .arr []), ("ranked_bundles", .arr []),
      ("risk_report", .null), ("holds", .arr []), ("bookings", .arr []),
      ("selected", .obj [])])]

set_option maxRecDepth 8000 in
/-- Witness for the amended C3 on an all-flight, fully quoted two-leg
document: the ranking operation fires and the gate conclusions hold. -/
theorem c3_witness :
    ∃ out, quoteSection c3wdf [] [] = some out ∧
      hasRankerOp out.toolCalls = true ∧
      (∀ fIdx wm bySeg flatF, flightSegIdx (.obj c3wdf) = some fIdx → getWMF c3wdf = some wm →
        asArr (pyOr (getD wm "flight_quotes_by_segment" .null) (.arr [])) = some bySeg →
        asArr (pyOr (getD wm "flight_quotes" .null) (.arr [])) = some flatF →
        ∀ i ∈ fIdx, truthy (segQuotesAt bySeg flatF i) = true) := by
  obtain ⟨out, hout⟩ : ∃ out, quoteSection c3wdf [] [] = some out := ⟨_, rfl⟩
  have hmap : (quoteSection c3wdf [] []).map
      (fun (o : ROut) => hasRankerOp o.toolCalls) = some true := rfl
  rw [hout] at hmap
  simp only [Option.map_some'] at hmap
  have hrank : hasRankerOp out.toolCalls = true := Option.some_inj.mp hmap
  have hres := c3_amended_ranker_gate c3wdf [] [] out hout rfl
    (by
      intro fIdx hf
      rw [show flightSegIdx (.obj c3wdf) = some [0, 1] from rfl] at hf
      obtain rfl : [0, 1] = fIdx := Option.some_inj.mp hf
      intro i hi
      rcases hi with _ | ⟨_, hi⟩
      · decide
      · rcases hi with _ | ⟨_, hi⟩
        · decide
        · cases hi)
    (by
      intro wm bySeg flatF hwm hby hflat hne
      rw [show getWMF c3wdf = some [("flight_quotes_by_segment",
            JVal.arr [.arr [.obj [("option_id", .str "q0")]],
                      .arr [.obj [("option_id", .str "q1")]]]),
          ("flight_quotes", JVal.arr []), ("hotel_quotes", JVal.arr []),
          ("hotel_quotes_by_stay", JVal.arr []), ("ranked_bundles", JVal.arr []),
          ("risk_report", JVal.null), ("holds", JVal.arr []),
          ("bookings", JVal.arr []), ("selected", JVal.obj [])] from rfl] at hwm
      obtain rfl := Option.some_inj.mp hwm
      rw [show asArr (pyOr (getD [("flight_quotes_by_segment",
            JVal.arr [.arr [.obj [("option_id", .str "q0")]],
                      .arr [.obj [("option_id", .str "q1")]]]),
          ("flight_quotes", JVal.arr []), ("hotel_quotes", JVal.arr []),
          ("hotel_quotes_by_stay", JVal.arr []), ("ranked_bundles", JVal.arr []),
          ("risk_report", JVal.null), ("holds", JVal.arr []),
          ("bookings", JVal.arr []), ("selected", JVal.obj [])]
          "flight_quotes" .null) (.arr [])) = some [] from rfl] at hflat
      exact (Option.some_inj.mp hflat).symm)
    (by
      intro wm byStay flatH hwm hby hflat hne
      rw [show getWMF c3wdf = some [("flight_quotes_by_segment",
            JVal.arr [.arr [.obj [("option_id", .str "q0")]],
                      .arr [.obj [("option_id", .str "q1")]]]),
          ("flight_quotes", JVal.arr []), ("hotel_quotes", JVal.arr []),
          ("hotel_quotes_by_stay", JVal.arr []), ("ranked_bundles", JVal.arr []),
          ("risk_report", JVal.null), ("holds", JVal.arr []),
          ("bookings", JVal.arr []), ("selected", JVal.obj [])] from rfl] at hwm
      obtain rfl := Option.some_inj.mp hwm
      rw [show asArr (pyOr (getD [("flight_quotes_by_segment",
            JVal.arr [.arr [.obj [("option_id", .str "q0")]],
                      .arr [.obj [("option_id", .str "q1")]]]),
          ("flight_quotes", JVal.arr []), ("hotel_quotes", JVal.arr []),
          ("hotel_quotes_by_stay", JVal.arr []), ("ranked_bundles", JVal.arr []),
          ("risk_report", JVal.null), ("holds", JVal.arr []),
          ("bookings", JVal.arr []), ("selected", JVal.obj [])]
          "hotel_quotes_by_stay" .null) (.arr [])) = some [] from rfl] at hby
      obtain rfl := Option.some_inj.mp hby
      exact absurd rfl hne)
    hrank
  exact ⟨out, hout, hrank, hres.1⟩

/-- A three-leg round itinerary (canonical segments) with two explicit
stays. -/
def c4df : Fields :=
  [("itinerary", .obj [
      ("segments", .arr [
         .obj [("segment_id", .str "seg_0"),
               ("origin", .obj [("type", .str "airport"), ("code", .str "JFK")]),
               ("destination", .obj [("type", .str "airport"), ("code", .str "DEN")]),
               ("depart_date", .str "2025-06-01"), ("transport_mode", .str "flight"),
               ("depart_time_window", .obj [("start", .null), ("end", .null)])],
         .obj [("segment_id", .str "seg_1"),
               ("origin", .obj [("type", .str "airport"), ("code", .str "DEN")]),
               ("destination", .obj [("type", .str "airport"), ("code", .str "ORD")]),
               ("depart_date", .str "2025-06-04"), ("transport_mode", .str "flight"),
               ("depart_time_window", .obj [("start", .null), ("end", .null)])],
         .obj [("segment_id", .str "seg_2"),
               ("origin", .obj [("type", .str "airport"), ("code", .str "ORD")]),
               ("destination", .obj [("type", .str "airport"), ("code", .str "JFK")]),
               ("depart_date", .str "2025-06-08"), ("transport_mode", .str "flight"),
               ("depart_time_window", .obj [("start", .null), ("end", .null)])]]),
      ("lodging", .obj [
         ("needed", .bool true),
         ("stays", .arr [
            .obj [("location_code", .str "DEN"), ("check_in", .str "2025-06-01"),
                  ("check_out", .str "2025-06-04")],
            .obj [("location_code", .str "ORD"), ("check_in", .str "2025-06-04"),
                  ("check_out", .str "2025-06-08")]])])]),
   ("party", .obj [("travelers", .obj [("adults", .num 2)])]),
   ("status", .obj []), ("working_memory", .obj [])]

/-- An extraction result that only updates segment 0's origin. -/
def c4result : JVal :=
  .obj [("success", .bool true),
        ("trip_intent", .obj [("segments", .arr [.obj [("origin_code", .str "EWR")]])]),
        ("missing_required_fields", .arr []),
        ("clarifying_questions", .arr [])]


theorem mapM_some_length2 {α β : Type} {f : α → PyM β} :
    ∀ {l : List α} {outs : List β}, l.mapM f = some outs → outs.length = l.length := by
  intro l
  induction l with
  | nil =>
      intro outs h
      simp only [List.mapM_nil, pym_pure_eq, Option.some.injEq] at h
      simp [← h]
  | cons x xs ih =>
      intro outs h
      rw [List.mapM_cons] at h
      simp only [pym_bind_eq_some, pym_pure_eq, Option.some.injEq] at h
      obtain ⟨y, hy, ys, hys, houts⟩ := h
      subst houts
      simp [ih hys]

theorem mapM_some_getD {α β : Type} {dflt : α} {dfltb : β} {f : α → PyM β} :
    ∀ {l : List α} {outs : List β}, l.mapM f = some outs →
      ∀ k, k < l.length → f (l.getD k dflt) = some (outs.getD k dfltb) := by
  intro l
  induction l with
  | nil =>
      intro outs h k hk
      simp at hk
  | cons x xs ih =>
      intro outs h k hk
      rw [List.mapM_cons] at h
      simp only [pym_bind_eq_some, pym_pure_eq, Option.some.injEq] at h
      obtain ⟨y, hy, ys, hys, houts⟩ := h
      subst houts
      cases k with
      | zero => simpa using hy
      | succ k2 =>
          simp only [List.getD_cons_succ]
          exact ih hys k2 (by simpa using hk)

theorem enum_getD {l : List JVal} {k : Nat} (hk : k < l.length) :
    l.enum.getD k (0, JVal.null) = (k, l.getD k JVal.null) := by
  have h1 : k < l.enum.length := by simpa using hk
  rw [List.getD_eq_getElem _ _ h1, List.getD_eq_getElem _ _ hk]
  simp

theorem filterMap_id_length {α : Type} : ∀ {l : List (Option α)},
    (∀ x ∈ l, x.isSome = true) → (l.filterMap id).length = l.length := by
  intro l
  induction l with
  | nil => intro _; rfl
  | cons x xs ih =>
      intro h
      cases x with
      | none =>
          have := h none (List.mem_cons_self _ _)
          simp at this
      | some a =>
          simp only [List.filterMap_cons, id]
          rw [List.length_cons, List.length_cons]
          exact congrArg Nat.succ (ih (fun y hy => h y (List.mem_cons_of_mem _ hy)))

theorem filterMap_id_getD {α : Type} {dflt : α} : ∀ {l : List (Option α)},
    (∀ x ∈ l, x.isSome = true) → ∀ k, k < l.length →
      some ((l.filterMap id).getD k dflt) = l.getD k none := by
  intro l
  induction l with
  | nil => intro _ k hk; simp at hk
  | cons x xs ih =>
      intro h k hk
      cases x with
      | none =>
          have := h none (List.mem_cons_self _ _)
          simp at this
      | some a =>
          simp only [List.filterMap_cons, id]
          cases k with
          | zero => simp
          | succ k2 =>
              simp only [List.getD_cons_succ]
              exact ih (fun y hy => h y (List.mem_cons_of_mem _ hy)) k2 (by simpa using hk)

/-- When every existing segment overlays successfully, the overlay loop drops
nothing: the output has one entry per existing segment, in order. -/
theorem overlaySegs_all_success {existing exSegs : List JVal} {base : List JVal}
    (h : overlaySegs existing exSegs = some base)
    (hall : ∀ k, k < existing.length →
      ∃ s, overlaySeg k (existing.getD k .null) (exSegs.getD k (.obj [])) = some (some s)) :
    base.length = existing.length ∧
    ∀ k, k < existing.length → ∀ s,
      overlaySeg k (existing.getD k .null) (exSegs.getD k (.obj [])) = some (some s) →
      base.getD k .null = s := by
  simp only [overlaySegs, pym_bind_eq_some, pym_pure_eq, Option.some.injEq] at h
  obtain ⟨outs, houts, hbase⟩ := h
  have hlen : outs.length = existing.length := by
    rw [mapM_some_length2 houts]
    simp
  have hsome : ∀ x ∈ outs, x.isSome = true := by
    intro x hx
    obtain ⟨k, hk, hxk⟩ := List.mem_iff_getElem.mp hx
    have hk2 : k < existing.length := by omega
    have hfd := @mapM_some_getD _ _ (0, JVal.null) none _ _ _ houts k (by simpa using hk2)
    rw [enum_getD hk2] at hfd
    obtain ⟨s, hs⟩ := hall k hk2
    rw [hs] at hfd
    have : outs.getD k none = some s := (Option.some_inj.mp hfd).symm
    rw [List.getD_eq_getElem _ _ hk, hxk] at this
    rw [this]
    rfl
  constructor
  · rw [← hbase, filterMap_id_length hsome, hlen]
  · intro k hk s hsk
    have hfd := @mapM_some_getD _ _ (0, JVal.null) none _ _ _ houts k (by simpa using hk)
    rw [enum_getD hk, hsk] at hfd
    have h1 : outs.getD k none = some s := (Option.some_inj.mp hfd).symm
    have h2 := @filterMap_id_getD _ JVal.null _ hsome k (by omega)
    rw [h1] at h2
    rw [← hbase]
    exact Option.some_inj.mp h2

/-- The inferred-return step appends at most one synthetic `seg_return`
segment, and otherwise returns the list unchanged. -/
theorem appendInferredReturn_spec {segs : List JVal} {extracted lod dates : JVal}
    {out : List JVal}
    (h : appendInferredReturn segs extracted lod dates = some out) :
    out = segs ∨ ∃ rs, out = segs ++ [rs] ∧
      subscr rs "segment_id" = some (.str "seg_return") := by
  unfold appendInferredReturn at h
  cases segs with
  | nil =>
      simp only [pym_pure_eq, Option.some.injEq] at h
      exact Or.inl h.symm
  | cons s0 rest =>
      simp only [pym_bind_eq_some, pym_pure_eq, Option.some.injEq] at h
      obtain ⟨o0, ho0, dl, hdl, h⟩ := h
      split at h
      · simp only [pym_bind_eq_some, pym_pure_eq, Option.some.injEq] at h
        obtain ⟨a1, _, a2, _, a3, _, h⟩ := h
        split at h
        · simp only [pym_bind_eq_some, pym_pure_eq, Option.some.injEq] at h
          obtain ⟨rl, _, y, _, hout⟩ := h
          refine Or.inr ⟨_, hout.symm, rfl⟩
        · simp only [pym_bind_eq_some, pym_pure_eq, Option.some.injEq] at h
          obtain ⟨y, _, hout⟩ := h
          refine Or.inr ⟨_, hout.symm, rfl⟩
      · simp only [pym_pure_eq, Option.some.injEq] at h
        exact Or.inl h.symm

theorem lodgNeededPart_no_stays (lod : JVal) :
    lookupJ (lodgNeededPart lod) "stays" = none := by
  cases lod <;> simp only [lodgNeededPart]
  case obj lf =>
    cases lookupJ lf "needed" with
    | none => rfl
    | some nv => simp [osetL, lookupJ]
  all_goals rfl

theorem lodgHintPart_stays (lod : JVal) (l2 : Fields) :
    lookupJ (lodgHintPart lod l2) "stays" = lookupJ l2 "stays" := by
  cases lod <;> simp only [lodgHintPart]
  case obj lf =>
    cases lookupJ lf "location_hint" with
    | none => rfl
    | some hv => rw [lookupJ_osetL_ne _ _ _ _ (by decide)]
  all_goals rfl

theorem lodgDatesFallback_stays {lod dates : JVal} {l1 l2 : Fields}
    (h : lodgDatesFallback lod dates l1 = some l2)
    (h1 : lookupJ l1 "stays" = none) : lookupJ l2 "stays" = none := by
  simp only [lodgDatesFallback, pym_bind_eq_some, pym_pure_eq, Option.some.injEq] at h
  obtain ⟨dep, hdep, ret, hret, lci, hlci, lco, hlco, hl2⟩ := h
  rw [← hl2]
  have s1 : lookupJ (if truthy dep = true then osetL l1 "check_in" dep else l1) "stays" = none := by
    by_cases hd : truthy dep = true <;>
      simp [hd, lookupJ_osetL_ne _ "check_in" "stays" _ (by decide), h1]
  have s2 : lookupJ (if truthy ret = true then
      osetL (if truthy dep = true then osetL l1 "check_in" dep else l1) "check_out" ret
      else (if truthy dep = true then osetL l1 "check_in" dep else l1)) "stays" = none := by
    by_cases hr : truthy ret = true <;>
      simp [hr, lookupJ_osetL_ne _ "check_out" "stays" _ (by decide), s1]
  have s3 : lookupJ (if truthy lci = true then
      osetL (if truthy ret = true then
        osetL (if truthy dep = true then osetL l1 "check_in" dep else l1) "check_out" ret
        else (if truthy dep = true then osetL l1 "check_in" dep else l1)) "check_in" lci
      else (if truthy ret = true then
        osetL (if truthy dep = true then osetL l1 "check_in" dep else l1) "check_out" ret
        else (if truthy dep = true then osetL l1 "check_in" dep else l1))) "stays" = none := by
    by_cases hc : truthy lci = true <;>
      simp [hc, lookupJ_osetL_ne _ "check_in" "stays" _ (by decide), s2]
  by_cases hc2 : truthy lco = true <;>
    simp [hc2, lookupJ_osetL_ne _ "check_out" "stays" _ (by decide), s3]

/-- When the extraction supplies no stays, the lodging sub-patch carries no
`stays` key at all (preservation is delegated to the deep merge). -/
theorem buildExtractLodging_no_stays {docF : Fields} {extracted lod dates : JVal}
    {lodgF : Fields}
    (h : buildExtractLodging docF extracted lod dates = some lodgF)
    (hex : ∀ v, dictGetN extracted "stays" = some v → truthy v = false)
    (hlod : ∀ v, dictGetN lod "stays" = some v → truthy v = false) :
    lookupJ lodgF "stays" = none := by
  simp only [buildExtractLodging, pym_bind_eq_some, pym_pure_eq, Option.some.injEq] at h
  obtain ⟨exS, hexS, lodS, hlodS, h⟩ := h
  have hinner : pyOr exS lodS = lodS := by
    rw [pyOr, hex exS hexS]
    simp
  have hfalse : truthy (pyOr (pyOr exS lodS) (.arr [])) = false := by
    rw [hinner, pyOr, hlod lodS hlodS]
    simp [truthy]
  split at h
  · rename_i hcond
    rw [hfalse] at hcond
    cases hcond
  · simp only [pym_bind_eq_some, pym_pure_eq, Option.some.injEq] at h
    obtain ⟨l2, hl2, hout⟩ := h
    rw [← hout, lodgHintPart_stays]
    exact lodgDatesFallback_stays hl2 (lodgNeededPart_no_stays lod)


/-- Claim C4 (amended): when every existing segment overlays successfully
(the extraction supplies or the document already holds a canonical
origin/destination/date for each), the extraction translation preserves
every existing segment in order and drops none; the only segment it may
append beyond them is the single inferred `seg_return` leg.  When the
extraction supplies no stays the Patch's lodging carries no `stays` key at
all — existing stays are preserved by the deep merge rather than restated in
the Patch.  The original claim (exactly three segments, stays restated) is
refuted by `c4_counterexample`. -/
theorem c4_amended_extract_translation
    (existing exSegs : List JVal) (extracted lod dates : JVal) (docF : Fields)
    (hall : ∀ k, k < existing.length →
      ∃ s, overlaySeg k (existing.getD k .null) (exSegs.getD k (.obj [])) = some (some s)) :
    (∀ base, overlaySegs existing exSegs = some base →
      base.length = existing.length ∧
      (∀ k, k < existing.length → ∀ s,
        overlaySeg k (existing.getD k .null) (exSegs.getD k (.obj [])) = some (some s) →
        base.getD k .null = s) ∧
      (∀ out, appendInferredReturn base extracted lod dates = some out →
        out = base ∨ ∃ rs, out = base ++ [rs] ∧
          subscr rs "segment_id" = some (.str "seg_return"))) ∧
    (∀ lodgF, buildExtractLodging docF extracted lod dates = some lodgF →
      (∀ v, dictGetN extracted "stays" = some v → truthy v = false) →
      (∀ v, dictGetN lod "stays" = some v → truthy v = false) →
      lookupJ lodgF "stays" = none) := by
  constructor
  · intro base hb
    obtain ⟨h1, h2⟩ := overlaySegs_all_success hb hall
    exact ⟨h1, h2, fun out ho => appendInferredReturn_spec ho⟩
  · intro lodgF hl hex hlod
    exact buildExtractLodging_no_stays hl hex hlod

/-- Counterexample to the original claim C4: on a three-segment round
itinerary with two stays, an extraction supplying only an updated origin for
segment 0 yields a Patch with FOUR segments (an inferred return leg is
appended because the rewritten first origin no longer matches the last
destination) and with no stays at all in its lodging. -/
theorem c4_counterexample :
    ((extractBuildPatch c4df c4result).map (fun (pr : Fields × String) =>
      match subscr (getD pr.1 "itinerary" .null) "segments" with
      | some (.arr l) => l.length
      | _ => 0)) = some 4 ∧
    ((extractBuildPatch c4df c4result).map (fun (pr : Fields × String) =>
      match subscr (getD pr.1 "itinerary" .null) "lodging" with
      | some (.obj lf) => (lookupJ lf "stays").isSome
      | _ => true)) = some false ∧
    (match subscr (getD c4df "itinerary" .null) "segments" with
      | some (.arr l) => l.length
      | _ => 0) = 3 ∧
    (match subscr (getD c4df "itinerary" .null) "lodging" with
      | some (.obj lf) =>
          (match lookupJ lf "stays" with
           | some (.arr st) => st.length
           | _ => 0)
      | _ => 0) = 2 :=
  ⟨rfl, rfl, rfl, rfl⟩

/-- The three existing segments of `c4df`. -/
def c4existing : List JVal :=
  [.obj [("segment_id", .str "seg_0"),
         ("origin", .obj [("type", .str "airport"), ("code", .str "JFK")]),
         ("destination", .obj [("type", .str "airport"), ("code", .str "DEN")]),
         ("depart_date", .str "2025-06-01"), ("transport_mode", .str "flight"),
         ("depart_time_window", .obj [("start", .null), ("end", .null)])],
   .obj [("segment_id", .str "seg_1"),
         ("origin", .obj [("type", .str "airport"), ("code", .str "DEN")]),
         ("destination", .obj [("type", .str "airport"), ("code", .str "ORD")]),
         ("depart_date", .str "2025-06-04"), ("transport_mode", .str "flight"),
         ("depart_time_window", .obj [("start", .null), ("end", .null)])],
   .obj [("segment_id", .str "seg_2"),
         ("origin", .obj [("type", .str "airport"), ("code", .str "ORD")]),
         ("destination", .obj [("type", .str "airport"), ("code", .str "JFK")]),
         ("depart_date", .str "2025-06-08"), ("transport_mode", .str "flight"),
         ("depart_time_window", .obj [("start", .null), ("end", .null)])]]

/-- The extraction's segment list: only an origin update for segment 0. -/
def c4exsegs : List JVal := [.obj [("origin_code", .str "EWR")]]

def c4extracted : JVal := .obj [("segments", .arr c4exsegs)]

/-- Witness for the amended C4 on the concrete three-segment document. -/
theorem c4_witness :
    ∃ base, overlaySegs c4existing c4exsegs = some base ∧ base.length = 3 ∧
      (∀ out, appendInferredReturn base c4extracted (.obj []) (.obj []) = some out →
        out = base ∨ ∃ rs, out = base ++ [rs] ∧
          subscr rs "segment_id" = some (.str "seg_return")) ∧
      (∀ lodgF, buildExtractLodging c4df c4extracted (.obj []) (.obj []) = some lodgF →
        lookupJ lodgF "stays" = none) := by
  obtain ⟨base, hb⟩ : ∃ b, overlaySegs c4existing c4exsegs = some b := ⟨_, rfl⟩
  obtain ⟨hseg, hlodg⟩ := c4_amended_extract_translation c4existing c4exsegs
    c4extracted (.obj []) (.obj []) c4df
    (by
      intro k hk
      have h3 : k < 3 := hk
      interval_cases k
      · exact ⟨_, rfl⟩
      · exact ⟨_, rfl⟩
      · exact ⟨_, rfl⟩)
  obtain ⟨hlen, hpos, hret⟩ := hseg base hb
  refine ⟨base, hb, ?_, hret, ?_⟩
  · rw [hlen]
    rfl
  · intro lodgF hl
    refine hlodg lodgF hl ?_ ?_
    · intro v hv
      rw [show dictGetN c4extracted "stays" = some JVal.null from rfl] at hv
      rw [← Option.some_inj.mp hv]
      rfl
    · intro v hv
      rw [show dictGetN (JVal.obj []) "stays" = some JVal.null from rfl] at hv
      rw [← Option.some_inj.mp hv]
      rfl

def c8df : Fields :=
  [("itinerary", .obj [
      ("segments", .arr [
        .obj [("segment_id", .str "seg_0"),
              ("origin", .obj [("type", .str "airport"), ("code", .str "EWR")]),
              ("destination", .obj [("type", .str "airport"), ("code", .str "DEN")]),
              ("depart_date", .str "2025-06-01"), ("transport_mode", .str "flight")],
        .obj [("segment_id", .str "seg_1"),
              ("origin", .obj [("type", .str "airport"), ("code", .str "DEN")]),
              ("destination", .obj [("type", .str "airport"), ("code", .str "EWR")]),
              ("depart_date", .str "2025-06-05"), ("transport_mode", .str "flight")]]),
    ("lodging", .obj [("needed", .bool true), ("check_in", .str "2025-06-01"),
                      ("check_out", .str "2025-06-05")])]),
   ("party", .obj [("travelers", .obj [("adults", .num 2), ("children", .num 0)])]),
   ("status", .obj [("phase", .str "intake"), ("state", .str "awaiting_confirmation"),
                    ("missing_required", .arr [])]),
   ("working_memory", .obj [])]

def c8ev : Fields :=
  [("tool_name", .str "trip_requirements_extract"),
   ("user_message", .str "No, make it trains instead"),
   ("clarifying_questions", .arr [.str "Should we book trains instead of flights?"])]

set_option maxRecDepth 8000 in
/-- Claim C8 (code bug): on a complete two-leg document in the
`awaiting_confirmation` state, a `TOOL_RESULT` of
`trip_requirements_extract` whose user message is not a confirmation and
whose payload carries a clarifying question yields exactly one user-facing
message — the trip summary plus the confirmation re-ask — with no tool
calls; the extractor's clarifying question is never surfaced, contradicting
the required fallback chain. -/
theorem c8_non_confirmation_reasks_only :
    ((reducerRun (.obj c8df) "TOOL_RESULT" (.obj c8ev) 0).map (fun r =>
      (r.toolCalls.length, r.uiMessages.length,
       r.uiMessages.any (fun m => strHas m "Reply **Yes** or **Looks good**"),
       r.uiMessages.any (fun m => strHas m "Should we book trains")))) =
      some (0, 1, true, false) ∧
    dictGetN (.obj c8ev) "clarifying_questions" =
      some (.arr [.str "Should we book trains instead of flights?"]) ∧
    isConfirmation "No, make it trains instead" = false :=
  ⟨rfl, rfl, rfl⟩

theorem getD_setdefaultL_ne (l : Fields) (k k0 : String) (d0 d : JVal) (h : k0 ≠ k) :
    getD (setdefaultL l k d0) k0 d = getD l k0 d := by
  unfold getD
  rw [lookupJ_setdefaultL_ne l k k0 d0 h]

theorem setdefaultL_osetL_self (l : Fields) (k : String) (v d : JVal) :
    setdefaultL (osetL l k v) k d = osetL l k v := by
  unfold setdefaultL
  rw [lookupJ_osetL_self]

theorem runawayStopDoc_status {doc out : JVal} (h : runawayStopDoc doc = some out) :
    statusField out "phase" = some (.str "error") ∧
    statusField out "state" = some (.str "retryable") := by
  simp only [runawayStopDoc, appendStatusNote, pym_bind_eq_some, pym_pure_eq, asObj,
    Option.some.injEq] at h
  obtain ⟨df, hdf, df2, hs2, df3, hs3, df3a, hdf3a, st, hst, notes, hnotes, hout⟩ := h
  obtain ⟨s1, hs1, hd2⟩ := setStatus_eq_some hs2
  obtain ⟨s2, hs2o, hd3⟩ := setStatus_eq_some hs3
  subst hd2 hd3 hdf3a hout
  rw [show getD (osetL (setdefaultL df "status" (JVal.obj [])) "status"
        (JVal.obj (osetL s1 "phase" (JVal.str "error")))) "status" JVal.null =
      JVal.obj (osetL s1 "phase" (JVal.str "error")) from getD_osetL_self _ _ _ _,
    asObj] at hs2o
  obtain rfl := Option.some_inj.mp hs2o
  rw [setdefaultL_osetL_self] at hst
  rw [getStatusF, show getD (osetL (osetL (setdefaultL df "status" (JVal.obj [])) "status"
        (JVal.obj (osetL s1 "phase" (JVal.str "error")))) "status"
        (JVal.obj (osetL (osetL s1 "phase" (JVal.str "error")) "state"
          (JVal.str "retryable")))) "status" JVal.null =
      JVal.obj (osetL (osetL s1 "phase" (JVal.str "error")) "state" (JVal.str "retryable"))
      from getD_osetL_self _ _ _ _, asObj] at hst
  obtain rfl := Option.some_inj.mp hst
  rw [setdefaultL_osetL_self]
  constructor
  · rw [statusField_osetL_status]
    rw [getD_osetL_ne _ "notes" "phase" _ _ (by decide),
      getD_setdefaultL_ne _ "notes" "phase" _ _ (by decide),
      getD_osetL_ne _ "state" "phase" _ _ (by decide), getD_osetL_self]
  · rw [statusField_osetL_status]
    rw [getD_osetL_ne _ "notes" "state" _ _ (by decide),
      getD_setdefaultL_ne _ "notes" "state" _ _ (by decide), getD_osetL_self]

/-- Claim C9 (amended): the two runaway guards act differently.  (a) When
the total-dispatch count exceeds `MAX_TOOL_RUNS_PER_TURN` the turn ends in
`(phase = error, state = retryable)`.  (b) When only the per-tool-name
guard is exceeded the dispatch loop does NOT stop: it records a skip note
on the document and continues with the rest of the queue, leaving
phase/state untouched (the original claim's uniform `(error, retryable)`
termination is refuted by `c9_counterexample`). -/
theorem c9_amended_runaway_guards (conv su : Fields)
    (callTool : String → JVal → Except String JVal) (now : Int) (fuel : Nat)
    (doc : JVal) (tc : MTool) (rest : List MTool) (runCount : Nat)
    (counts : List (String × Nat)) :
    (MAX_TOOL_RUNS_PER_TURN ≤ runCount →
      ∀ out, runToolQueue conv su callTool now (fuel + 1) doc (tc :: rest)
          runCount counts = some out →
        statusField out "phase" = some (.str "error") ∧
        statusField out "state" = some (.str "retryable")) ∧
    (runCount < MAX_TOOL_RUNS_PER_TURN →
      MAX_RUNS_PER_TOOL_NAME ≤ countOf counts tc.name →
      runToolQueue conv su callTool now (fuel + 1) doc (tc :: rest)
          runCount counts =
        obind (skipNoteDoc doc tc.name) (fun doc2 =>
          runToolQueue conv su callTool now fuel doc2 rest (runCount + 1) counts)) := by
  constructor
  · intro hge out h
    rw [runToolQueue, if_pos (by simp only [MAX_TOOL_RUNS_PER_TURN] at hge ⊢; omega)] at h
    exact runawayStopDoc_status h
  · intro hlt hcnt
    rw [runToolQueue, if_neg (by simp only [MAX_TOOL_RUNS_PER_TURN] at hlt ⊢; omega),
      if_pos hcnt]
    rfl

def c9df : Fields :=
  [("status", .obj [("phase", .str "intake"),
                    ("state", .str "collecting_requirements")])]

/-- Counterexample to the original claim C9: with the per-tool-name guard
already exceeded for `x/y` (run 3 times), dispatching a queue holding one
more `x/y` call ends the turn with the document still in
`(intake, collecting_requirements)` — only a skip note is recorded, the
turn does not terminate in `(error, retryable)`. -/
theorem c9_counterexample :
    MAX_RUNS_PER_TOOL_NAME ≤ countOf [("x/y", 3)] "x/y" ∧
    ((runToolQueue [] [] (fun _ _ => Except.error "unused") 0 5 (.obj c9df)
        [⟨"x/y", .null⟩] 0 [("x/y", 3)]).map (fun out =>
      (statusField out "phase", statusField out "state"))) =
      some (some (.str "intake"), some (.str "collecting_requirements")) :=
  ⟨by decide, rfl⟩

/-- Witness for the amended C9 at concrete inputs: the total guard at
`runCount = 50` forces `(error, retryable)`; the per-name guard at
count 3 reduces to the skip-and-continue step. -/
theorem c9_witness :
    ∃ out, runToolQueue [] [] (fun _ _ => Except.error "unused") 0 1 (.obj c9df)
        [⟨"x/y", .null⟩] 50 [] = some out ∧
      statusField out "phase" = some (.str "error") ∧
      statusField out "state" = some (.str "retryable") ∧
      runToolQueue [] [] (fun _ _ => Except.error "unused") 0 2 (.obj c9df)
          [⟨"x/y", .null⟩] 0 [("x/y", 3)] =
        obind (skipNoteDoc (.obj c9df) "x/y") (fun doc2 =>
          runToolQueue [] [] (fun _ _ => Except.error "unused") 0 1 doc2 [] 1
            [("x/y", 3)]) := by
  obtain ⟨out, hout⟩ : ∃ o, runToolQueue [] [] (fun _ _ => Except.error "unused") 0 1
      (.obj c9df) [⟨"x/y", .null⟩] 50 [] = some o := ⟨_, rfl⟩
  obtain ⟨hp, hs⟩ := (c9_amended_runaway_guards [] [] (fun _ _ => Except.error "unused")
    0 0 (.obj c9df) ⟨"x/y", .null⟩ [] 50 []).1 (by decide) out hout
  refine ⟨out, hout, hp, hs, ?_⟩
  exact (c9_amended_runaway_guards [] [] (fun _ _ => Except.error "unused")
    0 1 (.obj c9df) ⟨"x/y", .null⟩ [] 0 [("x/y", 3)]).2 (by decide) (by decide)

/-! ## Claim C7 infrastructure -/

mutual

/-- Unique keys at every dict level (automatic for values deserialized from
Python dicts; stated explicitly because the embedding lists fields). -/
def noDupDeepV : JVal → Bool
  | .obj l => noDupDeepF l
  | .arr l => noDupDeepL l
  | _ => true

def noDupDeepL : List JVal → Bool
  | [] => true
  | x :: xs => noDupDeepV x && noDupDeepL xs

def noDupDeepF : Fields → Bool
  | [] => true
  | (k, v) :: rest => !((rest.map Prod.fst).contains k) && noDupDeepV v && noDupDeepF rest

end

theorem noDupF_cons {k : String} {v : JVal} {rest : Fields} :
    noDupDeepF ((k, v) :: rest) = true ↔
      k ∉ rest.map Prod.fst ∧ noDupDeepV v = true ∧ noDupDeepF rest = true := by
  simp [noDupDeepF, and_assoc]

theorem lookupJ_eq_none_iff {l : Fields} {k : String} :
    lookupJ l k = none ↔ k ∉ l.map Prod.fst := by
  induction l with
  | nil => simp [lookupJ]
  | cons q rest ih =>
      obtain ⟨k1, v1⟩ := q
      by_cases h1 : k1 = k
      · subst h1
        simp [lookupJ]
      · simp [lookupJ, h1, ih, Ne.symm h1]

theorem lookupJ_isSome_of_mem_keys {l : Fields} {k : String}
    (h : k ∈ l.map Prod.fst) : (lookupJ l k).isSome := by
  cases hl : lookupJ l k with
  | some v => rfl
  | none => exact absurd (lookupJ_eq_none_iff.mp hl) (by simp [h])

theorem mem_keys_of_lookupJ_isSome {l : Fields} {k : String}
    (h : (lookupJ l k).isSome) : k ∈ l.map Prod.fst := by
  by_contra hk
  rw [lookupJ_eq_none_iff.mpr hk] at h
  cases h

theorem osetL_of_lookupJ_self {l : Fields} {k : String} {v : JVal}
    (h : lookupJ l k = some v) : osetL l k v = l := by
  induction l with
  | nil => cases h
  | cons q rest ih =>
      obtain ⟨k1, v1⟩ := q
      by_cases h1 : k1 = k
      · subst h1
        simp [lookupJ] at h
        simp [osetL, h]
      · simp [lookupJ, h1] at h
        simp [osetL, h1, ih h]

theorem osetL_of_lookupJ_none {l : Fields} {k : String} (v : JVal)
    (h : lookupJ l k = none) : osetL l k v = l ++ [(k, v)] := by
  induction l with
  | nil => rfl
  | cons q rest ih =>
      obtain ⟨k1, v1⟩ := q
      by_cases h1 : k1 = k
      · subst h1
        simp [lookupJ] at h
      · simp [lookupJ, h1] at h
        simp [osetL, h1, ih h]

theorem keys_osetL_of_isSome {l : Fields} {k : String} (v : JVal)
    (h : (lookupJ l k).isSome) : (osetL l k v).map Prod.fst = l.map Prod.fst := by
  induction l with
  | nil => simp [lookupJ] at h
  | cons q rest ih =>
      obtain ⟨k1, v1⟩ := q
      by_cases h1 : k1 = k
      · subst h1
        simp [osetL]
      · simp [lookupJ, h1] at h
        simp [osetL, h1, ih h]

theorem lookupJ_osetL_isSome {l : Fields} {k k0 : String} {v : JVal}
    (h : (lookupJ l k0).isSome) : (lookupJ (osetL l k v) k0).isSome := by
  by_cases hk : k0 = k
  · subst hk
    simp [lookupJ_osetL_self]
  · rw [lookupJ_osetL_ne _ _ _ _ hk]
    exact h

theorem lookupJ_setdefaultL_isSome {l : Fields} {k k0 : String} {d : JVal}
    (h : (lookupJ l k0).isSome) : (lookupJ (setdefaultL l k d) k0).isSome := by
  by_cases hk : k0 = k
  · subst hk
    simp [lookupJ_setdefaultL_self]
  · rw [lookupJ_setdefaultL_ne _ _ _ _ hk]
    exact h

theorem setdefaultL_of_isSome {l : Fields} {k : String} (d : JVal)
    (h : (lookupJ l k).isSome) : setdefaultL l k d = l := by
  unfold setdefaultL
  cases hl : lookupJ l k with
  | some v => rfl
  | none => rw [hl] at h; cases h

theorem osetL_osetL_comm {l : Fields} {k k2 : String} {v v2 : JVal}
    (hne : k ≠ k2) (h : (lookupJ l k).isSome) :
    osetL (osetL l k v) k2 v2 = osetL (osetL l k2 v2) k v := by
  induction l with
  | nil => simp [lookupJ] at h
  | cons q rest ih =>
      obtain ⟨k1, v1⟩ := q
      by_cases h1 : k1 = k
      · have h12 : ¬ k1 = k2 := by rw [h1]; exact hne
        simp [osetL, h1, h12, hne]
      · by_cases h2 : k1 = k2
        · simp [osetL, h1, h2, hne.symm]
        · simp [lookupJ, h1] at h
          simp [osetL, h1, h2, ih h]

theorem noDupF_keys_nodup {l : Fields} (h : noDupDeepF l = true) :
    (l.map Prod.fst).Nodup := by
  induction l with
  | nil => simp
  | cons q rest ih =>
      obtain ⟨k, v⟩ := q
      obtain ⟨h1, _, h3⟩ := noDupF_cons.mp h
      simp only [List.map_cons, List.nodup_cons]
      exact ⟨h1, ih h3⟩

theorem noDupF_lookupJ {l : Fields} {k : String} {v : JVal}
    (h : noDupDeepF l = true) (hl : lookupJ l k = some v) : noDupDeepV v = true := by
  induction l with
  | nil => cases hl
  | cons q rest ih =>
      obtain ⟨k1, v1⟩ := q
      obtain ⟨_, h2, h3⟩ := noDupF_cons.mp h
      by_cases h1 : k1 = k
      · subst h1
        simp [lookupJ] at hl
        exact hl ▸ h2
      · simp [lookupJ, h1] at hl
        exact ih h3 hl

theorem lookupJ_mergeFields_not_mem {p : Fields} {k : String} :
    ∀ {d : Fields}, k ∉ p.map Prod.fst →
      lookupJ (mergeFields d p) k = lookupJ d k := by
  induction p with
  | nil => intro d _; rfl
  | cons q rest ih =>
      obtain ⟨k2, v2⟩ := q
      intro d hk
      simp only [List.map_cons, List.mem_cons, not_or] at hk
      simp only [mergeFields]
      rw [ih (by exact hk.2), lookupJ_osetL_ne _ _ _ _ (Ne.symm (by exact fun h => hk.1 h.symm))]

theorem lookupJ_mergeFields_isSome_left {p : Fields} :
    ∀ {d : Fields} {k : String}, (lookupJ d k).isSome →
      (lookupJ (mergeFields d p) k).isSome := by
  induction p with
  | nil => intro d k h; exact h
  | cons q rest ih =>
      obtain ⟨k2, v2⟩ := q
      intro d k h
      simp only [mergeFields]
      exact ih (lookupJ_osetL_isSome h)

theorem lookupJ_mergeFields_isSome_mem {p : Fields} :
    ∀ {d : Fields} {k : String}, k ∈ p.map Prod.fst →
      (lookupJ (mergeFields d p) k).isSome := by
  induction p with
  | nil => intro d k h; cases h
  | cons q rest ih =>
      obtain ⟨k2, v2⟩ := q
      intro d k hk
      simp only [List.map_cons, List.mem_cons] at hk
      simp only [mergeFields]
      rcases hk with hk | hk
      · subst hk
        exact lookupJ_mergeFields_isSome_left (by simp [lookupJ_osetL_self])
      · exact ih hk

theorem lookupJ_append_left_isSome {l : Fields} {k : String} (e : Fields)
    (h : (lookupJ l k).isSome) : lookupJ (l ++ e) k = lookupJ l k := by
  induction l with
  | nil => cases h
  | cons q rest ih =>
      obtain ⟨k1, v1⟩ := q
      by_cases h1 : k1 = k
      · simp [lookupJ, h1]
      · simp only [List.cons_append, lookupJ, h1, if_false] at h ⊢
        exact ih h

theorem osetL_append_left {l : Fields} {k : String} (e : Fields) (v : JVal)
    (h : (lookupJ l k).isSome) : osetL (l ++ e) k v = osetL l k v ++ e := by
  induction l with
  | nil => cases h
  | cons q rest ih =>
      obtain ⟨k1, v1⟩ := q
      by_cases h1 : k1 = k
      · simp [osetL, h1]
      · simp only [lookupJ, h1, if_false] at h
        simp [osetL, h1, ih h]

theorem mergeFields_append_fresh {p : Fields} :
    ∀ {d : Fields} {k : String} {w : JVal}, k ∉ p.map Prod.fst →
      (∀ k2 ∈ p.map Prod.fst, (lookupJ d k2).isSome) →
      mergeFields (d ++ [(k, w)]) p = mergeFields d p ++ [(k, w)] := by
  induction p with
  | nil => intro d k w _ _; rfl
  | cons q rest ih =>
      obtain ⟨k2, v2⟩ := q
      intro d k w hk hpres
      simp only [List.map_cons, List.mem_cons, not_or] at hk
      have hp2 : (lookupJ d k2).isSome := hpres k2 (by simp)
      simp only [mergeFields]
      rw [lookupJ_append_left_isSome _ hp2, osetL_append_left _ _ hp2]
      exact ih hk.2 (fun k3 h3 => lookupJ_osetL_isSome (hpres k3 (by simp [h3])))

theorem mergeFields_osetL_comm {p : Fields} :
    ∀ {d : Fields} {k : String} {w : JVal}, k ∉ p.map Prod.fst →
      (lookupJ d k).isSome →
      mergeFields (osetL d k w) p = osetL (mergeFields d p) k w := by
  induction p with
  | nil => intro d k w _ _; rfl
  | cons q rest ih =>
      obtain ⟨k2, v2⟩ := q
      intro d k w hk hpres
      simp only [List.map_cons, List.mem_cons, not_or] at hk
      have hne : k ≠ k2 := hk.1
      simp only [mergeFields]
      rw [lookupJ_osetL_ne _ _ _ _ (Ne.symm hne), osetL_osetL_comm hne hpres]
      exact ih hk.2 (lookupJ_osetL_isSome hpres)

theorem mergeFields_setdefaultL_comm {p d : Fields} {k : String} {w : JVal}
    (hk : k ∉ p.map Prod.fst)
    (hpres : ∀ k2 ∈ p.map Prod.fst, (lookupJ d k2).isSome) :
    mergeFields (setdefaultL d k w) p = setdefaultL (mergeFields d p) k w := by
  unfold setdefaultL
  rw [lookupJ_mergeFields_not_mem hk]
  cases hl : lookupJ d k with
  | some v => rfl
  | none => exact mergeFields_append_fresh hk hpres

theorem mergeFields_all_fresh {p : Fields} :
    ∀ {d : Fields}, (∀ k ∈ p.map Prod.fst, lookupJ d k = none) →
      (p.map Prod.fst).Nodup → mergeFields d p = d ++ p := by
  induction p with
  | nil => intro d _ _; simp [mergeFields]
  | cons q rest ih =>
      obtain ⟨k, v⟩ := q
      intro d hfresh hnd
      simp only [List.map_cons, List.nodup_cons] at hnd
      have hk : lookupJ d k = none := hfresh k (by simp)
      simp only [mergeFields, hk]
      rw [osetL_of_lookupJ_none _ hk]
      have hfresh2 : ∀ k2 ∈ rest.map Prod.fst, lookupJ (d ++ [(k, v)]) k2 = none := by
        intro k2 h2
        rw [lookupJ_eq_none_iff]
        simp only [List.map_append, List.map_cons, List.map_nil, List.mem_append,
          List.mem_singleton, not_or]
        exact ⟨lookupJ_eq_none_iff.mp (hfresh k2 (by simp [h2])),
          fun hkk => hnd.1 (hkk ▸ h2)⟩
      rw [ih hfresh2 hnd.2]
      simp

/-- The `newv` computed for one patch binding of `_deep_merge`. -/
def mergeNewv (d : Fields) (k : String) (v : JVal) : JVal :=
  match lookupJ d k with
  | some d0 => mergeVal d0 v
  | none => v

theorem mergeFields_cons (d : Fields) (k : String) (v : JVal) (rest : Fields) :
    mergeFields d ((k, v) :: rest) = mergeFields (osetL d k (mergeNewv d k v)) rest := rfl

mutual

theorem mergeVal_self_idem : ∀ (v : JVal), noDupDeepV v = true → mergeVal v v = v
  | JVal.obj pv, h => by
      simp only [mergeVal]
      have hfr : mergeFields ([] : Fields) pv = pv := by
        have := mergeFields_all_fresh (p := pv) (d := [])
          (fun k _ => rfl) (noDupF_keys_nodup (by simpa [noDupDeepV] using h))
        simpa using this
      have hidem := mergeFields_merge_idem pv [] (by simpa [noDupDeepV] using h)
      rw [hfr] at hidem
      rw [hidem]
  | JVal.null, _ => rfl
  | JVal.bool _, _ => rfl
  | JVal.num _, _ => rfl
  | JVal.fnum _, _ => rfl
  | JVal.str _, _ => rfl
  | JVal.arr _, _ => rfl
termination_by v _ => (sizeOf v, 0)

theorem mergeVal_merge_idem : ∀ (v d : JVal), noDupDeepV v = true →
    mergeVal (mergeVal d v) v = mergeVal d v
  | JVal.obj pv, d, h => by
      cases d with
      | obj dv =>
          simp only [mergeVal]
          exact congrArg JVal.obj (mergeFields_merge_idem pv dv (by simpa [noDupDeepV] using h))
      | null => exact mergeVal_self_idem (JVal.obj pv) h
      | bool b => exact mergeVal_self_idem (JVal.obj pv) h
      | num n => exact mergeVal_self_idem (JVal.obj pv) h
      | fnum q => exact mergeVal_self_idem (JVal.obj pv) h
      | str s => exact mergeVal_self_idem (JVal.obj pv) h
      | arr xs => exact mergeVal_self_idem (JVal.obj pv) h
  | JVal.null, _, _ => rfl
  | JVal.bool _, _, _ => rfl
  | JVal.num _, _, _ => rfl
  | JVal.fnum _, _, _ => rfl
  | JVal.str _, _, _ => rfl
  | JVal.arr _, _, _ => rfl
termination_by v _ _ => (sizeOf v, 1)

theorem mergeFields_merge_idem : ∀ (p : Fields) (d : Fields), noDupDeepF p = true →
    mergeFields (mergeFields d p) p = mergeFields d p
  | [], _, _ => rfl
  | (k, v) :: rest, d, h => by
      obtain ⟨hk, hv, hrest⟩ := noDupF_cons.mp h
      rw [mergeFields_cons, mergeFields_cons]
      have hlk : lookupJ (mergeFields (osetL d k (mergeNewv d k v)) rest) k =
          some (mergeNewv d k v) := by
        rw [lookupJ_mergeFields_not_mem hk, lookupJ_osetL_self]
      have hnv2 : mergeNewv (mergeFields (osetL d k (mergeNewv d k v)) rest) k v =
          mergeNewv d k v := by
        rw [mergeNewv, hlk]
        show mergeVal (mergeNewv d k v) v = mergeNewv d k v
        rw [mergeNewv]
        cases hd : lookupJ d k with
        | some d0 => exact mergeVal_merge_idem v d0 hv
        | none => exact mergeVal_self_idem v hv
      rw [hnv2, osetL_of_lookupJ_self hlk]
      exact mergeFields_merge_idem rest (osetL d k (mergeNewv d k v)) hrest
termination_by p _ _ => (sizeOf p, 0)

end


theorem noDupF_append_singleton {l : Fields} {k : String} {v : JVal}
    (h : noDupDeepF l = true) (hv : noDupDeepV v = true) (hk : k ∉ l.map Prod.fst) :
    noDupDeepF (l ++ [(k, v)]) = true := by
  induction l with
  | nil => exact noDupF_cons.mpr ⟨by simp, hv, rfl⟩
  | cons q rest ih =>
      obtain ⟨k1, v1⟩ := q
      obtain ⟨h1, h2, h3⟩ := noDupF_cons.mp h
      simp only [List.map_cons, List.mem_cons, not_or] at hk
      refine noDupF_cons.mpr ⟨?_, h2, ih h3 hk.2⟩
      intro hmem
      simp only [List.append_eq, List.map_append, List.mem_append, List.map_cons,
        List.map_nil, List.mem_singleton] at hmem
      rcases hmem with hm | hm
      · exact h1 hm
      · exact hk.1 hm.symm

theorem osetL_noDup {l : Fields} {k : String} {v : JVal}
    (h : noDupDeepF l = true) (hv : noDupDeepV v = true) :
    noDupDeepF (osetL l k v) = true := by
  induction l with
  | nil => exact noDupF_cons.mpr ⟨by simp, hv, rfl⟩
  | cons q rest ih =>
      obtain ⟨k1, v1⟩ := q
      obtain ⟨h1, h2, h3⟩ := noDupF_cons.mp h
      by_cases hk : k1 = k
      · simp only [osetL, hk, if_true]
        exact noDupF_cons.mpr ⟨hk ▸ h1, hv, h3⟩
      · simp only [osetL, hk, if_false]
        refine noDupF_cons.mpr ⟨?_, h2, ih h3⟩
        cases hl : lookupJ rest k with
        | some w =>
            rw [keys_osetL_of_isSome _ (by simp [hl])]
            exact h1
        | none =>
            rw [osetL_of_lookupJ_none _ hl]
            simp only [List.map_append, List.map_cons, List.map_nil, List.mem_append,
              List.mem_singleton, not_or]
            exact ⟨h1, hk⟩

theorem setdefaultL_noDup {l : Fields} {k : String} {d : JVal}
    (h : noDupDeepF l = true) (hd : noDupDeepV d = true) :
    noDupDeepF (setdefaultL l k d) = true := by
  unfold setdefaultL
  cases hl : lookupJ l k with
  | some v => exact h
  | none => exact noDupF_append_singleton h hd (lookupJ_eq_none_iff.mp hl)

mutual

theorem mergeVal_noDup : ∀ (v d : JVal), noDupDeepV d = true → noDupDeepV v = true →
    noDupDeepV (mergeVal d v) = true
  | JVal.obj pv, d, hd, hv => by
      cases d with
      | obj dv =>
          simp only [mergeVal, noDupDeepV]
          exact mergeFields_noDup pv dv (by simpa [noDupDeepV] using hd)
            (by simpa [noDupDeepV] using hv)
      | null => exact hv
      | bool b => exact hv
      | num n => exact hv
      | fnum q => exact hv
      | str s => exact hv
      | arr xs => exact hv
  | JVal.null, _, _, hv => hv
  | JVal.bool _, _, _, hv => hv
  | JVal.num _, _, _, hv => hv
  | JVal.fnum _, _, _, hv => hv
  | JVal.str _, _, _, hv => hv
  | JVal.arr _, _, _, hv => hv
termination_by v _ _ _ => sizeOf v

theorem mergeFields_noDup : ∀ (p d : Fields), noDupDeepF d = true → noDupDeepF p = true →
    noDupDeepF (mergeFields d p) = true
  | [], d, hd, _ => hd
  | (k, v) :: rest, d, hd, hp => by
      obtain ⟨hk, hv, hrest⟩ := noDupF_cons.mp hp
      rw [mergeFields_cons]
      refine mergeFields_noDup rest _ ?_ hrest
      refine osetL_noDup hd ?_
      rw [mergeNewv]
      cases hl : lookupJ d k with
      | some d0 => exact mergeVal_noDup v d0 (noDupF_lookupJ hd hl) hv
      | none => exact hv
termination_by p _ _ _ => sizeOf p

end

theorem noDupF_mem_lookupJ {l : Fields} {k : String} {v : JVal}
    (h : noDupDeepF l = true) (hm : (k, v) ∈ l) : lookupJ l k = some v := by
  induction l with
  | nil => cases hm
  | cons q rest ih =>
      obtain ⟨k1, v1⟩ := q
      obtain ⟨h1, _, h3⟩ := noDupF_cons.mp h
      rcases List.mem_cons.mp hm with hm | hm
      · obtain ⟨rfl, rfl⟩ := Prod.mk.injEq .. ▸ hm
        simp [lookupJ]
      · have hne : k1 ≠ k := by
          intro hkk
          exact h1 (hkk ▸ (List.mem_map_of_mem Prod.fst hm))
        simp only [lookupJ, hne, if_false]
        exact ih h3 hm

mutual

theorem pyEq_refl : ∀ (v : JVal), noDupDeepV v = true → pyEq v v = true
  | JVal.obj b, h => by
      simp only [pyEq, Bool.and_eq_true]
      constructor
      · exact pyEqFields_refl_sub b b (by simpa [noDupDeepV] using h)
          (fun kv hm => noDupF_mem_lookupJ (by simpa [noDupDeepV] using h) hm)
      · rw [List.all_eq_true]
        intro k hk
        have := lookupJ_isSome_of_mem_keys (l := b) (by simpa using hk)
        simpa using this
  | JVal.arr l, h => pyEqList_refl l (by simpa [noDupDeepV] using h)
  | JVal.null, _ => rfl
  | JVal.bool b, _ => by simp [pyEq]
  | JVal.num n, _ => by simp [pyEq]
  | JVal.fnum q, _ => by simp [pyEq]
  | JVal.str s, _ => by simp [pyEq]
termination_by v _ => (sizeOf v, 0)

theorem pyEqList_refl : ∀ (l : List JVal), noDupDeepL l = true → pyEqList l l = true
  | [], _ => rfl
  | x :: xs, h => by
      have hx : noDupDeepV x = true := by
        simp only [noDupDeepL, Bool.and_eq_true] at h
        exact h.1
      have hxs : noDupDeepL xs = true := by
        simp only [noDupDeepL, Bool.and_eq_true] at h
        exact h.2
      simp only [pyEqList, Bool.and_eq_true]
      exact ⟨pyEq_refl x hx, pyEqList_refl xs hxs⟩
termination_by l _ => (sizeOf l, 1)

theorem pyEqFields_refl_sub : ∀ (sub b : Fields), noDupDeepF sub = true →
    (∀ kv ∈ sub, lookupJ b kv.1 = some kv.2) → pyEqFields sub b = true
  | [], _, _, _ => rfl
  | (k, v) :: rest, b, h, hmem => by
      obtain ⟨_, hv, hrest⟩ := noDupF_cons.mp h
      simp only [pyEqFields, Bool.and_eq_true]
      refine ⟨?_, pyEqFields_refl_sub rest b hrest
        (fun kv hm => hmem kv (List.mem_cons_of_mem _ hm))⟩
      rw [hmem (k, v) (List.mem_cons_self _ _)]
      exact pyEq_refl v hv
termination_by sub _ _ _ => (sizeOf sub, 1)

end

mutual

theorem changedPaths_self : ∀ (v : JVal) (pre : String), noDupDeepV v = true →
    changedPaths v v pre = []
  | JVal.obj b, pre, h => by
      have hcf : changedFields b b pre = [] :=
        changedFields_nil_sub b b pre (by simpa [noDupDeepV] using h)
          (fun kv hm => noDupF_mem_lookupJ (by simpa [noDupDeepV] using h) hm)
      have hfm : List.filterMap
          (fun k => if (lookupJ b k).isSome = true then none else some (joinPath pre k))
          (List.map Prod.fst b) = [] := by
        rw [List.filterMap_eq_nil]
        intro k hk
        rw [if_pos (lookupJ_isSome_of_mem_keys (by simpa using hk))]
      rw [changedPaths, hcf, hfm]
      simp
  | JVal.arr l, pre, h => by
      rw [changedPaths]
      simp [pyEqList_refl l (by simpa [noDupDeepV] using h)]
  | JVal.null, pre, _ => by
      rw [changedPaths]
      simp [pyEq]
      all_goals intro b1 a1 h1 h2
      all_goals simp at h1
  | JVal.bool b, pre, _ => by
      rw [changedPaths]
      simp [pyEq]
      all_goals intro b1 a1 h1 h2
      all_goals simp at h1
  | JVal.num n, pre, _ => by
      rw [changedPaths]
      simp [pyEq]
      all_goals intro b1 a1 h1 h2
      all_goals simp at h1
  | JVal.fnum q, pre, _ => by
      rw [changedPaths]
      simp [pyEq]
      all_goals intro b1 a1 h1 h2
      all_goals simp at h1
  | JVal.str s, pre, _ => by
      rw [changedPaths]
      simp [pyEq]
      all_goals intro b1 a1 h1 h2
      all_goals simp at h1
termination_by v _ _ => (sizeOf v, 0)

theorem changedFields_nil_sub : ∀ (sub b : Fields) (pre : String), noDupDeepF sub = true →
    (∀ kv ∈ sub, lookupJ b kv.1 = some kv.2) → changedFields sub b pre = []
  | [], _, _, _, _ => rfl
  | (k, v) :: rest, b, pre, h, hmem => by
      obtain ⟨_, hv, hrest⟩ := noDupF_cons.mp h
      rw [changedFields]
      rw [hmem (k, v) (List.mem_cons_self _ _)]
      show changedPaths v v (joinPath pre k) ++ changedFields rest b pre = []
      rw [changedPaths_self v (joinPath pre k) hv]
      rw [changedFields_nil_sub rest b pre hrest
        (fun kv hm => hmem kv (List.mem_cons_of_mem _ hm))]
      rfl
termination_by sub _ _ _ _ => (sizeOf sub, 1)

end

/-- The nine working-memory keys are present, and a dict-valued `selected`
carries its two id-list keys (the state `_ensure_working_memory_defaults`
establishes and every later clearing step preserves). -/
def wmReady (w : Fields) : Prop :=
  (lookupJ w "flight_quotes").isSome ∧ (lookupJ w "hotel_quotes").isSome ∧
  (lookupJ w "flight_quotes_by_segment").isSome ∧
  (lookupJ w "hotel_quotes_by_stay").isSome ∧
  (lookupJ w "ranked_bundles").isSome ∧ (lookupJ w "risk_report").isSome ∧
  (lookupJ w "holds").isSome ∧ (lookupJ w "bookings").isSome ∧
  (lookupJ w "selected").isSome ∧
  ∀ s, lookupJ w "selected" = some (JVal.obj s) →
    (lookupJ s "flight_option_ids").isSome ∧ (lookupJ s "hotel_option_ids").isSome

theorem lookupJ_ensureSelectedIds_isSome {w : Fields} {k : String}
    (h : (lookupJ w k).isSome) : (lookupJ (ensureSelectedIds w) k).isSome := by
  unfold ensureSelectedIds
  cases hs : lookupJ w "selected" with
  | none => exact h
  | some v => cases v <;> first | exact h | exact lookupJ_osetL_isSome h

theorem ensureSelectedIds_shape (w : Fields) :
    ∀ s, lookupJ (ensureSelectedIds w) "selected" = some (JVal.obj s) →
      (lookupJ s "flight_option_ids").isSome ∧ (lookupJ s "hotel_option_ids").isSome := by
  unfold ensureSelectedIds
  cases hs : lookupJ w "selected" with
  | none => intro s hcontra; rw [hs] at hcontra; cases hcontra
  | some v =>
      cases v with
      | obj s0 =>
          intro s hsel
          rw [lookupJ_osetL_self] at hsel
          obtain rfl := (JVal.obj.injEq _ _).mp (Option.some_inj.mp hsel)
          constructor
          · exact lookupJ_setdefaultL_isSome (by simp [lookupJ_setdefaultL_self])
          · simp [lookupJ_setdefaultL_self]
      | null => intro s hc; rw [hs] at hc; cases Option.some_inj.mp hc
      | bool b => intro s hc; rw [hs] at hc; cases Option.some_inj.mp hc
      | num n => intro s hc; rw [hs] at hc; cases Option.some_inj.mp hc
      | fnum q => intro s hc; rw [hs] at hc; cases Option.some_inj.mp hc
      | str st => intro s hc; rw [hs] at hc; cases Option.some_inj.mp hc
      | arr xs => intro s hc; rw [hs] at hc; cases Option.some_inj.mp hc

theorem wmReady_ensureWM (w : Fields) : wmReady (ensureWMDefaults w) := by
  unfold ensureWMDefaults
  refine ⟨?_, ?_, ?_, ?_, ?_, ?_, ?_, ?_, ?_, ensureSelectedIds_shape _⟩
  all_goals apply lookupJ_ensureSelectedIds_isSome
  all_goals repeat
    first
    | (rw [lookupJ_setdefaultL_self]; rfl)
    | apply lookupJ_setdefaultL_isSome

theorem ensureWM_of_wmReady {w : Fields} (h : wmReady w) : ensureWMDefaults w = w := by
  obtain ⟨h1, h2, h3, h4, h5, h6, h7, h8, h9, h10⟩ := h
  simp only [ensureWMDefaults]
  rw [setdefaultL_of_isSome _ h1, setdefaultL_of_isSome _ h2, setdefaultL_of_isSome _ h3,
    setdefaultL_of_isSome _ h4, setdefaultL_of_isSome _ h5, setdefaultL_of_isSome _ h6,
    setdefaultL_of_isSome _ h7, setdefaultL_of_isSome _ h8, setdefaultL_of_isSome _ h9]
  unfold ensureSelectedIds
  cases hs : lookupJ w "selected" with
  | none => rfl
  | some v =>
      cases v with
      | obj s0 =>
          obtain ⟨hf, hh⟩ := h10 s0 hs
          show osetL w "selected" (JVal.obj (setdefaultL (setdefaultL s0 "flight_option_ids"
            (JVal.arr [])) "hotel_option_ids" (JVal.arr []))) = w
          rw [setdefaultL_of_isSome _ hf, setdefaultL_of_isSome _ hh,
            osetL_of_lookupJ_self hs]
      | null => rfl
      | bool b => rfl
      | num n => rfl
      | fnum q => rfl
      | str st => rfl
      | arr xs => rfl

theorem wmReady_osetL_nonobj {w : Fields} {key : String} {nv : JVal}
    (h : wmReady w) (hp : (lookupJ w key).isSome)
    (hnv : ∀ s, nv ≠ JVal.obj s) :
    wmReady (osetL w key nv) := by
  obtain ⟨h1, h2, h3, h4, h5, h6, h7, h8, h9, h10⟩ := h
  refine ⟨lookupJ_osetL_isSome h1, lookupJ_osetL_isSome h2, lookupJ_osetL_isSome h3,
    lookupJ_osetL_isSome h4, lookupJ_osetL_isSome h5, lookupJ_osetL_isSome h6,
    lookupJ_osetL_isSome h7, lookupJ_osetL_isSome h8, lookupJ_osetL_isSome h9, ?_⟩
  intro s hs
  by_cases hk : key = "selected"
  · subst hk
    rw [lookupJ_osetL_self] at hs
    exact absurd (Option.some_inj.mp hs) (hnv s)
  · rw [lookupJ_osetL_ne _ _ _ _ (fun hkk => hk hkk.symm)] at hs
    exact h10 s hs

theorem wmReady_clearKey (st : Fields × List String × List String)
    (key reason : String) (h : wmReady st.1) :
    wmReady (clearKey st key reason).1 := by
  obtain ⟨wm, c, r⟩ := st
  simp only [clearKey]
  cases hv : lookupJ wm key with
  | none => exact h
  | some v =>
      simp only []
      refine wmReady_osetL_nonobj h (by simp [hv]) ?_
      cases v <;> intro s hs <;> cases hs

theorem wmReady_clearSelection (st : Fields × List String × List String)
    (reason : String) (h : wmReady st.1) :
    wmReady (clearSelection st reason).1 := by
  obtain ⟨wm, c, r⟩ := st
  obtain ⟨h1, h2, h3, h4, h5, h6, h7, h8, h9, _⟩ := h
  simp only [clearSelection]
  refine ⟨lookupJ_osetL_isSome h1, lookupJ_osetL_isSome h2, lookupJ_osetL_isSome h3,
    lookupJ_osetL_isSome h4, lookupJ_osetL_isSome h5, lookupJ_osetL_isSome h6,
    lookupJ_osetL_isSome h7, lookupJ_osetL_isSome h8, lookupJ_osetL_isSome h9, ?_⟩
  intro s hs
  rw [lookupJ_osetL_self] at hs
  have hes : emptySelection = JVal.obj s := Option.some_inj.mp hs
  rw [emptySelection] at hes
  obtain rfl := (JVal.obj.injEq _ _).mp hes
  exact ⟨by decide, by decide⟩

theorem wmReady_invFlight (st : Fields × List String × List String)
    (h : wmReady st.1) : wmReady (invFlight st).1 :=
  wmReady_clearSelection _ _ (wmReady_clearKey _ _ _ (wmReady_clearKey _ _ _
    (wmReady_clearKey _ _ _ (wmReady_clearKey _ _ _ (wmReady_clearKey _ _ _ h)))))

theorem wmReady_invHotel (st : Fields × List String × List String)
    (h : wmReady st.1) : wmReady (invHotel st).1 :=
  wmReady_clearSelection _ _ (wmReady_clearKey _ _ _ (wmReady_clearKey _ _ _
    (wmReady_clearKey _ _ _ (wmReady_clearKey _ _ _ (wmReady_clearKey _ _ _ h)))))

theorem wmReady_invPolicy (st : Fields × List String × List String)
    (changed : List String) (h : wmReady st.1) : wmReady (invPolicy st changed).1 := by
  unfold invPolicy
  split
  · dsimp only
    split
    · split
      · exact wmReady_clearKey _ _ _ h
      · exact h
    · exact h
  · dsimp only
    split
    · split
      · exact wmReady_clearKey _ _ _ (wmReady_clearKey _ _ _ h)
      · exact wmReady_clearKey _ _ _ h
    · exact wmReady_clearKey _ _ _ h

theorem noDup_ensureSelectedIds {w : Fields} (h : noDupDeepF w = true) :
    noDupDeepF (ensureSelectedIds w) = true := by
  unfold ensureSelectedIds
  cases hs : lookupJ w "selected" with
  | none => exact h
  | some v =>
      cases v with
      | obj s0 =>
          refine osetL_noDup h ?_
          show noDupDeepF (setdefaultL (setdefaultL s0 "flight_option_ids" (JVal.arr []))
            "hotel_option_ids" (JVal.arr [])) = true
          exact setdefaultL_noDup (setdefaultL_noDup (noDupF_lookupJ h hs) rfl) rfl
      | null => exact h
      | bool b => exact h
      | num n => exact h
      | fnum q => exact h
      | str st => exact h
      | arr xs => exact h

theorem noDup_ensureWM {w : Fields} (h : noDupDeepF w = true) :
    noDupDeepF (ensureWMDefaults w) = true := by
  simp only [ensureWMDefaults]
  exact noDup_ensureSelectedIds (setdefaultL_noDup (setdefaultL_noDup (setdefaultL_noDup
    (setdefaultL_noDup (setdefaultL_noDup (setdefaultL_noDup (setdefaultL_noDup
    (setdefaultL_noDup (setdefaultL_noDup h rfl) rfl) rfl) rfl) rfl) rfl) rfl) rfl)
    (by decide))

theorem noDup_clearKey (st : Fields × List String × List String)
    (key reason : String) (h : noDupDeepF st.1 = true) :
    noDupDeepF (clearKey st key reason).1 = true := by
  obtain ⟨wm, c, r⟩ := st
  simp only [clearKey]
  cases hv : lookupJ wm key with
  | none => exact h
  | some v => cases v <;> exact osetL_noDup h rfl

theorem noDup_clearSelection (st : Fields × List String × List String)
    (reason : String) (h : noDupDeepF st.1 = true) :
    noDupDeepF (clearSelection st reason).1 = true := by
  obtain ⟨wm, c, r⟩ := st
  exact osetL_noDup h (by decide)

theorem noDup_invFlight (st : Fields × List String × List String)
    (h : noDupDeepF st.1 = true) : noDupDeepF (invFlight st).1 = true :=
  noDup_clearSelection _ _ (noDup_clearKey _ _ _ (noDup_clearKey _ _ _
    (noDup_clearKey _ _ _ (noDup_clearKey _ _ _ (noDup_clearKey _ _ _ h)))))

theorem noDup_invHotel (st : Fields × List String × List String)
    (h : noDupDeepF st.1 = true) : noDupDeepF (invHotel st).1 = true :=
  noDup_clearSelection _ _ (noDup_clearKey _ _ _ (noDup_clearKey _ _ _
    (noDup_clearKey _ _ _ (noDup_clearKey _ _ _ (noDup_clearKey _ _ _ h)))))

theorem noDup_invPolicy (st : Fields × List String × List String)
    (changed : List String) (h : noDupDeepF st.1 = true) :
    noDupDeepF (invPolicy st changed).1 = true := by
  unfold invPolicy
  split
  · dsimp only
    split
    · split
      · exact noDup_clearKey _ _ _ h
      · exact h
    · exact h
  · dsimp only
    split
    · split
      · exact noDup_clearKey _ _ _ (noDup_clearKey _ _ _ h)
      · exact noDup_clearKey _ _ _ h
    · exact noDup_clearKey _ _ _ h


theorem wmReady_ite (c : Prop) [Decidable c]
    (f : Fields × List String × List String → Fields × List String × List String)
    (st : Fields × List String × List String)
    (hf : ∀ s, wmReady s.1 → wmReady (f s).1) (h : wmReady st.1) :
    wmReady (if c then f st else st).1 := by
  split
  · exact hf st h
  · exact h

theorem noDup_ite (c : Prop) [Decidable c]
    (f : Fields × List String × List String → Fields × List String × List String)
    (st : Fields × List String × List String)
    (hf : ∀ s, noDupDeepF s.1 = true → noDupDeepF (f s).1 = true)
    (h : noDupDeepF st.1 = true) :
    noDupDeepF (if c then f st else st).1 = true := by
  split
  · exact hf st h
  · exact h

set_option maxHeartbeats 1600000 in
theorem invalidateCaches_shape {docF : Fields} {changed : List String}
    {out : Fields × List String × List String}
    (h : invalidateCaches docF changed = some out) (hnd : noDupDeepF docF = true) :
    ∃ W, out.1 = osetL (setdefaultL docF "working_memory" (JVal.obj []))
        "working_memory" (JVal.obj W) ∧ wmReady W ∧ noDupDeepF W = true := by
  simp only [invalidateCaches, pym_bind_eq_some, pym_pure_eq, Option.some.injEq] at h
  obtain ⟨wm0, hwm0, hout⟩ := h
  have hnd0 : noDupDeepF wm0 = true := by
    unfold setdefaultL at hwm0
    cases hl : lookupJ docF "working_memory" with
    | some v =>
        rw [hl] at hwm0
        rw [show getD docF "working_memory" JVal.null = v from by
          unfold getD; rw [hl]; rfl] at hwm0
        have := noDupF_lookupJ hnd hl
        rw [asObj_eq_some hwm0] at this
        exact this
    | none =>
        rw [hl] at hwm0
        rw [show getD (docF ++ [("working_memory", JVal.obj [])]) "working_memory"
            JVal.null = JVal.obj [] from by
          unfold getD
          rw [lookupJ_append_self docF "working_memory" (JVal.obj []) hl]
          rfl] at hwm0
        obtain rfl := (JVal.obj.injEq _ _).mp (asObj_eq_some hwm0).symm
        rfl
  refine ⟨_, congrArg Prod.fst hout.symm, ?_, ?_⟩
  · exact wmReady_ite _ _ _ (fun s hs => wmReady_invPolicy s changed hs)
      (wmReady_ite _ _ _ (fun s hs => wmReady_invHotel s hs)
        (wmReady_ite _ _ _ (fun s hs => wmReady_invFlight s hs) (wmReady_ensureWM wm0)))
  · exact noDup_ite _ _ _ (fun s hs => noDup_invPolicy s changed hs)
      (noDup_ite _ _ _ (fun s hs => noDup_invHotel s hs)
        (noDup_ite _ _ _ (fun s hs => noDup_invFlight s hs) (noDup_ensureWM hnd0)))

theorem invalidateCaches_nil_fix {m3 : Fields} {W : Fields}
    (hW : lookupJ m3 "working_memory" = some (JVal.obj W)) (hready : wmReady W) :
    invalidateCaches m3 [] = some (m3, [], []) := by
  unfold invalidateCaches
  rw [setdefaultL_of_isSome _ (by simp [hW])]
  have hg : getD m3 "working_memory" JVal.null = JVal.obj W := by
    unfold getD; rw [hW]; rfl
  dsimp only
  rw [hg]
  show some (osetL m3 "working_memory" (JVal.obj (ensureWMDefaults W)),
    ([] : List String), ([] : List String)) = some (m3, [], [])
  rw [ensureWM_of_wmReady hready, osetL_of_lookupJ_self hW]

theorem noDup_statusF {l : Fields} {k : String} {d : JVal} {sf : Fields}
    (hnd : noDupDeepF l = true) (hd : noDupDeepV d = true)
    (hsf : asObj (getD (setdefaultL l k d) k JVal.null) = some sf) :
    noDupDeepF sf = true := by
  rw [show getD (setdefaultL l k d) k JVal.null = (lookupJ l k).getD d from by
    unfold getD
    rw [lookupJ_setdefaultL_self]
    rfl] at hsf
  cases hl : lookupJ l k with
  | some v =>
      rw [hl] at hsf
      simp only [Option.getD_some] at hsf
      have := noDupF_lookupJ hnd hl
      rw [asObj_eq_some hsf] at this
      exact this
  | none =>
      rw [hl] at hsf
      simp only [Option.getD_none] at hsf
      rw [asObj_eq_some hsf] at hd
      exact hd

/-- Claim C7 (amended): the Merge/Invalidate Engine is idempotent for
patches that do not write `status` or `working_memory`: applying such a
patch twice (with no audit note) yields the same document as applying it
once.  The original unrestricted claim is refuted by `c7_counterexample`: a
patch that writes a `working_memory` value while also touching an
invalidation trigger is clobbered by the cache clearing on the first
application and re-applied by the second, so the two documents differ.
Sequence fields play no role: `_deep_merge` replaces lists wholesale.  The
duplicate-key freedom assumed of both dicts is automatic in the source. -/
theorem c7_amended_patcher_idempotent (dfx pfx : Fields) (source : String)
    (hdoc : noDupDeepF dfx = true) (hpatch : noDupDeepF pfx = true)
    (hst : "status" ∉ pfx.map Prod.fst) (hwm : "working_memory" ∉ pfx.map Prod.fst) :
    ∀ out1, patcherRun (.obj dfx) (.obj pfx) source "" = some out1 →
    ∀ out2, patcherRun out1.tripIntent (.obj pfx) source "" = some out2 →
      out2.tripIntent = out1.tripIntent := by
  intro out1 h1 out2 h2
  simp only [patcherRun, pym_bind_eq_some, pym_pure_eq, Option.some.injEq] at h1
  obtain ⟨df, hdf, pf, hpf, statusF, hstF, s2, hs2, x, hx, sugg, hsugg, hout⟩ := h1
  obtain ⟨m3, cleared, reasons⟩ := x
  obtain rfl : dfx = df := (JVal.obj.injEq _ _).mp (asObj_eq_some hdf)
  obtain rfl : pfx = pf := (JVal.obj.injEq _ _).mp (asObj_eq_some hpf)
  rw [show appendNote (setdefaultL statusF "notes" (JVal.arr [])) source "" =
    some (setdefaultL statusF "notes" (JVal.arr [])) from rfl] at hs2
  obtain rfl := (Option.some_inj.mp hs2).symm
  have htrip : out1.tripIntent = JVal.obj m3 := by
    cases hout
    rfl
  -- no-dup facts for the merged document
  have hnd_merged : noDupDeepF (mergeFields dfx pfx) = true :=
    mergeFields_noDup pfx dfx hdoc hpatch
  have hnd_m1 : noDupDeepF (setdefaultL (mergeFields dfx pfx) "status"
      (JVal.obj [])) = true := setdefaultL_noDup hnd_merged rfl
  have hnd_statusF : noDupDeepF statusF = true :=
    @noDup_statusF (mergeFields dfx pfx) "status" (JVal.obj []) statusF
      hnd_merged rfl hstF
  have hnd_s2 : noDupDeepF (setdefaultL statusF "notes" (JVal.arr [])) = true :=
    setdefaultL_noDup hnd_statusF rfl
  have hnd_m2 : noDupDeepF (osetL (setdefaultL (mergeFields dfx pfx) "status"
      (JVal.obj [])) "status" (JVal.obj (setdefaultL statusF "notes"
      (JVal.arr [])))) = true := osetL_noDup hnd_m1 hnd_s2
  obtain ⟨W, hm3, hready, hndW⟩ := invalidateCaches_shape hx hnd_m2
  replace hm3 : m3 = osetL (setdefaultL (osetL (setdefaultL (mergeFields dfx pfx)
      "status" (JVal.obj [])) "status" (JVal.obj (setdefaultL statusF "notes"
      (JVal.arr [])))) "working_memory" (JVal.obj [])) "working_memory"
      (JVal.obj W) := hm3
  have hnd_m3 : noDupDeepF m3 = true := by
    rw [hm3]
    exact osetL_noDup (setdefaultL_noDup hnd_m2 rfl) hndW
  have hstatus_m3 : lookupJ m3 "status" =
      some (JVal.obj (setdefaultL statusF "notes" (JVal.arr []))) := by
    rw [hm3, lookupJ_osetL_ne _ _ _ _ (by decide),
      lookupJ_setdefaultL_ne _ _ _ _ (by decide), lookupJ_osetL_self]
  have hWm3 : lookupJ m3 "working_memory" = some (JVal.obj W) := by
    rw [hm3, lookupJ_osetL_self]
  -- the second merge is the identity on the first run's output
  have hpres_merged : ∀ k2 ∈ pfx.map Prod.fst,
      (lookupJ (mergeFields dfx pfx) k2).isSome :=
    fun k2 hk2 => lookupJ_mergeFields_isSome_mem hk2
  have hpres_m2 : ∀ k2 ∈ pfx.map Prod.fst,
      (lookupJ (osetL (setdefaultL (mergeFields dfx pfx) "status" (JVal.obj []))
        "status" (JVal.obj (setdefaultL statusF "notes" (JVal.arr [])))) k2).isSome :=
    fun k2 hk2 => lookupJ_osetL_isSome (lookupJ_setdefaultL_isSome (hpres_merged k2 hk2))
  have hmerged2 : mergeFields m3 pfx = m3 := by
    rw [hm3]
    rw [mergeFields_osetL_comm hwm (by simp [lookupJ_setdefaultL_self])]
    rw [mergeFields_setdefaultL_comm hwm hpres_m2]
    rw [mergeFields_osetL_comm hst (by simp [lookupJ_setdefaultL_self])]
    rw [mergeFields_setdefaultL_comm hst hpres_merged]
    rw [mergeFields_merge_idem pfx dfx hpatch]
  -- unravel the second run
  rw [htrip] at h2
  simp only [patcherRun, pym_bind_eq_some, pym_pure_eq, Option.some.injEq] at h2
  obtain ⟨df2, hdf2, pf2, hpf2, statusF2, hstF2, s22, hs22, x2, hx2, sugg2, hsugg2,
    hout2⟩ := h2
  obtain ⟨m32, cl2, rs2⟩ := x2
  obtain rfl : m3 = df2 := (JVal.obj.injEq _ _).mp (asObj_eq_some hdf2)
  obtain rfl : pfx = pf2 := (JVal.obj.injEq _ _).mp (asObj_eq_some hpf2)
  rw [hmerged2] at hstF2 hx2
  have hm1fix : setdefaultL m3 "status" (JVal.obj []) = m3 :=
    setdefaultL_of_isSome _ (by simp [hstatus_m3])
  rw [hm1fix] at hstF2 hx2
  rw [show getD m3 "status" JVal.null =
      JVal.obj (setdefaultL statusF "notes" (JVal.arr [])) from by
    unfold getD; rw [hstatus_m3]; rfl] at hstF2
  obtain rfl := (Option.some_inj.mp hstF2).symm
  rw [show appendNote (setdefaultL (setdefaultL statusF "notes" (JVal.arr []))
      "notes" (JVal.arr [])) source "" =
      some (setdefaultL (setdefaultL statusF "notes" (JVal.arr []))
        "notes" (JVal.arr [])) from rfl] at hs22
  obtain rfl := (Option.some_inj.mp hs22).symm
  have hnotesfix : setdefaultL (setdefaultL statusF "notes" (JVal.arr []))
      "notes" (JVal.arr []) = setdefaultL statusF "notes" (JVal.arr []) :=
    setdefaultL_of_isSome _ (by simp [lookupJ_setdefaultL_self])
  rw [hnotesfix] at hx2
  rw [osetL_of_lookupJ_self hstatus_m3] at hx2
  rw [changedPaths_self (JVal.obj m3) "" hnd_m3] at hx2
  rw [invalidateCaches_nil_fix hWm3 hready] at hx2
  have hm32 : m3 = m32 := congrArg Prod.fst (Option.some_inj.mp hx2)
  cases hout2
  rw [htrip]
  show JVal.obj m32 = JVal.obj m3
  rw [← hm32]

mutual

/-- No list value anywhere (the "no sequence field" side condition of the
original claim). -/
def noArrDeepV : JVal → Bool
  | .arr _ => false
  | .obj l => noArrDeepF l
  | _ => true

def noArrDeepF : Fields → Bool
  | [] => true
  | (_, v) :: rest => noArrDeepV v && noArrDeepF rest

end

def c7df : Fields :=
  [("preferences", .obj [("flight", .obj [("cabin", .str "any")])]),
   ("working_memory", .obj [])]

def c7patch : Fields :=
  [("preferences", .obj [("flight", .obj [("cabin", .str "economy")])]),
   ("working_memory", .obj [("risk_report", .str "R")])]

def riskReportOf (v : JVal) : Option JVal := do
  let f ← asObj v
  let wm ← asObj (getD f "working_memory" JVal.null)
  pure (getD wm "risk_report" JVal.null)

/-- Counterexample to the original claim C7: a patch with no sequence field
that updates `preferences.flight.cabin` (an invalidation trigger) while also
writing `working_memory.risk_report`.  One application leaves
`risk_report = null` (the invalidation clears the value the merge wrote);
a second application re-merges the value, leaving `risk_report = "R"`, so
applying twice differs from applying once. -/
theorem c7_counterexample :
    noArrDeepF c7patch = true ∧
    ((patcherRun (.obj c7df) (.obj c7patch) "agent" "").bind
      (fun o1 => riskReportOf o1.tripIntent)) = some JVal.null ∧
    ((patcherRun (.obj c7df) (.obj c7patch) "agent" "").bind
      (fun o1 => (patcherRun o1.tripIntent (.obj c7patch) "agent" "").bind
        (fun o2 => riskReportOf o2.tripIntent))) = some (JVal.str "R") :=
  ⟨rfl, rfl, rfl⟩

def c7wdf : Fields := [("itinerary", .obj [("x", .num 1)])]

def c7wpatch : Fields := [("itinerary", .obj [("x", .num 2)])]

/-- Witness for the amended C7 on a concrete benign patch. -/
theorem c7_witness :
    noDupDeepF c7wdf = true ∧ noDupDeepF c7wpatch = true ∧
    "status" ∉ c7wpatch.map Prod.fst ∧ "working_memory" ∉ c7wpatch.map Prod.fst ∧
    ∃ out1, patcherRun (.obj c7wdf) (.obj c7wpatch) "agent" "" = some out1 ∧
      ∃ out2, patcherRun out1.tripIntent (.obj c7wpatch) "agent" "" = some out2 ∧
        out2.tripIntent = out1.tripIntent := by
  refine ⟨by decide, by decide, by decide, by decide, _, rfl, _, rfl, ?_⟩
  exact c7_amended_patcher_idempotent c7wdf c7wpatch "agent" (by decide) (by decide)
    (by decide) (by decide) _ rfl _ rfl

end Inca
